import Mathlib

/-!
A shallow embedding of the human-readable JSON Thrift protocol (read side).

The Go sources `json.go`, `wijson_helper.go` and `wijson_protocol.go` are embedded as
Lean functions.

* A decoded JSON document is a `Json` tree.  A Go `map[string]interface{}` is an
  association list whose order is the order in which `range` visits the map on this
  run; an index expression `m[k]` is `List.lookup`.
* A `float64` is modelled by its exact rational value (every finite `float64` is a
  rational number, and `encoding/json` only yields finite values).
* A Go function of `json.go` that can panic (failed type assertion, index out of range)
  returns an `Option`: `none` is the panic. The methods of the protocol return a `Run`,
  which tells a return from a panic.
* A Go `error` result is an `Option Err`: `none` is `nil`.
* Methods of `*WIJSONProtocol` take the protocol state and return the new state.
* The mutually recursive `parse`, `parseStruct`, `parseMap`, `parseList` recurse on a fuel
  counter (`parseN`, ...); `parse`, ... supply enough fuel for the value at hand, and
  `fuelOk` shows that any larger amount gives the same result, never `Run.exhausted`.
-/

namespace WIJSON

/-! ## json.go -/

/-- What `encoding/json` decodes into an `interface{}`. -/
inductive Json where
  | null
  | bool (b : Bool)
  | num (q : Rat)
  | str (s : String)
  | arr (xs : List Json)
  | obj (kvs : List (String × Json))

/-- The Go type `Object`, a `map[string]interface{}`. -/
abbrev Object := List (String × Json)

/-- Size of a JSON value: the measure under which the linearizer recurses. -/
def Json.size : Json → Nat
  | .null => 1
  | .bool _ => 1
  | .num _ => 1
  | .str _ => 1
  | .arr xs => 1 + sizeL xs
  | .obj kvs => 1 + sizeO kvs
where
  sizeL : List Json → Nat
    | [] => 0
    | x :: xs => 1 + size x + sizeL xs
  sizeO : List (String × Json) → Nat
    | [] => 0
    | (_, v) :: kvs => 2 + size v + sizeO kvs

/-- The thrift library's `TProtocolException` type codes that this package passes to
`NewTProtocolExceptionWithType`. Modelled from the spec: the thrift library is not part of
the sources, only the two constant names used are kept. -/
inductive TProtocolExceptionType where
  | INVALID_DATA
  | INVALID_MESSAGE_TYPE_EXCEPTION
  deriving DecidableEq, Repr

/-- A Go `error` value, compared by content. -/
inductive Err where
  /-- The value of `errors.New(msg)` (also `fmt.Errorf` with a string argument). -/
  | New (msg : String)
  /-- The value of `errors.New(fmt.Sprintf("Expected Json Object got %t", request))`. -/
  | expectedJsonObject (request : Json)
  /-- The value of `thrift.NewTProtocolExceptionWithType(t, cause)`. -/
  | TProtocolException (t : TProtocolExceptionType) (cause : Err)

def errInvalidKey : Err := Err.New "Invalid Key"

def errInvalidJson : Err := Err.New "Invalid JSON data"

/-- The index expression `json[key]` on a Go map: the nil interface (JSON null) when the
key is absent. -/
def Object.index (json : Object) (key : String) : Json :=
  (json.lookup key).getD Json.null

/-- Go `NewJson`, on the result of `json.Unmarshal(data, &m)`. -/
def NewJson (unmarshal : Except Err Json) : Except Err Object :=
  match unmarshal with
  | .error err => .error err
  | .ok (.obj json) => .ok json
  | .ok _ => .error errInvalidJson

/-- Go `toJson`: the unchecked assertion `val.(map[string]interface{})`. -/
def toJson (val : Json) : Option Object :=
  match val with
  | .obj m => some m
  | _ => none

/-- Go `toJsonCheck`: the checked type switch; `none` is the result `(nil, false)`. -/
def toJsonCheck (val : Json) : Option Object :=
  match val with
  | .obj vx => some vx
  | _ => none

/-- Go `ToJsonArrayCheck`: the checked type switch; `none` is the result `(nil, false)`. -/
def ToJsonArrayCheck (val : Json) : Option (List Json) :=
  match val with
  | .arr vx => some vx
  | _ => none

/-- Go `getVal(keys...)`: descend through all keys but the last, return the value at the
last one. With no key at all `keys[l]` is out of range. -/
def getVal (json : Object) : List String → Option Json
  | [] => none
  | [k] => some (json.index k)
  | k :: ks => (toJson (json.index k)).bind (fun current => getVal current ks)

/-- Integer part of a `float64`: the fraction is discarded (truncation towards zero). -/
def truncate (v : Rat) : Int := Int.tdiv v.num (v.den : Int)

/-- The conversion of a `float64` to a 32-bit integer register. A value outside the
int32 range has an implementation-dependent result in Go; the compiler for amd64 yields
the most negative integer, which is what is modelled. -/
def cvt32 (v : Rat) : Int :=
  if -2147483648 ≤ truncate v ∧ truncate v < 2147483648 then truncate v else -2147483648

/-- The Go conversion `byte(v)` of a `float64`: through a 32-bit register, low 8 bits. -/
def byteOfFloat64 (v : Rat) : Nat := (cvt32 v % 256).toNat

/-- The Go conversion `int16(v)` of a `float64`: through a 32-bit register, low 16 bits. -/
def int16OfFloat64 (v : Rat) : Int := (cvt32 v + 32768) % 65536 - 32768

/-- The Go conversion `int32(v)` of a `float64`. -/
def int32OfFloat64 (v : Rat) : Int := cvt32 v

/-- The Go conversion `int64(v)` of a `float64`; out of range it yields the most
negative integer on amd64. -/
def int64OfFloat64 (v : Rat) : Int :=
  if -9223372036854775808 ≤ truncate v ∧ truncate v < 9223372036854775808 then truncate v
  else -9223372036854775808

/-- Go `getDefaultInt16Val`. -/
def getDefaultInt16Val (json : Object) (key : String) (defaultVal : Int) : Option Int :=
  match json.lookup key with
  | some (.num val) => some (int16OfFloat64 val)
  | some _ => none
  | none => some defaultVal

/-- Go `getDefaultInt32Val`. -/
def getDefaultInt32Val (json : Object) (key : String) (defaultVal : Int) : Option Int :=
  match json.lookup key with
  | some (.num val) => some (int32OfFloat64 val)
  | some _ => none
  | none => some defaultVal

/-- Go `getStringVal`. -/
def getStringVal (json : Object) (keys : List String) : Option String :=
  match getVal json keys with
  | some (.str s) => some s
  | _ => none

/-- Go `getArrayVal`. -/
def getArrayVal (json : Object) (keys : List String) : Option (List Json) :=
  match getVal json keys with
  | some (.arr a) => some a
  | _ => none

/-- Go `getJsonVal`. -/
def getJsonVal (json : Object) (keys : List String) : Option Object :=
  (getVal json keys).bind toJson

/-- Go `findInJsonArray`: the first object of the array whose value at `key` is the string
`val`; `none` is the nil `Object`. -/
def findInJsonArray (arr : List Json) (key : String) (val : String) : Option Object :=
  match arr with
  | [] => none
  | v :: rest =>
    match v with
    | .obj vx =>
      match Object.index vx key with
      | .str s => if s = val then some vx else findInJsonArray rest key val
      | _ => findInJsonArray rest key val
    | _ => findInJsonArray rest key val

/-- Go `getBoolVal`. -/
def getBoolVal (json : Object) (keys : List String) : Option Bool :=
  match getVal json keys with
  | some (.bool b) => some b
  | _ => none

/-- Go `getDefaultStringVal`. -/
def getDefaultStringVal (json : Object) (key defaultVal : String) : Option String :=
  match json.lookup key with
  | some (.str val) => some val
  | some _ => none
  | none => some defaultVal

/-- Go `hasKey`. -/
def hasKey (json : Object) (key : String) : Bool :=
  (json.lookup key).isSome

/-- Go `getArrayValSafe`: the outer `Option` is the panic of `getVal`, the inner result the
returned `(Array, error)`. -/
def getArrayValSafe (json : Object) (keys : List String) : Option (Except Err (List Json)) :=
  match getVal json keys with
  | none => none
  | some (.arr val) => some (.ok val)
  | some _ => some (.error errInvalidKey)

/-! ## wijson_protocol.go: constants and state -/

def methodKey : String := "method"
def servicesKey : String := "services"
def nameKey : String := "name"
def argumentsKey : String := "arguments"
def resultKey : String := "result"
def successKey : String := "success"
def exceptionsKey : String := "exceptions"
def exceptionKey : String := "exception"
def functionsKey : String := "functions"
def keyKey : String := "key"
def onewayKey : String := "oneway"
def fieldsKey : String := "fields"
def structsKey : String := "structs"
def messageKey : String := "message"
def classKey : String := "class"
def typeIdKey : String := "typeId"
def typeKey : String := "type"
def keyTypeIdKey : String := "keyTypeId"
def keyTypeKey : String := "keyType"
def valueTypeIdKey : String := "valueTypeId"
def valueTypeKey : String := "valueType"
def elemTypeIdKey : String := "elemTypeId"
def elemTypeKey : String := "elemType"
def returnTypeIdKey : String := "returnTypeId"
def returnTypeKey : String := "returnType"

/-- The wire-type tags `thrift.TType`. Modelled from the spec: the thrift library is not
part of the sources; these are the tags the spec lists for the type-tag mapper. -/
inductive TType where
  | STOP | BOOL | BYTE | DOUBLE | I16 | I32 | I64 | STRING | STRUCT | MAP | SET | LIST
  deriving DecidableEq, Repr

/-- The message types `thrift.TMessageType`. Modelled from the spec: the thrift library is
not part of the sources. -/
inductive TMessageType where
  | INVALID_TMESSAGE_TYPE | CALL | REPLY | EXCEPTION | ONEWAY
  deriving DecidableEq, Repr

/-- The constant `thrift.UNKNOWN_APPLICATION_EXCEPTION`. Modelled from the spec: the thrift
library is not part of the sources; the library numbers its application exception types
from this one, 0. -/
def UNKNOWN_APPLICATION_EXCEPTION : Int := 0

/-- An element of `params []interface{}`: a value together with its dynamic Go type. -/
inductive Token where
  | string (s : String)
  | TType (t : TType)
  | int16 (n : Int)
  | int (n : Int)
  | bool (b : Bool)
  | byte (n : Nat)
  | int32 (n : Int)
  | int64 (n : Int)
  | float64 (v : Rat)
  deriving DecidableEq

/-- The fields of `WIJSONProtocol` that the read side uses (the transport and the output
protocol are left out). -/
structure WIJSONProtocol where
  request : Object
  metadata : List Json
  service : String
  params : List Token
  err : Option Err

/-- Go `NewWIJSONProtocol`. -/
def NewWIJSONProtocol (metadata : List Json) (service : String) : WIJSONProtocol :=
  { request := [], metadata := metadata, service := service, params := [], err := none }

/-! ## wijson_helper.go -/

/-- Go `getMethodInfo`: the outer `Option` is a panic, the inner result `(Object, error)`. -/
def getMethodInfo (metadata : List Json) (serviceName methodName : String) :
    Option (Except Err Object) :=
  match metadata with
  | [] => some (.error (Err.New (serviceName ++ "::" ++ methodName ++ " not found!")))
  | v :: rest =>
    match toJsonCheck v with
    | none => getMethodInfo rest serviceName methodName
    | some pkg =>
      match getArrayValSafe pkg [servicesKey] with
      | none => none
      | some (.error _) => getMethodInfo rest serviceName methodName
      | some (.ok svcs) =>
        match getStringVal pkg [nameKey] with
        | none => none
        | some pkgName =>
          match findInJsonArray svcs nameKey (pkgName ++ "." ++ serviceName) with
          | none => getMethodInfo rest serviceName methodName
          | some svc =>
            match getArrayVal svc [functionsKey] with
            | none => none
            | some functions =>
              match findInJsonArray functions nameKey methodName with
              | some methodInfo => some (.ok methodInfo)
              | none => getMethodInfo rest serviceName methodName

/-- Go `strings.Split(s, ".")` on the characters of `s`: `cur` holds the reversed characters
of the part being read. -/
def splitDot (cur : List Char) : List Char → List String
  | [] => [String.mk cur.reverse]
  | c :: cs => if c = '.' then String.mk cur.reverse :: splitDot [] cs else splitDot (c :: cur) cs

/-- Go `getInfo`: `none` is a panic (no second part in the class name, no such package, or
no `structs` array in it); `some none` is the nil `Object`. -/
def getInfo (protocol : WIJSONProtocol) (cls : String) : Option (Option Object) :=
  match splitDot [] cls.data with
  | p0 :: p1 :: _ =>
    match getArrayVal ((findInJsonArray protocol.metadata nameKey p0).getD []) [structsKey] with
    | none => none
    | some structs => some (findInJsonArray structs nameKey p1)
  | _ => none

/-- Go `getStructFieldList`. -/
def getStructFieldList (protocol : WIJSONProtocol) (elemType : Object) : Option (List Json) :=
  match getStringVal elemType [classKey] with
  | none => none
  | some cls =>
    match getInfo protocol cls with
    | none => none
    | some info => getArrayVal (info.getD []) [fieldsKey]

/-- Go `add`. -/
def add (protocol : WIJSONProtocol) (elem : List Token) : WIJSONProtocol :=
  { protocol with params := protocol.params ++ elem }

/-- Go `slice`: panics when fewer than `num` elements are buffered. -/
def slice (protocol : WIJSONProtocol) (num : Nat) : Option (List Token × WIJSONProtocol) :=
  if num ≤ protocol.params.length then
    some (protocol.params.take num, { protocol with params := protocol.params.drop num })
  else none

/-- Go `StringToTypeId`: the returned pair `(TType, error)`. -/
def StringToTypeId (fieldType : String) : TType × Option Err :=
  if fieldType = "bool" then (TType.BOOL, none)
  else if fieldType = "i8" then (TType.BYTE, none)
  else if fieldType = "i16" then (TType.I16, none)
  else if fieldType = "i32" then (TType.I32, none)
  else if fieldType = "i64" then (TType.I64, none)
  else if fieldType = "double" then (TType.DOUBLE, none)
  else if fieldType = "string" then (TType.STRING, none)
  else if fieldType = "struct" ∨ fieldType = "union" ∨ fieldType = "exception" then
    (TType.STRUCT, none)
  else if fieldType = "map" then (TType.MAP, none)
  else if fieldType = "set" then (TType.SET, none)
  else if fieldType = "list" then (TType.LIST, none)
  else (TType.STOP, some (Err.TProtocolException TProtocolExceptionType.INVALID_DATA
    (Err.New ("Unknown type identifier: " ++ fieldType))))

/-- The triple `("", thrift.TType(thrift.STOP), int16(-1))`. -/
def stopField : List Token := [Token.string "", Token.TType TType.STOP, Token.int16 (-1)]

/-- Outcome of a Go call in the model: it returns, it panics, or the model ran out of the
fuel that bounds its recursion depth. -/
inductive Run (α : Type) where
  | ret (a : α)
  | panic
  | exhausted

mutual

/-- Go `parse`, with recursion depth bounded by `fuel`: the result is the returned `error`
and the protocol state. -/
def parseN (fuel : Nat) (protocol : WIJSONProtocol) (fieldInfo : Object) (value : Json)
    (fieldTypeIdKey fieldTypeKey : String) : Run (Option Err × WIJSONProtocol) :=
  match fuel with
  | 0 => .exhausted
  | fuel + 1 =>
  match getStringVal fieldInfo [fieldTypeIdKey] with
  | none => .panic
  | some fieldType =>
    if fieldType = "bool" then
      match value with
      | .bool v => .ret (none, add protocol [Token.bool v])
      | _ => .ret (some (Err.New "Expected bool"), protocol)
    else if fieldType = "i8" then
      match value with
      | .num v => .ret (none, add protocol [Token.byte (byteOfFloat64 v)])
      | _ => .ret (some (Err.New "Expected byte"), protocol)
    else if fieldType = "i16" then
      match value with
      | .num v => .ret (none, add protocol [Token.int16 (int16OfFloat64 v)])
      | _ => .ret (some (Err.New "Expected int16"), protocol)
    else if fieldType = "i32" then
      match value with
      | .num v => .ret (none, add protocol [Token.int32 (int32OfFloat64 v)])
      | _ => .ret (some (Err.New "Expected int32"), protocol)
    else if fieldType = "i64" then
      match value with
      | .num v => .ret (none, add protocol [Token.int64 (int64OfFloat64 v)])
      | _ => .ret (some (Err.New "Expected int64"), protocol)
    else if fieldType = "double" then
      match value with
      | .num v => .ret (none, add protocol [Token.float64 v])
      | _ => .ret (some (Err.New "Expected double"), protocol)
    else if fieldType = "string" then
      match value with
      | .str v => .ret (none, add protocol [Token.string v])
      | _ => .ret (some (Err.New "Expected string"), protocol)
    else if fieldType = "struct" ∨ fieldType = "union" ∨ fieldType = "exception" then
      match getJsonVal fieldInfo [fieldTypeKey] with
      | none => .panic
      | some elemType =>
        match getStructFieldList protocol elemType with
        | none => .panic
        | some fieldsList => parseStructN fuel protocol fieldsList value
    else if fieldType = "map" then
      match getJsonVal fieldInfo [fieldTypeKey] with
      | none => .panic
      | some info => parseMapN fuel protocol info value
    else if fieldType = "set" ∨ fieldType = "list" then
      match getJsonVal fieldInfo [fieldTypeKey] with
      | none => .panic
      | some info => parseListN fuel protocol info value
    else .ret (some (Err.New ("Unexpected type " ++ fieldType)), protocol)

/-- Go `parseMap`, with recursion depth bounded by `fuel`. -/
def parseMapN (fuel : Nat) (protocol : WIJSONProtocol) (fieldInfo : Object) (request : Json) :
    Run (Option Err × WIJSONProtocol) :=
  match fuel with
  | 0 => .exhausted
  | fuel + 1 =>
  match toJsonCheck request with
  | some object =>
    match getStringVal fieldInfo [keyTypeIdKey] with
    | none => .panic
    | some keyTypeId =>
      match StringToTypeId keyTypeId with
      | (_, some err) => .ret (some err, protocol)
      | (keyType, none) =>
        match getStringVal fieldInfo [valueTypeIdKey] with
        | none => .panic
        | some valueTypeId =>
          match StringToTypeId valueTypeId with
          | (_, some err) => .ret (some err, protocol)
          | (valueType, none) =>
            parseMapRangeN fuel
              (add protocol [Token.TType keyType, Token.TType valueType, Token.int object.length])
              fieldInfo object
  | none => .ret (some (Err.New "Expected Map (Json Object)"), protocol)

/-- The loop `for key, value := range object` of `parseMap`, on the entries still to be
visited. -/
def parseMapRangeN (fuel : Nat) (protocol : WIJSONProtocol) (fieldInfo : Object)
    (object : Object) : Run (Option Err × WIJSONProtocol) :=
  match fuel with
  | 0 => .exhausted
  | fuel + 1 =>
  match object with
  | [] => .ret (none, protocol)
  | (key, value) :: rest =>
    match parseN fuel protocol fieldInfo (Json.str key) keyTypeIdKey keyTypeKey with
    | .ret (none, protocol1) =>
      match parseN fuel protocol1 fieldInfo value valueTypeIdKey valueTypeKey with
      | .ret (none, protocol2) => parseMapRangeN fuel protocol2 fieldInfo rest
      | r => r
    | r => r

/-- Go `parseList`, with recursion depth bounded by `fuel`. -/
def parseListN (fuel : Nat) (protocol : WIJSONProtocol) (fieldInfo : Object) (request : Json) :
    Run (Option Err × WIJSONProtocol) :=
  match fuel with
  | 0 => .exhausted
  | fuel + 1 =>
  match ToJsonArrayCheck request with
  | some array =>
    match getStringVal fieldInfo [elemTypeIdKey] with
    | none => .panic
    | some elemTypeId =>
      match StringToTypeId elemTypeId with
      | (_, some err) => .ret (some err, protocol)
      | (elemType, none) =>
        parseListRangeN fuel (add protocol [Token.TType elemType, Token.int array.length])
          fieldInfo array
  | none => .ret (some (Err.New "Expected Json Array"), protocol)

/-- The loop `for _, value := range array` of `parseList`, on the elements still to be
visited. -/
def parseListRangeN (fuel : Nat) (protocol : WIJSONProtocol) (fieldInfo : Object)
    (array : List Json) : Run (Option Err × WIJSONProtocol) :=
  match fuel with
  | 0 => .exhausted
  | fuel + 1 =>
  match array with
  | [] => .ret (none, protocol)
  | value :: rest =>
    match parseN fuel protocol fieldInfo value elemTypeIdKey elemTypeKey with
    | .ret (none, protocol1) => parseListRangeN fuel protocol1 fieldInfo rest
    | r => r

/-- Go `parseStruct`, with recursion depth bounded by `fuel`. -/
def parseStructN (fuel : Nat) (protocol : WIJSONProtocol) (fieldsList : List Json)
    (request : Json) : Run (Option Err × WIJSONProtocol) :=
  match fuel with
  | 0 => .exhausted
  | fuel + 1 =>
  match toJsonCheck request with
  | some object =>
    match parseStructRangeN fuel protocol fieldsList object with
    | .ret (none, protocol1) => .ret (none, add protocol1 stopField)
    | r => r
  | none => .ret (some (Err.expectedJsonObject request), protocol)

/-- The loop `for key, value := range object` of `parseStruct`, on the entries still to
be visited. -/
def parseStructRangeN (fuel : Nat) (protocol : WIJSONProtocol) (fieldsList : List Json)
    (object : Object) : Run (Option Err × WIJSONProtocol) :=
  match fuel with
  | 0 => .exhausted
  | fuel + 1 =>
  match object with
  | [] => .ret (none, protocol)
  | (key, value) :: rest =>
    match findInJsonArray fieldsList nameKey key with
    | none => .ret (some (Err.New ("Unexpected key " ++ key)), protocol)
    | some fieldInfo =>
      match getStringVal fieldInfo [typeIdKey] with
      | none => .panic
      | some typeId =>
        match StringToTypeId typeId with
        | (_, some err) => .ret (some err, protocol)
        | (fieldType, none) =>
          match getDefaultInt16Val fieldInfo keyKey 0 with
          | none => .panic
          | some key16 =>
            match parseN fuel
                (add protocol [Token.string key, Token.TType fieldType, Token.int16 key16])
                fieldInfo value typeIdKey typeKey with
            | .ret (none, protocol1) => parseStructRangeN fuel protocol1 fieldsList rest
            | r => r

end

/-- The statement that `n` units of fuel are enough for every value of size below `n / 2`:
one more unit changes nothing, and the fuel is not exhausted. -/
def FuelOk (n : Nat) : Prop :=
  (∀ p fi v k1 k2, 2 * Json.size v + 1 < n →
    parseN n p fi v k1 k2 ≠ .exhausted ∧ parseN (n + 1) p fi v k1 k2 = parseN n p fi v k1 k2) ∧
  (∀ p fi v, 2 * Json.size v < n →
    parseMapN n p fi v ≠ .exhausted ∧ parseMapN (n + 1) p fi v = parseMapN n p fi v) ∧
  (∀ p fi o, 2 * Json.size.sizeO o < n →
    parseMapRangeN n p fi o ≠ .exhausted ∧
      parseMapRangeN (n + 1) p fi o = parseMapRangeN n p fi o) ∧
  (∀ p fi v, 2 * Json.size v < n →
    parseListN n p fi v ≠ .exhausted ∧ parseListN (n + 1) p fi v = parseListN n p fi v) ∧
  (∀ p fi a, 2 * Json.size.sizeL a < n →
    parseListRangeN n p fi a ≠ .exhausted ∧
      parseListRangeN (n + 1) p fi a = parseListRangeN n p fi a) ∧
  (∀ p fl v, 2 * Json.size v < n →
    parseStructN n p fl v ≠ .exhausted ∧ parseStructN (n + 1) p fl v = parseStructN n p fl v) ∧
  (∀ p fl o, 2 * Json.size.sizeO o < n →
    parseStructRangeN n p fl o ≠ .exhausted ∧
      parseStructRangeN (n + 1) p fl o = parseStructRangeN n p fl o)

/-- Go `parse`: the fuel covers the whole recursion on `value` (see `fuelOk`). -/
def parse (protocol : WIJSONProtocol) (fieldInfo : Object) (value : Json)
    (fieldTypeIdKey fieldTypeKey : String) : Run (Option Err × WIJSONProtocol) :=
  parseN (2 * value.size + 1 + 1) protocol fieldInfo value fieldTypeIdKey fieldTypeKey

/-- Go `parseMap`. -/
def parseMap (protocol : WIJSONProtocol) (fieldInfo : Object) (request : Json) :
    Run (Option Err × WIJSONProtocol) :=
  parseMapN (2 * request.size + 1) protocol fieldInfo request

/-- Go `parseList`. -/
def parseList (protocol : WIJSONProtocol) (fieldInfo : Object) (request : Json) :
    Run (Option Err × WIJSONProtocol) :=
  parseListN (2 * request.size + 1) protocol fieldInfo request

/-- Go `parseStruct`. -/
def parseStruct (protocol : WIJSONProtocol) (fieldsList : List Json) (request : Json) :
    Run (Option Err × WIJSONProtocol) :=
  parseStructN (2 * request.size + 1) protocol fieldsList request

/-- The loop of `parseMap` with enough fuel. -/
def parseMapRange (protocol : WIJSONProtocol) (fieldInfo : Object) (object : Object) :
    Run (Option Err × WIJSONProtocol) :=
  parseMapRangeN (2 * Json.size.sizeO object + 1) protocol fieldInfo object

/-- The loop of `parseList` with enough fuel. -/
def parseListRange (protocol : WIJSONProtocol) (fieldInfo : Object) (array : List Json) :
    Run (Option Err × WIJSONProtocol) :=
  parseListRangeN (2 * Json.size.sizeL array + 1) protocol fieldInfo array

/-- The loop of `parseStruct` with enough fuel. -/
def parseStructRange (protocol : WIJSONProtocol) (fieldsList : List Json) (object : Object) :
    Run (Option Err × WIJSONProtocol) :=
  parseStructRangeN (2 * Json.size.sizeO object + 1) protocol fieldsList object

/-! ## wijson_protocol.go: the readers -/

/-- Go `getMessageTypeAndSeq`; `methodInfo` is `none` for the nil `Object`. -/
def getMessageTypeAndSeq (protocol : WIJSONProtocol) (methodInfo : Option Object) :
    Option (TMessageType × Int) :=
  if hasKey protocol.request argumentsKey then
    match methodInfo with
    | none => some (TMessageType.CALL, 0)
    | some info =>
      match getBoolVal info [onewayKey] with
      | none => none
      | some true => some (TMessageType.ONEWAY, 0)
      | some false => some (TMessageType.CALL, 0)
  else if hasKey protocol.request resultKey then some (TMessageType.REPLY, 1)
  else if hasKey protocol.request exceptionKey then some (TMessageType.EXCEPTION, 1)
  else some (TMessageType.INVALID_TMESSAGE_TYPE, 0)

/-- The first key that `range result` visits, as the loop with `break` leaves it in
`errName`. -/
def firstKey (result : Object) : String :=
  match result with
  | [] => ""
  | (key, _) :: _ => key

/-- The result `(string, thrift.TMessageType, int32, error)` of `ReadMessageBegin`. -/
abbrev MessageBegin := String × TMessageType × Int × Option Err

/-- Go `ReadMessageBegin`. `readErr` is the error of `ioutil.ReadAll` when it is not an EOF,
`unmarshal` the result of `json.Unmarshal` on the bytes read. -/
def ReadMessageBegin (protocol : WIJSONProtocol) (readErr : Option Err)
    (unmarshal : Except Err Json) : Run (MessageBegin × WIJSONProtocol) :=
  match readErr with
  | some err =>
    .ret (("", TMessageType.INVALID_TMESSAGE_TYPE, 0,
      some (Err.TProtocolException TProtocolExceptionType.INVALID_DATA err)), protocol)
  | none =>
  match NewJson unmarshal with
  | .error err =>
    .ret (("", TMessageType.INVALID_TMESSAGE_TYPE, 0,
      some (Err.TProtocolException TProtocolExceptionType.INVALID_DATA err)),
      { protocol with request := [] })
  | .ok request =>
  match getDefaultStringVal request methodKey "" with
  | none => .panic
  | some name =>
  match getMethodInfo protocol.metadata protocol.service name with
  | none => .panic
  | some lookup =>
  match getMessageTypeAndSeq { protocol with request := request } lookup.toOption with
  | none => .panic
  | some (typeId, seqId) =>
  if hasKey request argumentsKey then
    match lookup with
    | .error _ =>
      .ret ((name, typeId, seqId, none), add { protocol with request := request } stopField)
    | .ok methodInfo =>
      match getArrayVal methodInfo [argumentsKey] with
      | none => .panic
      | some fieldsList =>
        match getJsonVal request [argumentsKey] with
        | none => .panic
        | some arguments =>
          match parseStruct { protocol with request := request } fieldsList
              (Json.obj arguments) with
          | .ret (err, protocol1) =>
            .ret ((name, typeId, seqId, none), { protocol1 with err := err })
          | .panic => .panic
          | .exhausted => .exhausted
  else if hasKey request resultKey then
    match lookup with
    | .error _ =>
      .ret ((name, typeId, seqId, none), add { protocol with request := request } stopField)
    | .ok methodInfo =>
      match getJsonVal request [resultKey] with
      | none => .panic
      | some result =>
        if hasKey result successKey then
          match getStringVal methodInfo [returnTypeIdKey] with
          | none => .panic
          | some returnTypeId =>
            match StringToTypeId returnTypeId with
            | (_, some err) =>
              .ret ((name, typeId, seqId, none),
                { protocol with request := request, err := some err })
            | (returnType, none) =>
              match parse
                  (add { protocol with request := request }
                    [Token.string "", Token.TType returnType, Token.int16 0])
                  methodInfo (Object.index result successKey) returnTypeIdKey returnTypeKey with
              | .ret (err, protocol1) =>
                .ret ((name, typeId, seqId, none), add { protocol1 with err := err } stopField)
              | .panic => .panic
              | .exhausted => .exhausted
        else if result.length = 0 then
          .ret ((name, typeId, seqId, none), add { protocol with request := request } stopField)
        else
          match getArrayVal methodInfo [exceptionsKey] with
          | none => .panic
          | some exceptions =>
            match findInJsonArray exceptions nameKey (firstKey result) with
            | none =>
              .ret (("", TMessageType.INVALID_TMESSAGE_TYPE, 0,
                some (Err.TProtocolException TProtocolExceptionType.INVALID_DATA
                  (Err.New "Unable to parse result"))), { protocol with request := request })
            | some errInfo =>
              match getDefaultInt16Val errInfo keyKey 1 with
              | none => .panic
              | some key16 =>
                match getJsonVal result [firstKey result] with
                | none => .panic
                | some errValue =>
                  match parse
                      (add { protocol with request := request }
                        [Token.string (firstKey result), Token.TType TType.STRUCT,
                          Token.int16 key16])
                      errInfo (Json.obj errValue) typeIdKey typeKey with
                  | .ret (err, protocol1) =>
                    .ret ((name, typeId, seqId, none),
                      add { protocol1 with err := err } stopField)
                  | .panic => .panic
                  | .exhausted => .exhausted
  else if hasKey request exceptionKey then
    match getJsonVal request [exceptionKey] with
    | none => .panic
    | some exception =>
      match getDefaultStringVal exception messageKey "" with
      | none => .panic
      | some message =>
        match getDefaultInt32Val exception typeKey UNKNOWN_APPLICATION_EXCEPTION with
        | none => .panic
        | some type32 =>
          .ret ((name, typeId, seqId, none),
            add { protocol with request := request }
              ([Token.string "", Token.TType TType.STRING, Token.int16 1, Token.string message,
                Token.string "", Token.TType TType.I32, Token.int16 2, Token.int32 type32]
                ++ stopField))
  else
    .ret (("", TMessageType.INVALID_TMESSAGE_TYPE, 0,
      some (Err.TProtocolException TProtocolExceptionType.INVALID_MESSAGE_TYPE_EXCEPTION
        (Err.New "Invalid type"))), { protocol with request := request })

/-- Go `ReadMessageEnd`. -/
def ReadMessageEnd (protocol : WIJSONProtocol) : Option Err × WIJSONProtocol :=
  (none, protocol)

/-- Go `ReadStructBegin`. -/
def ReadStructBegin (protocol : WIJSONProtocol) : (String × Option Err) × WIJSONProtocol :=
  (("", protocol.err), protocol)

/-- Go `ReadStructEnd`. -/
def ReadStructEnd (protocol : WIJSONProtocol) : Option Err × WIJSONProtocol :=
  (none, protocol)

/-- Go `ReadFieldBegin`. -/
def ReadFieldBegin (protocol : WIJSONProtocol) :
    Run ((String × TType × Int × Option Err) × WIJSONProtocol) :=
  match slice protocol 3 with
  | some ([Token.string name, Token.TType typeId, Token.int16 id], protocol1) =>
    .ret ((name, typeId, id, none), protocol1)
  | _ => .panic

/-- Go `ReadFieldEnd`. -/
def ReadFieldEnd (protocol : WIJSONProtocol) : Option Err × WIJSONProtocol :=
  (none, protocol)

/-- Go `ReadMapBegin`. -/
def ReadMapBegin (protocol : WIJSONProtocol) :
    Run ((TType × TType × Int × Option Err) × WIJSONProtocol) :=
  match slice protocol 3 with
  | some ([Token.TType keyType, Token.TType valueType, Token.int size], protocol1) =>
    .ret ((keyType, valueType, size, none), protocol1)
  | _ => .panic

/-- Go `ReadMapEnd`. -/
def ReadMapEnd (protocol : WIJSONProtocol) : Option Err × WIJSONProtocol :=
  (none, protocol)

/-- Go `ReadListBegin`. -/
def ReadListBegin (protocol : WIJSONProtocol) :
    Run ((TType × Int × Option Err) × WIJSONProtocol) :=
  match slice protocol 2 with
  | some ([Token.TType elemType, Token.int size], protocol1) =>
    .ret ((elemType, size, none), protocol1)
  | _ => .panic

/-- Go `ReadListEnd`. -/
def ReadListEnd (protocol : WIJSONProtocol) : Option Err × WIJSONProtocol :=
  (none, protocol)

/-- Go `ReadSetBegin`. -/
def ReadSetBegin (protocol : WIJSONProtocol) :
    Run ((TType × Int × Option Err) × WIJSONProtocol) :=
  match slice protocol 2 with
  | some ([Token.TType elemType, Token.int size], protocol1) =>
    .ret ((elemType, size, none), protocol1)
  | _ => .panic

/-- Go `ReadSetEnd`. -/
def ReadSetEnd (protocol : WIJSONProtocol) : Option Err × WIJSONProtocol :=
  (none, protocol)

/-- Go `ReadBool`. -/
def ReadBool (protocol : WIJSONProtocol) : Run ((Bool × Option Err) × WIJSONProtocol) :=
  match slice protocol 1 with
  | some ([Token.bool v], protocol1) => .ret ((v, none), protocol1)
  | _ => .panic

/-- Go `ReadByte`. -/
def ReadByte (protocol : WIJSONProtocol) : Run ((Nat × Option Err) × WIJSONProtocol) :=
  match slice protocol 1 with
  | some ([Token.byte v], protocol1) => .ret ((v, none), protocol1)
  | _ => .panic

/-- Go `ReadI16`. -/
def ReadI16 (protocol : WIJSONProtocol) : Run ((Int × Option Err) × WIJSONProtocol) :=
  match slice protocol 1 with
  | some ([Token.int16 v], protocol1) => .ret ((v, none), protocol1)
  | _ => .panic

/-- Go `ReadI32`. -/
def ReadI32 (protocol : WIJSONProtocol) : Run ((Int × Option Err) × WIJSONProtocol) :=
  match slice protocol 1 with
  | some ([Token.int32 v], protocol1) => .ret ((v, none), protocol1)
  | _ => .panic

/-- Go `ReadI64`. -/
def ReadI64 (protocol : WIJSONProtocol) : Run ((Int × Option Err) × WIJSONProtocol) :=
  match slice protocol 1 with
  | some ([Token.int64 v], protocol1) => .ret ((v, none), protocol1)
  | _ => .panic

/-- Go `ReadDouble`. -/
def ReadDouble (protocol : WIJSONProtocol) : Run ((Rat × Option Err) × WIJSONProtocol) :=
  match slice protocol 1 with
  | some ([Token.float64 v], protocol1) => .ret ((v, none), protocol1)
  | _ => .panic

/-- Go `ReadString`. -/
def ReadString (protocol : WIJSONProtocol) : Run ((String × Option Err) × WIJSONProtocol) :=
  match slice protocol 1 with
  | some ([Token.string v], protocol1) => .ret ((v, none), protocol1)
  | _ => .panic

/-- Go `ReadBinary`: the bytes of the string read. -/
def ReadBinary (protocol : WIJSONProtocol) :
    Run ((List UInt8 × Option Err) × WIJSONProtocol) :=
  match ReadString protocol with
  | .ret ((v, err), protocol1) => .ret ((v.toUTF8.toList, err), protocol1)
  | .panic => .panic
  | .exhausted => .exhausted

/-! ## Notions used to state the properties -/

/-- The protocol state with `ps` put in front of the token buffer. -/
def prepend (ps : List Token) (protocol : WIJSONProtocol) : WIJSONProtocol :=
  { protocol with params := ps ++ protocol.params }

/-- The result of a linearizer call, had the buffer started with `ps` in front. -/
def withPrefix (ps : List Token) :
    Run (Option Err × WIJSONProtocol) → Run (Option Err × WIJSONProtocol)
  | .ret (err, protocol) => .ret (err, prepend ps protocol)
  | .panic => .panic
  | .exhausted => .exhausted

/-- The protocol state with an empty token buffer. -/
def cleared (protocol : WIJSONProtocol) : WIJSONProtocol :=
  { protocol with params := [] }

/-- The tokens a linearizer call left in the buffer (none when it did not return). -/
def emitted : Run (Option Err × WIJSONProtocol) → List Token
  | .ret (_, protocol) => protocol.params
  | _ => []

/-- The statement that the linearizer, run with `n` units of fuel, only appends to the
token buffer and leaves the rest of the state alone. -/
def Appends (n : Nat) : Prop :=
  (∀ p fi v k1 k2 e q, parseN n p fi v k1 k2 = .ret (e, q) → ∃ toks, q = add p toks) ∧
  (∀ p fi v e q, parseMapN n p fi v = .ret (e, q) → ∃ toks, q = add p toks) ∧
  (∀ p fi o e q, parseMapRangeN n p fi o = .ret (e, q) → ∃ toks, q = add p toks) ∧
  (∀ p fi v e q, parseListN n p fi v = .ret (e, q) → ∃ toks, q = add p toks) ∧
  (∀ p fi a e q, parseListRangeN n p fi a = .ret (e, q) → ∃ toks, q = add p toks) ∧
  (∀ p fl v e q, parseStructN n p fl v = .ret (e, q) → ∃ toks, q = add p toks) ∧
  (∀ p fl o e q, parseStructRangeN n p fl o = .ret (e, q) → ∃ toks, q = add p toks)

/-- The statement that the linearizer, run with `n` units of fuel, does not look at the
tokens already in the buffer. -/
def Framed (n : Nat) : Prop :=
  (∀ ps p fi v k1 k2, parseN n (prepend ps p) fi v k1 k2 = withPrefix ps (parseN n p fi v k1 k2)) ∧
  (∀ ps p fi v, parseMapN n (prepend ps p) fi v = withPrefix ps (parseMapN n p fi v)) ∧
  (∀ ps p fi o, parseMapRangeN n (prepend ps p) fi o = withPrefix ps (parseMapRangeN n p fi o)) ∧
  (∀ ps p fi v, parseListN n (prepend ps p) fi v = withPrefix ps (parseListN n p fi v)) ∧
  (∀ ps p fi a,
    parseListRangeN n (prepend ps p) fi a = withPrefix ps (parseListRangeN n p fi a)) ∧
  (∀ ps p fl v, parseStructN n (prepend ps p) fl v = withPrefix ps (parseStructN n p fl v)) ∧
  (∀ ps p fl o,
    parseStructRangeN n (prepend ps p) fl o = withPrefix ps (parseStructRangeN n p fl o))

/-- The envelope table in the words of the specification: the first present of the keys
`arguments`, `result`, `exception` decides the message type and the sequence id; `none`
when none of the three is present. -/
def envelopeOf (request : Object) (lookup : Except Err Object) : Option (TMessageType × Int) :=
  if hasKey request argumentsKey then
    match lookup with
    | .ok methodInfo =>
      if getBoolVal methodInfo [onewayKey] = some true then some (TMessageType.ONEWAY, 0)
      else some (TMessageType.CALL, 0)
    | .error _ => some (TMessageType.CALL, 0)
  else if hasKey request resultKey then some (TMessageType.REPLY, 1)
  else if hasKey request exceptionKey then some (TMessageType.EXCEPTION, 1)
  else none

/-- The tokens of one field of a struct in the words of the specification: the field-begin
triple (key, wire tag of the field's type id, the field's key as int16, or 0 when the
descriptor has none), then the tokens of `parse` on the value. -/
def fieldTokens (protocol : WIJSONProtocol) (fieldsList : List Json) (kv : String × Json) :
    List Token :=
  match findInJsonArray fieldsList nameKey kv.1 with
  | none => []
  | some fieldInfo =>
    [Token.string kv.1,
      Token.TType (StringToTypeId ((getStringVal fieldInfo [typeIdKey]).getD "")).1,
      Token.int16 ((getDefaultInt16Val fieldInfo keyKey 0).getD 0)]
    ++ emitted (parse (cleared protocol) fieldInfo kv.2 typeIdKey typeKey)

/-! ## Concrete metadata and requests -/

/-- The field list of `struct B { 1: bool b }`. -/
def exampleFieldsB : List Json :=
  [.obj [("name", .str "b"), ("key", .num 1), ("typeId", .str "bool")]]

/-- The field list of `struct A { 1: i32 x; 2: string y; 3: B nested }`. -/
def exampleFieldsA : List Json :=
  [.obj [("name", .str "x"), ("key", .num 1), ("typeId", .str "i32")],
   .obj [("name", .str "y"), ("key", .num 2), ("typeId", .str "string")],
   .obj [("name", .str "nested"), ("key", .num 3), ("typeId", .str "struct"),
     ("type", .obj [("typeId", .str "struct"), ("class", .str "pkg.B")])]]

/-- The descriptor of `i32 m(1: i32 x, 2: string y, 3: B nested)`. -/
def exampleMethodM : Object :=
  [("name", .str "m"), ("oneway", .bool false), ("returnTypeId", .str "i32"),
    ("arguments", .arr exampleFieldsA), ("exceptions", .arr [])]

/-- The descriptor of `oneway void ping()`. -/
def exampleMethodPing : Object :=
  [("name", .str "ping"), ("oneway", .bool true), ("returnTypeId", .str "void"),
    ("arguments", .arr []), ("exceptions", .arr [])]

/-- The descriptor of the single argument `1: i8 x`. -/
def exampleFieldI8 : Object :=
  [("name", .str "x"), ("key", .num 1), ("typeId", .str "i8")]

/-- The descriptor of `void put(1: i8 x)`. -/
def exampleMethodPut : Object :=
  [("name", .str "put"), ("oneway", .bool false), ("returnTypeId", .str "void"),
    ("arguments", .arr [.obj exampleFieldI8]), ("exceptions", .arr [])]

/-- A metadata document: package `pkg` with the structs `A` and `B` and the service
`pkg.Svc` with the methods `m`, `ping` and `put`. -/
def exampleMetadata : List Json :=
  [.obj [("name", .str "pkg"),
    ("structs", .arr [
      .obj [("name", .str "A"), ("fields", .arr exampleFieldsA)],
      .obj [("name", .str "B"), ("fields", .arr exampleFieldsB)]]),
    ("services", .arr [
      .obj [("name", .str "pkg.Svc"), ("functions", .arr [
        .obj exampleMethodM, .obj exampleMethodPing, .obj exampleMethodPut])]])]]

/-- A fresh protocol instance for the service `Svc` of `exampleMetadata`. -/
def exampleProtocol : WIJSONProtocol := NewWIJSONProtocol exampleMetadata "Svc"

/-- A protocol instance that holds a deferred linearizer error. -/
def exampleFailed : WIJSONProtocol :=
  { exampleProtocol with err := some (Err.New "Unexpected key bad") }

/-- The object `{"x":7,"y":"hi","nested":{"b":true}}`, visited in this order. -/
def exampleObject : Object :=
  [("x", .num 7), ("y", .str "hi"), ("nested", .obj [("b", .bool true)])]

/-- The request `{"method":"m","arguments":{"x":7,"y":"hi","nested":{"b":true}}}`. -/
def exampleCall : Object :=
  [("method", .str "m"), ("arguments", .obj exampleObject)]

/-- The request `{"method":"ping","arguments":{}}`. -/
def examplePing : Object :=
  [("method", .str "ping"), ("arguments", .obj [])]

/-- The request `{"method":"m","arguments":{"x":7,"bad":1}}`, visited in this order. -/
def exampleBadCall : Object :=
  [("method", .str "m"), ("arguments", .obj [("x", .num 7), ("bad", .num 1)])]

/-- The request `{"method":"nope","arguments":{}}`. -/
def exampleUnknownCall : Object :=
  [("method", .str "nope"), ("arguments", .obj [])]

/-- The request `{"method":"m","arguments":[1]}`. -/
def exampleArrayCall : Object :=
  [("method", .str "m"), ("arguments", .arr [.num 1])]

/-- The request `{"method":"m","result":{"success":5}}`. -/
def exampleReply : Object :=
  [("method", .str "m"), ("result", .obj [("success", .num 5)])]

/-- The request `{"method": name, "arguments": {"x": v}}`. -/
def scalarRequest (name : String) (v : Json) : Object :=
  [("method", .str name), ("arguments", .obj [("x", v)])]

/-- The request `{"method":"put","arguments":{"x":-1}}`. -/
def exampleNegativeByte : Object := scalarRequest "put" (.num (-1))

/-- The request `{"method":"put","arguments":{"x":100}}`. -/
def examplePositiveByte : Object := scalarRequest "put" (.num ((100 : Int) : Rat))

/-- Reading a request back through the protocol: `ReadMessageBegin` on the request, then
`ReadStructBegin`, `ReadFieldBegin` and the given scalar reader; the value that the reader
returns, `none` when one of the calls fails or panics. -/
def readBack {α : Type} (protocol : WIJSONProtocol) (request : Object)
    (reader : WIJSONProtocol → Run ((α × Option Err) × WIJSONProtocol)) : Option α :=
  match ReadMessageBegin protocol none (.ok (.obj request)) with
  | .ret ((_, _, _, none), protocol1) =>
    match ReadStructBegin protocol1 with
    | ((_, none), protocol2) =>
      match ReadFieldBegin protocol2 with
      | .ret ((_, _, _, none), protocol3) =>
        match reader protocol3 with
        | .ret ((v, none), _) => some v
        | _ => none
      | _ => none
    | _ => none
  | _ => none

/-- The state a reader call leaves, its returned values dropped. -/
def Run.state {α : Type} : Run (α × WIJSONProtocol) → Run WIJSONProtocol
  | .ret (_, protocol) => .ret protocol
  | .panic => .panic
  | .exhausted => .exhausted

mutual

/-- A tag-driven consumer of a struct: `ReadFieldBegin` is repeated until the returned tag
is STOP, and after each other field-begin the value is read by the returned tag. -/
def readFieldsN (fuel : Nat) (protocol : WIJSONProtocol) : Run WIJSONProtocol :=
  match fuel with
  | 0 => .exhausted
  | fuel + 1 =>
  match ReadFieldBegin protocol with
  | .ret ((_, typeId, _, _), protocol1) =>
    if typeId = TType.STOP then .ret protocol1
    else
      match readValueN fuel protocol1 typeId with
      | .ret protocol2 => readFieldsN fuel protocol2
      | r => r
  | .panic => .panic
  | .exhausted => .exhausted

/-- A tag-driven consumer of one value: the scalar reader matching the tag, the field loop
for STRUCT, the begin call and then `size` times the entries or elements for MAP, LIST and
SET. -/
def readValueN (fuel : Nat) (protocol : WIJSONProtocol) (typeId : TType) : Run WIJSONProtocol :=
  match fuel with
  | 0 => .exhausted
  | fuel + 1 =>
  match typeId with
  | .BOOL => (ReadBool protocol).state
  | .BYTE => (ReadByte protocol).state
  | .I16 => (ReadI16 protocol).state
  | .I32 => (ReadI32 protocol).state
  | .I64 => (ReadI64 protocol).state
  | .DOUBLE => (ReadDouble protocol).state
  | .STRING => (ReadString protocol).state
  | .STRUCT => readFieldsN fuel protocol
  | .MAP =>
    match ReadMapBegin protocol with
    | .ret ((keyType, valueType, size, _), protocol1) =>
      readEntriesN fuel protocol1 keyType valueType size.toNat
    | .panic => .panic
    | .exhausted => .exhausted
  | .LIST =>
    match ReadListBegin protocol with
    | .ret ((elemType, size, _), protocol1) => readElemsN fuel protocol1 elemType size.toNat
    | .panic => .panic
    | .exhausted => .exhausted
  | .SET =>
    match ReadSetBegin protocol with
    | .ret ((elemType, size, _), protocol1) => readElemsN fuel protocol1 elemType size.toNat
    | .panic => .panic
    | .exhausted => .exhausted
  | .STOP => .panic

/-- The consumer of `count` map entries: the key by the key tag, then the value by the value
tag. -/
def readEntriesN (fuel : Nat) (protocol : WIJSONProtocol) (keyType valueType : TType)
    (count : Nat) : Run WIJSONProtocol :=
  match fuel with
  | 0 => .exhausted
  | fuel + 1 =>
  match count with
  | 0 => .ret protocol
  | count + 1 =>
    match readValueN fuel protocol keyType with
    | .ret protocol1 =>
      match readValueN fuel protocol1 valueType with
      | .ret protocol2 => readEntriesN fuel protocol2 keyType valueType count
      | r => r
    | r => r

/-- The consumer of `count` list or set elements, each by the element tag. -/
def readElemsN (fuel : Nat) (protocol : WIJSONProtocol) (elemType : TType) (count : Nat) :
    Run WIJSONProtocol :=
  match fuel with
  | 0 => .exhausted
  | fuel + 1 =>
  match count with
  | 0 => .ret protocol
  | count + 1 =>
    match readValueN fuel protocol elemType with
    | .ret protocol1 => readElemsN fuel protocol1 elemType count
    | r => r

end

/-- The statement that whatever the linearizer appends with `n` units of fuel, when it
returns without error, is consumed exactly by the tag-driven consumer run with at least as
much fuel: the consumer returns and leaves what followed those tokens in the buffer. -/
def Consumable (n : Nat) : Prop :=
  (∀ p fi v k1 k2 p' ft t, parseN n p fi v k1 k2 = .ret (none, p') →
    getStringVal fi [k1] = some ft → StringToTypeId ft = (t, none) →
    ∃ toks, p' = add p toks ∧ ∀ m, n ≤ m → ∀ (q : WIJSONProtocol) rest,
      q.params = toks ++ rest → readValueN m q t = .ret { q with params := rest }) ∧
  (∀ p fi v p', parseMapN n p fi v = .ret (none, p') →
    ∃ toks, p' = add p toks ∧ ∀ m, n ≤ m → ∀ (q : WIJSONProtocol) rest,
      q.params = toks ++ rest → readValueN m q TType.MAP = .ret { q with params := rest }) ∧
  (∀ p fi o p' kft kt vft vt, parseMapRangeN n p fi o = .ret (none, p') →
    getStringVal fi [keyTypeIdKey] = some kft → StringToTypeId kft = (kt, none) →
    getStringVal fi [valueTypeIdKey] = some vft → StringToTypeId vft = (vt, none) →
    ∃ toks, p' = add p toks ∧ ∀ m, n ≤ m → ∀ (q : WIJSONProtocol) rest,
      q.params = toks ++ rest →
        readEntriesN m q kt vt o.length = .ret { q with params := rest }) ∧
  (∀ p fi v p', parseListN n p fi v = .ret (none, p') →
    ∃ toks, p' = add p toks ∧ ∀ m, n ≤ m → ∀ (q : WIJSONProtocol) rest,
      q.params = toks ++ rest →
        readValueN m q TType.LIST = .ret { q with params := rest } ∧
        readValueN m q TType.SET = .ret { q with params := rest }) ∧
  (∀ p fi a p' eft et, parseListRangeN n p fi a = .ret (none, p') →
    getStringVal fi [elemTypeIdKey] = some eft → StringToTypeId eft = (et, none) →
    ∃ toks, p' = add p toks ∧ ∀ m, n ≤ m → ∀ (q : WIJSONProtocol) rest,
      q.params = toks ++ rest → readElemsN m q et a.length = .ret { q with params := rest }) ∧
  (∀ p fl v p', parseStructN n p fl v = .ret (none, p') →
    ∃ toks, p' = add p toks ∧ ∀ m, n ≤ m → ∀ (q : WIJSONProtocol) rest,
      q.params = toks ++ rest → readFieldsN m q = .ret { q with params := rest }) ∧
  (∀ p fl o p', parseStructRangeN n p fl o = .ret (none, p') →
    ∃ toks, p' = add p toks ∧ ∀ m, n ≤ m → ∀ (q : WIJSONProtocol) rest,
      q.params = toks ++ (stopField ++ rest) → readFieldsN m q = .ret { q with params := rest })

/-! ## Notions and inputs for the REPLY and EXCEPTION bodies, maps and lists -/

/-- The message of an EXCEPTION body in the words of the specification: the string at
`message`, the empty string when the key is absent. -/
def exceptionMessage (exception : Object) : String :=
  match exception.lookup messageKey with
  | some (.str s) => s
  | _ => ""

/-- The type of an EXCEPTION body in the words of the specification: the int32 at `type`,
`UNKNOWN_APPLICATION_EXCEPTION` when the key is absent. -/
def exceptionType (exception : Object) : Int :=
  match exception.lookup typeKey with
  | some (.num v) => int32OfFloat64 v
  | _ => UNKNOWN_APPLICATION_EXCEPTION

/-- The tokens of an EXCEPTION body in the words of the specification. -/
def exceptionTokens (exception : Object) : List Token :=
  [Token.string "", Token.TType TType.STRING, Token.int16 1,
    Token.string (exceptionMessage exception),
    Token.string "", Token.TType TType.I32, Token.int16 2,
    Token.int32 (exceptionType exception),
    Token.string "", Token.TType TType.STOP, Token.int16 (-1)]

/-- The tokens of one map entry in the words of the specification: the tokens of the key,
then the tokens of its value. -/
def entryTokens (protocol : WIJSONProtocol) (fieldInfo : Object) (kv : String × Json) :
    List Token :=
  emitted (parse (cleared protocol) fieldInfo (Json.str kv.1) keyTypeIdKey keyTypeKey) ++
    emitted (parse (cleared protocol) fieldInfo kv.2 valueTypeIdKey valueTypeKey)

/-- The tokens of one list or set element. -/
def elemTokens (protocol : WIJSONProtocol) (fieldInfo : Object) (value : Json) : List Token :=
  emitted (parse (cleared protocol) fieldInfo value elemTypeIdKey elemTypeKey)

/-- The thirteen IDL type identifiers that the type-tag table lists. -/
def typeIdentifiers : List String :=
  ["bool", "i8", "i16", "i32", "i64", "double", "string", "struct", "union", "exception",
    "map", "set", "list"]

/-- The field list of `exception Err { 1: i32 errorCode; 2: string message }`. -/
def exampleFieldsErr : List Json :=
  [.obj [("name", .str "errorCode"), ("key", .num 1), ("typeId", .str "i32")],
   .obj [("name", .str "message"), ("key", .num 2), ("typeId", .str "string")]]

/-- The descriptor of the declared exception `1: Err err`. -/
def exampleErrInfo : Object :=
  [("name", .str "err"), ("key", .num 1), ("typeId", .str "exception"),
    ("type", .obj [("typeId", .str "exception"), ("class", .str "auth.Err")])]

/-- The descriptor of `void m() throws (1: Err err)`. -/
def exampleMethodThrows : Object :=
  [("name", .str "m"), ("oneway", .bool false), ("returnTypeId", .str "void"),
    ("arguments", .arr []), ("exceptions", .arr [.obj exampleErrInfo])]

/-- A metadata document: package `auth` with the exception `Err` and the service `auth.Login`
with the method `m`. -/
def exampleThrowsMetadata : List Json :=
  [.obj [("name", .str "auth"),
    ("structs", .arr [.obj [("name", .str "Err"), ("fields", .arr exampleFieldsErr)]]),
    ("services", .arr [
      .obj [("name", .str "auth.Login"), ("functions", .arr [.obj exampleMethodThrows])]])]]

/-- A fresh protocol instance for the service `Login` of `exampleThrowsMetadata`. -/
def exampleThrowsProtocol : WIJSONProtocol := NewWIJSONProtocol exampleThrowsMetadata "Login"

/-- The request `{"method":"m","result":{"err":{"errorCode":401}}}`. -/
def exampleErrReply : Object :=
  [("method", .str "m"), ("result", .obj [("err", .obj [("errorCode", .num 401)])])]

/-- The request `{"method":"m","result":{"oops":{"errorCode":401}}}`. -/
def exampleUndeclaredReply : Object :=
  [("method", .str "m"), ("result", .obj [("oops", .obj [("errorCode", .num 401)])])]

/-- The request `{"method":"m","result":{}}`. -/
def exampleVoidReply : Object :=
  [("method", .str "m"), ("result", .obj [])]

/-- The request `{"method":"m","exception":{"message":"boom","type":6}}`. -/
def exampleException : Object :=
  [("method", .str "m"), ("exception", .obj [("message", .str "boom"), ("type", .num 6)])]

/-- The request `{"method":"loginUser","exception":{"message":"Unknown function loginUser",
"type":1}}`, the example of the comment above `ReadMessageBegin`. -/
def exampleUnknownException : Object :=
  [("method", .str "loginUser"),
    ("exception", .obj [("message", .str "Unknown function loginUser"), ("type", .num 1)])]

/-- The type descriptor of `map<string, i32>`. -/
def exampleMapInfo : Object :=
  [("typeId", .str "map"), ("keyTypeId", .str "string"), ("valueTypeId", .str "i32")]

/-- The object `{"a":1,"b":2}`, visited in this order. -/
def exampleMapObject : Object := [("a", .num 1), ("b", .num 2)]

/-- The type descriptor of `map<i32, string>`. -/
def exampleIntKeyMapInfo : Object :=
  [("typeId", .str "map"), ("keyTypeId", .str "i32"), ("valueTypeId", .str "string")]

/-- The object `{"1":"a"}`. -/
def exampleIntKeyMapObject : Object := [("1", .str "a")]

/-- The type descriptor of `list<i32>`. -/
def exampleListInfo : Object :=
  [("typeId", .str "list"), ("elemTypeId", .str "i32")]

/-- The array `[4,3,2,1]`. -/
def exampleArray : List Json := [.num 4, .num 3, .num 2, .num 1]

/-! ## Notions for the type-tag mapper and the metadata index -/

/-- The three IDL type identifiers that are linearized as a struct. -/
def structIdentifiers : List String := ["struct", "union", "exception"]

/-- The eleven wire-type tags that the type-tag table lists for a value. -/
def wireTags : List TType :=
  [TType.BOOL, TType.BYTE, TType.I16, TType.I32, TType.I64, TType.DOUBLE, TType.STRING,
    TType.STRUCT, TType.MAP, TType.SET, TType.LIST]

/-- Whether `v` is an object whose value at `fieldName` is the string `fieldValue`. -/
def hasField (fieldName fieldValue : String) (v : Json) : Bool :=
  match v with
  | .obj o =>
    match o.lookup fieldName with
    | some (.str s) => s == fieldValue
    | _ => false
  | _ => false

/-- The array search in the words of the specification: a linear scan that returns the first
object whose value at `fieldName` equals `fieldValue`, `none` (null) when there is none. -/
def findByField (array : List Json) (fieldName fieldValue : String) : Option Object :=
  match array.find? (hasField fieldName fieldValue) with
  | some (.obj o) => some o
  | _ => none

/-- The function descriptor that a package offers for method `methodName` of service
`serviceName`, in the words of the specification: the package has a `services` array, the
first entry of that array named `<package name>.<service name>` has a `functions` array, and
the descriptor is the first entry of it named `methodName`; `none` when the package does not
qualify. -/
def offeredMethod (serviceName methodName : String) (v : Json) : Option Object :=
  match v with
  | .obj pkg =>
    match pkg.lookup servicesKey, pkg.lookup nameKey with
    | some (.arr services), some (.str packageName) =>
      match findByField services nameKey (packageName ++ "." ++ serviceName) with
      | some service =>
        match service.lookup functionsKey with
        | some (.arr functions) => findByField functions nameKey methodName
        | _ => none
      | none => none
    | _, _ => none
  | _ => none

/-- The metadata index in the words of the specification: the descriptor offered by the first
package, in metadata order, that offers one; otherwise the error that carries the service
name and the method name. -/
def methodInfoSpec (metadata : List Json) (serviceName methodName : String) :
    Except Err Object :=
  match metadata.findSome? (offeredMethod serviceName methodName) with
  | some methodInfo => .ok methodInfo
  | none => .error (Err.New (serviceName ++ "::" ++ methodName ++ " not found!"))

/-- The shape that the data model gives the service part of a metadata document: every
package with a `services` array has a string `name`, and every service of that array has a
`functions` array. -/
def ServicesWellFormed (metadata : List Json) : Prop :=
  ∀ pkg services, Json.obj pkg ∈ metadata → pkg.lookup servicesKey = some (.arr services) →
    (∃ name, pkg.lookup nameKey = some (.str name)) ∧
    ∀ service, Json.obj service ∈ services →
      ∃ functions, service.lookup functionsKey = some (.arr functions)

/-! ## Well-formed descriptors, for the termination of the linearizer -/

/-- Whether the descriptor `fieldInfo`, read through the keys `fieldTypeIdKey` and
`fieldTypeKey`, has the shape that the data model gives a type descriptor, down to `depth`
nested composite descriptors: the type id is a string; a struct, union or exception
descriptor carries an object at `fieldTypeKey` whose `class` resolves to a struct with a
`fields` array; a map descriptor carries an object with well-formed key and value
descriptors; a list or set descriptor an object with a well-formed element descriptor. -/
def wfDesc (protocol : WIJSONProtocol) : Nat → Object → String → String → Bool
  | 0, _, _, _ => false
  | depth + 1, fieldInfo, fieldTypeIdKey, fieldTypeKey =>
    match getStringVal fieldInfo [fieldTypeIdKey] with
    | none => false
    | some fieldType =>
      match StringToTypeId fieldType with
      | (TType.STRUCT, none) =>
        match getJsonVal fieldInfo [fieldTypeKey] with
        | none => false
        | some elemType => (getStructFieldList protocol elemType).isSome
      | (TType.MAP, none) =>
        match getJsonVal fieldInfo [fieldTypeKey] with
        | none => false
        | some info =>
          wfDesc protocol depth info keyTypeIdKey keyTypeKey &&
            wfDesc protocol depth info valueTypeIdKey valueTypeKey
      | (TType.SET, none) =>
        match getJsonVal fieldInfo [fieldTypeKey] with
        | none => false
        | some info => wfDesc protocol depth info elemTypeIdKey elemTypeKey
      | (TType.LIST, none) =>
        match getJsonVal fieldInfo [fieldTypeKey] with
        | none => false
        | some info => wfDesc protocol depth info elemTypeIdKey elemTypeKey
      | _ => true

/-- A descriptor that is well formed at some depth. -/
def WfDesc (protocol : WIJSONProtocol) (fieldInfo : Object)
    (fieldTypeIdKey fieldTypeKey : String) : Prop :=
  ∃ depth, wfDesc protocol depth fieldInfo fieldTypeIdKey fieldTypeKey = true

/-- A well-formed field descriptor: its `key`, when present, is a number, and its type is
well formed. -/
def WfField (protocol : WIJSONProtocol) (fieldInfo : Object) : Prop :=
  (getDefaultInt16Val fieldInfo keyKey 0).isSome = true ∧
    WfDesc protocol fieldInfo typeIdKey typeKey

/-- A field list all of whose descriptors are well formed. -/
def WfFields (protocol : WIJSONProtocol) (fieldsList : List Json) : Prop :=
  ∀ fieldInfo, Json.obj fieldInfo ∈ fieldsList → WfField protocol fieldInfo

/-- A metadata document in which the field list of every struct of every package is well
formed. Nothing is asked about how the structs refer to each other. -/
def WfMetadata (protocol : WIJSONProtocol) : Prop :=
  ∀ pkg structs info fieldsList, Json.obj pkg ∈ protocol.metadata →
    getArrayVal pkg [structsKey] = some structs → Json.obj info ∈ structs →
    getArrayVal info [fieldsKey] = some fieldsList → WfFields protocol fieldsList

/-- The descriptor of a field `1: Pong next`. -/
def exampleFieldPong : Object :=
  [("name", .str "next"), ("key", .num 1), ("typeId", .str "struct"),
    ("type", .obj [("typeId", .str "struct"), ("class", .str "g.Pong")])]

/-- The descriptor of a field `1: Ping next`. -/
def exampleFieldPing : Object :=
  [("name", .str "next"), ("key", .num 1), ("typeId", .str "struct"),
    ("type", .obj [("typeId", .str "struct"), ("class", .str "g.Ping")])]

/-- The descriptor of a field `2: i32 n`. -/
def exampleFieldN : Object :=
  [("name", .str "n"), ("key", .num 2), ("typeId", .str "i32")]

/-- A metadata document whose struct definitions refer to each other in a cycle:
`struct Ping { 1: Pong next }` and `struct Pong { 1: Ping next; 2: i32 n }`. -/
def exampleCyclicMetadata : List Json :=
  [.obj [("name", .str "g"),
    ("structs", .arr [
      .obj [("name", .str "Ping"), ("fields", .arr [.obj exampleFieldPong])],
      .obj [("name", .str "Pong"),
        ("fields", .arr [.obj exampleFieldPing, .obj exampleFieldN])]])]]

/-- A fresh protocol instance on `exampleCyclicMetadata`. -/
def exampleCyclicProtocol : WIJSONProtocol := NewWIJSONProtocol exampleCyclicMetadata "Game"

/-- The value `{"next":{"n":5,"next":{}}}` of a `Ping`. -/
def examplePingValue : Json :=
  .obj [("next", .obj [("n", .num 5), ("next", .obj [])])]

/-- The statement that the linearizer, run with `n` units of fuel on a state that holds the
metadata of `protocol`, does not panic on well-formed descriptors. -/
def NoPanic (protocol : WIJSONProtocol) (n : Nat) : Prop :=
  (∀ (p : WIJSONProtocol) fi v k1 k2, p.metadata = protocol.metadata →
    WfDesc protocol fi k1 k2 → parseN n p fi v k1 k2 ≠ .panic) ∧
  (∀ (p : WIJSONProtocol) fi v, p.metadata = protocol.metadata →
    WfDesc protocol fi keyTypeIdKey keyTypeKey → WfDesc protocol fi valueTypeIdKey valueTypeKey →
    parseMapN n p fi v ≠ .panic) ∧
  (∀ (p : WIJSONProtocol) fi o, p.metadata = protocol.metadata →
    WfDesc protocol fi keyTypeIdKey keyTypeKey → WfDesc protocol fi valueTypeIdKey valueTypeKey →
    parseMapRangeN n p fi o ≠ .panic) ∧
  (∀ (p : WIJSONProtocol) fi v, p.metadata = protocol.metadata →
    WfDesc protocol fi elemTypeIdKey elemTypeKey → parseListN n p fi v ≠ .panic) ∧
  (∀ (p : WIJSONProtocol) fi a, p.metadata = protocol.metadata →
    WfDesc protocol fi elemTypeIdKey elemTypeKey → parseListRangeN n p fi a ≠ .panic) ∧
  (∀ (p : WIJSONProtocol) fl v, p.metadata = protocol.metadata →
    WfFields protocol fl → parseStructN n p fl v ≠ .panic) ∧
  (∀ (p : WIJSONProtocol) fl o, p.metadata = protocol.metadata →
    WfFields protocol fl → parseStructRangeN n p fl o ≠ .panic)

/-! ## The decoder's numbers, and further inputs -/

/-- Modelled from the spec: the decoder `encoding/json` is not part of the sources. It hands
the code every JSON number as a 64-bit float, which "loses exactness above 2^53" (design
notes of the spec). `float64Exponent fuel n e` is the least number of low bits, from `e` on,
that a float has to drop to hold the natural number `n` in its 53-bit significand. -/
def float64Exponent : Nat → Nat → Nat → Nat
  | 0, _, e => e
  | fuel + 1, n, e => if n < 2 ^ (53 + e) then e else float64Exponent fuel n (e + 1)

/-- Modelled from the spec: the 64-bit float nearest to the natural number `n` (IEEE 754,
round to nearest, ties to even), for `n` in the range of the 64-bit integers and well
beyond. -/
def float64OfNat (n : Nat) : Nat :=
  if 2 * (n % 2 ^ float64Exponent 1024 n 0) > 2 ^ float64Exponent 1024 n 0 ∨
      (2 * (n % 2 ^ float64Exponent 1024 n 0) = 2 ^ float64Exponent 1024 n 0 ∧
        n / 2 ^ float64Exponent 1024 n 0 % 2 = 1) then
    (n / 2 ^ float64Exponent 1024 n 0 + 1) * 2 ^ float64Exponent 1024 n 0
  else n / 2 ^ float64Exponent 1024 n 0 * 2 ^ float64Exponent 1024 n 0

/-- Modelled from the spec: the value of the 64-bit float that the decoder produces for the
JSON integer `v`. -/
def float64OfInt (v : Int) : Int :=
  if v < 0 then -((float64OfNat v.natAbs : Nat) : Int) else ((float64OfNat v.natAbs : Nat) : Int)

/-- The decoded JSON number of the integer literal `v`. -/
def Json.ofInt (v : Int) : Json := Json.num ((float64OfInt v : Int) : Rat)

/-- The method name of a request in the words of the specification: the top-level `method`
string, empty when the key is absent. -/
def methodName (request : Object) : String :=
  match request.lookup methodKey with
  | some (.str s) => s
  | _ => ""

/-- The descriptor of the single argument `1: i64 x`. -/
def exampleFieldI64 : Object :=
  [("name", .str "x"), ("key", .num 1), ("typeId", .str "i64")]

/-- The descriptor of `void store(1: i64 x)`. -/
def exampleMethodStore : Object :=
  [("name", .str "store"), ("oneway", .bool false), ("returnTypeId", .str "void"),
    ("arguments", .arr [.obj exampleFieldI64]), ("exceptions", .arr [])]

/-- A metadata document: package `wide` with the service `wide.Store` and its method
`store`. -/
def exampleWideMetadata : List Json :=
  [.obj [("name", .str "wide"),
    ("services", .arr [
      .obj [("name", .str "wide.Store"), ("functions", .arr [.obj exampleMethodStore])]])]]

/-- A fresh protocol instance for the service `Store` of `exampleWideMetadata`. -/
def exampleWideProtocol : WIJSONProtocol := NewWIJSONProtocol exampleWideMetadata "Store"

/-- The request `{"method":"store","arguments":{"x":9007199254740993}}`, as decoded. -/
def exampleBigI64 : Object := scalarRequest "store" (Json.ofInt 9007199254740993)

/-- The request `{"method":"store","arguments":{"x":9223372036854775807}}`, as decoded. -/
def exampleMaxI64 : Object := scalarRequest "store" (Json.ofInt 9223372036854775807)

/-- The request `{"method":"store","arguments":{"x":9007199254740992}}`, as decoded. -/
def exampleExactI64 : Object := scalarRequest "store" (Json.ofInt 9007199254740992)

/-- The request `{"method":"m","result":{"err":5}}`. -/
def exampleScalarErrReply : Object :=
  [("method", .str "m"), ("result", .obj [("err", .num 5)])]

/-- A metadata document whose only package has a number as its `name`. -/
def exampleBadNameMetadata : List Json :=
  [.obj [("name", .num 5), ("services", .arr [])]]

/-- A fresh protocol instance on `exampleBadNameMetadata`. -/
def exampleBadNameProtocol : WIJSONProtocol := NewWIJSONProtocol exampleBadNameMetadata "Svc"

/-- The request `{"method":"m","exception":{}}`. -/
def exampleEmptyException : Object :=
  [("method", .str "m"), ("exception", .obj [])]

/-- The request `{"method":"m","exception":{"message":5}}`. -/
def exampleBadMessageException : Object :=
  [("method", .str "m"), ("exception", .obj [("message", .num 5)])]

/-- The request `{"method":"m","exception":{"type":"x"}}`. -/
def exampleBadTypeException : Object :=
  [("method", .str "m"), ("exception", .obj [("type", .str "x")])]

/-- The request `{"method":5,"exception":{}}`. -/
def exampleNumericMethodException : Object :=
  [("method", .num 5), ("exception", .obj [])]

/-- The request `{"method":5}`. -/
def exampleNumericMethod : Object := [("method", .num 5)]

/-- The request `{"method":"nope","exception":5}`. -/
def exampleScalarException : Object :=
  [("method", .str "nope"), ("exception", .num 5)]

theorem toJsonCheck_eq_some {v : Json} {o : Object} (h : toJsonCheck v = some o) :
    v = Json.obj o := by
  cases v <;> simp [toJsonCheck] at h
  subst h; rfl

theorem ToJsonArrayCheck_eq_some {v : Json} {a : List Json} (h : ToJsonArrayCheck v = some a) :
    v = Json.arr a := by
  cases v <;> simp [ToJsonArrayCheck] at h
  subst h; rfl

theorem size_obj (o : Object) : (Json.obj o).size = 1 + Json.size.sizeO o := by
  simp [Json.size]

theorem size_arr (a : List Json) : (Json.arr a).size = 1 + Json.size.sizeL a := by
  simp [Json.size]

theorem size_str (s : String) : (Json.str s).size = 1 := by
  simp [Json.size]

theorem sizeO_cons (k : String) (v : Json) (o : Object) :
    Json.size.sizeO ((k, v) :: o) = 2 + v.size + Json.size.sizeO o := by
  simp [Json.size.sizeO]

theorem sizeL_cons (v : Json) (a : List Json) :
    Json.size.sizeL (v :: a) = 1 + v.size + Json.size.sizeL a := by
  simp [Json.size.sizeL]

/-- The defining equation of `parseN` at positive fuel. -/
theorem parseN_succ (fuel : Nat) (protocol : WIJSONProtocol) (fieldInfo : Object) (value : Json)
    (fieldTypeIdKey fieldTypeKey : String) :
    parseN (fuel + 1) protocol fieldInfo value fieldTypeIdKey fieldTypeKey =
      match getStringVal fieldInfo [fieldTypeIdKey] with
      | none => .panic
      | some fieldType =>
        if fieldType = "bool" then
          match value with
          | .bool v => .ret (none, add protocol [Token.bool v])
          | _ => .ret (some (Err.New "Expected bool"), protocol)
        else if fieldType = "i8" then
          match value with
          | .num v => .ret (none, add protocol [Token.byte (byteOfFloat64 v)])
          | _ => .ret (some (Err.New "Expected byte"), protocol)
        else if fieldType = "i16" then
          match value with
          | .num v => .ret (none, add protocol [Token.int16 (int16OfFloat64 v)])
          | _ => .ret (some (Err.New "Expected int16"), protocol)
        else if fieldType = "i32" then
          match value with
          | .num v => .ret (none, add protocol [Token.int32 (int32OfFloat64 v)])
          | _ => .ret (some (Err.New "Expected int32"), protocol)
        else if fieldType = "i64" then
          match value with
          | .num v => .ret (none, add protocol [Token.int64 (int64OfFloat64 v)])
          | _ => .ret (some (Err.New "Expected int64"), protocol)
        else if fieldType = "double" then
          match value with
          | .num v => .ret (none, add protocol [Token.float64 v])
          | _ => .ret (some (Err.New "Expected double"), protocol)
        else if fieldType = "string" then
          match value with
          | .str v => .ret (none, add protocol [Token.string v])
          | _ => .ret (some (Err.New "Expected string"), protocol)
        else if fieldType = "struct" ∨ fieldType = "union" ∨ fieldType = "exception" then
          match getJsonVal fieldInfo [fieldTypeKey] with
          | none => .panic
          | some elemType =>
            match getStructFieldList protocol elemType with
            | none => .panic
            | some fieldsList => parseStructN fuel protocol fieldsList value
        else if fieldType = "map" then
          match getJsonVal fieldInfo [fieldTypeKey] with
          | none => .panic
          | some info => parseMapN fuel protocol info value
        else if fieldType = "set" ∨ fieldType = "list" then
          match getJsonVal fieldInfo [fieldTypeKey] with
          | none => .panic
          | some info => parseListN fuel protocol info value
        else .ret (some (Err.New ("Unexpected type " ++ fieldType)), protocol) := by
  rfl


theorem parseMapN_succ (fuel : Nat) (protocol : WIJSONProtocol) (fieldInfo : Object)
    (request : Json) :
    parseMapN (fuel + 1) protocol fieldInfo request =
      match toJsonCheck request with
      | some object =>
        match getStringVal fieldInfo [keyTypeIdKey] with
        | none => .panic
        | some keyTypeId =>
          match StringToTypeId keyTypeId with
          | (_, some err) => .ret (some err, protocol)
          | (keyType, none) =>
            match getStringVal fieldInfo [valueTypeIdKey] with
            | none => .panic
            | some valueTypeId =>
              match StringToTypeId valueTypeId with
              | (_, some err) => .ret (some err, protocol)
              | (valueType, none) =>
                parseMapRangeN fuel
                  (add protocol
                    [Token.TType keyType, Token.TType valueType, Token.int object.length])
                  fieldInfo object
      | none => .ret (some (Err.New "Expected Map (Json Object)"), protocol) := by
  rfl

theorem parseMapRangeN_nil (fuel : Nat) (protocol : WIJSONProtocol) (fieldInfo : Object) :
    parseMapRangeN (fuel + 1) protocol fieldInfo [] = .ret (none, protocol) := by
  rfl

theorem parseMapRangeN_cons (fuel : Nat) (protocol : WIJSONProtocol) (fieldInfo : Object)
    (key : String) (value : Json) (rest : Object) :
    parseMapRangeN (fuel + 1) protocol fieldInfo ((key, value) :: rest) =
      match parseN fuel protocol fieldInfo (Json.str key) keyTypeIdKey keyTypeKey with
      | .ret (none, protocol1) =>
        match parseN fuel protocol1 fieldInfo value valueTypeIdKey valueTypeKey with
        | .ret (none, protocol2) => parseMapRangeN fuel protocol2 fieldInfo rest
        | r => r
      | r => r := by
  rfl

theorem parseListN_succ (fuel : Nat) (protocol : WIJSONProtocol) (fieldInfo : Object)
    (request : Json) :
    parseListN (fuel + 1) protocol fieldInfo request =
      match ToJsonArrayCheck request with
      | some array =>
        match getStringVal fieldInfo [elemTypeIdKey] with
        | none => .panic
        | some elemTypeId =>
          match StringToTypeId elemTypeId with
          | (_, some err) => .ret (some err, protocol)
          | (elemType, none) =>
            parseListRangeN fuel (add protocol [Token.TType elemType, Token.int array.length])
              fieldInfo array
      | none => .ret (some (Err.New "Expected Json Array"), protocol) := by
  rfl

theorem parseListRangeN_nil (fuel : Nat) (protocol : WIJSONProtocol) (fieldInfo : Object) :
    parseListRangeN (fuel + 1) protocol fieldInfo [] = .ret (none, protocol) := by
  rfl

theorem parseListRangeN_cons (fuel : Nat) (protocol : WIJSONProtocol) (fieldInfo : Object)
    (value : Json) (rest : List Json) :
    parseListRangeN (fuel + 1) protocol fieldInfo (value :: rest) =
      match parseN fuel protocol fieldInfo value elemTypeIdKey elemTypeKey with
      | .ret (none, protocol1) => parseListRangeN fuel protocol1 fieldInfo rest
      | r => r := by
  rfl

theorem parseStructN_succ (fuel : Nat) (protocol : WIJSONProtocol) (fieldsList : List Json)
    (request : Json) :
    parseStructN (fuel + 1) protocol fieldsList request =
      match toJsonCheck request with
      | some object =>
        match parseStructRangeN fuel protocol fieldsList object with
        | .ret (none, protocol1) => .ret (none, add protocol1 stopField)
        | r => r
      | none => .ret (some (Err.expectedJsonObject request), protocol) := by
  rfl

theorem parseStructRangeN_nil (fuel : Nat) (protocol : WIJSONProtocol)
    (fieldsList : List Json) :
    parseStructRangeN (fuel + 1) protocol fieldsList [] = .ret (none, protocol) := by
  rfl

theorem parseStructRangeN_cons (fuel : Nat) (protocol : WIJSONProtocol)
    (fieldsList : List Json) (key : String) (value : Json) (rest : Object) :
    parseStructRangeN (fuel + 1) protocol fieldsList ((key, value) :: rest) =
      match findInJsonArray fieldsList nameKey key with
      | none => .ret (some (Err.New ("Unexpected key " ++ key)), protocol)
      | some fieldInfo =>
        match getStringVal fieldInfo [typeIdKey] with
        | none => .panic
        | some typeId =>
          match StringToTypeId typeId with
          | (_, some err) => .ret (some err, protocol)
          | (fieldType, none) =>
            match getDefaultInt16Val fieldInfo keyKey 0 with
            | none => .panic
            | some key16 =>
              match parseN fuel
                  (add protocol [Token.string key, Token.TType fieldType, Token.int16 key16])
                  fieldInfo value typeIdKey typeKey with
              | .ret (none, protocol1) => parseStructRangeN fuel protocol1 fieldsList rest
              | r => r := by
  rfl

/-- The shape of a `parseN` result at positive fuel: a leaf, or the result of the sub-parser
called on the same value with the remaining fuel. -/
theorem parseN_succ_cases (n : Nat) (p : WIJSONProtocol) (fi : Object) (v : Json)
    (k1 k2 : String) :
    parseN (n + 1) p fi v k1 k2 = .panic ∨
    (∃ r, parseN (n + 1) p fi v k1 k2 = .ret r) ∨
    (∃ fl, parseN (n + 1) p fi v k1 k2 = parseStructN n p fl v) ∨
    (∃ info, parseN (n + 1) p fi v k1 k2 = parseMapN n p info v) ∨
    (∃ info, parseN (n + 1) p fi v k1 k2 = parseListN n p info v) := by
  rw [parseN_succ]
  cases getStringVal fi [k1] with
  | none => exact Or.inl rfl
  | some ft =>
    simp only
    by_cases h1 : ft = "bool"
    · rw [if_pos h1]; cases v <;> exact Or.inr (Or.inl ⟨_, rfl⟩)
    rw [if_neg h1]
    by_cases h2 : ft = "i8"
    · rw [if_pos h2]; cases v <;> exact Or.inr (Or.inl ⟨_, rfl⟩)
    rw [if_neg h2]
    by_cases h3 : ft = "i16"
    · rw [if_pos h3]; cases v <;> exact Or.inr (Or.inl ⟨_, rfl⟩)
    rw [if_neg h3]
    by_cases h4 : ft = "i32"
    · rw [if_pos h4]; cases v <;> exact Or.inr (Or.inl ⟨_, rfl⟩)
    rw [if_neg h4]
    by_cases h5 : ft = "i64"
    · rw [if_pos h5]; cases v <;> exact Or.inr (Or.inl ⟨_, rfl⟩)
    rw [if_neg h5]
    by_cases h6 : ft = "double"
    · rw [if_pos h6]; cases v <;> exact Or.inr (Or.inl ⟨_, rfl⟩)
    rw [if_neg h6]
    by_cases h7 : ft = "string"
    · rw [if_pos h7]; cases v <;> exact Or.inr (Or.inl ⟨_, rfl⟩)
    rw [if_neg h7]
    by_cases h8 : ft = "struct" ∨ ft = "union" ∨ ft = "exception"
    · rw [if_pos h8]
      cases getJsonVal fi [k2] with
      | none => exact Or.inl rfl
      | some et =>
        simp only
        cases getStructFieldList p et with
        | none => exact Or.inl rfl
        | some fl => exact Or.inr (Or.inr (Or.inl ⟨fl, rfl⟩))
    rw [if_neg h8]
    by_cases h9 : ft = "map"
    · rw [if_pos h9]
      cases getJsonVal fi [k2] with
      | none => exact Or.inl rfl
      | some info => exact Or.inr (Or.inr (Or.inr (Or.inl ⟨info, rfl⟩)))
    rw [if_neg h9]
    by_cases h10 : ft = "set" ∨ ft = "list"
    · rw [if_pos h10]
      cases getJsonVal fi [k2] with
      | none => exact Or.inl rfl
      | some info => exact Or.inr (Or.inr (Or.inr (Or.inr ⟨info, rfl⟩)))
    rw [if_neg h10]
    exact Or.inr (Or.inl ⟨_, rfl⟩)

theorem fuelOk_parseN (k : Nat) (ih : FuelOk k) (p fi v k1 k2) (h : 2 * Json.size v + 1 < k + 1) :
    parseN (k + 1) p fi v k1 k2 ≠ .exhausted ∧
      parseN (k + 1 + 1) p fi v k1 k2 = parseN (k + 1) p fi v k1 k2 := by
  obtain ⟨_, hM, _, hL, _, hS, _⟩ := ih
  have hv : 2 * Json.size v < k := by omega
  have e1 : ∀ q fl, parseStructN (k + 1) q fl v = parseStructN k q fl v :=
    fun q fl => (hS q fl v hv).2
  have e2 : ∀ q fl, parseMapN (k + 1) q fl v = parseMapN k q fl v :=
    fun q fl => (hM q fl v hv).2
  have e3 : ∀ q fl, parseListN (k + 1) q fl v = parseListN k q fl v :=
    fun q fl => (hL q fl v hv).2
  constructor
  · rcases parseN_succ_cases k p fi v k1 k2 with h | ⟨r, h⟩ | ⟨fl, h⟩ | ⟨fl, h⟩ | ⟨fl, h⟩
    · rw [h]; simp
    · rw [h]; simp
    · rw [h]; exact (hS p fl v hv).1
    · rw [h]; exact (hM p fl v hv).1
    · rw [h]; exact (hL p fl v hv).1
  · simp only [parseN_succ, e1, e2, e3]

theorem fuelOk_parseMapN (k : Nat) (ih : FuelOk k) (p fi v) (h : 2 * Json.size v < k + 1) :
    parseMapN (k + 1) p fi v ≠ .exhausted ∧
      parseMapN (k + 1 + 1) p fi v = parseMapN (k + 1) p fi v := by
  obtain ⟨_, _, hR, _, _, _, _⟩ := ih
  simp only [parseMapN_succ]
  cases ho : toJsonCheck v with
  | none => simp
  | some o =>
    have hv := toJsonCheck_eq_some ho
    subst hv
    rw [size_obj] at h
    have hlt : 2 * Json.size.sizeO o < k := by omega
    simp only [(hR _ _ o hlt).2, and_true]
    repeat' split
    all_goals first
      | exact (hR _ _ o hlt).1
      | simp

theorem fuelOk_parseListN (k : Nat) (ih : FuelOk k) (p fi v) (h : 2 * Json.size v < k + 1) :
    parseListN (k + 1) p fi v ≠ .exhausted ∧
      parseListN (k + 1 + 1) p fi v = parseListN (k + 1) p fi v := by
  obtain ⟨_, _, _, _, hR, _, _⟩ := ih
  simp only [parseListN_succ]
  cases ho : ToJsonArrayCheck v with
  | none => simp
  | some o =>
    have hv := ToJsonArrayCheck_eq_some ho
    subst hv
    rw [size_arr] at h
    have hlt : 2 * Json.size.sizeL o < k := by omega
    simp only [(hR _ _ o hlt).2, and_true]
    repeat' split
    all_goals first
      | exact (hR _ _ o hlt).1
      | simp

theorem fuelOk_parseStructN (k : Nat) (ih : FuelOk k) (p fl v) (h : 2 * Json.size v < k + 1) :
    parseStructN (k + 1) p fl v ≠ .exhausted ∧
      parseStructN (k + 1 + 1) p fl v = parseStructN (k + 1) p fl v := by
  obtain ⟨_, _, _, _, _, _, hR⟩ := ih
  simp only [parseStructN_succ]
  cases ho : toJsonCheck v with
  | none => simp
  | some o =>
    have hv := toJsonCheck_eq_some ho
    subst hv
    rw [size_obj] at h
    have hlt : 2 * Json.size.sizeO o < k := by omega
    simp only [(hR _ _ o hlt).2, and_true]
    have hne := (hR p fl o hlt).1
    cases hr : parseStructRangeN k p fl o with
    | exhausted => exact absurd hr hne
    | panic => simp
    | ret r =>
      obtain ⟨e, q⟩ := r
      cases e <;> simp

theorem fuelOk_parseListRangeN (k : Nat) (ih : FuelOk k) (p fi a)
    (h : 2 * Json.size.sizeL a < k + 1) :
    parseListRangeN (k + 1) p fi a ≠ .exhausted ∧
      parseListRangeN (k + 1 + 1) p fi a = parseListRangeN (k + 1) p fi a := by
  obtain ⟨hP, _, _, _, hR, _, _⟩ := ih
  cases a with
  | nil => simp [parseListRangeN_nil]
  | cons v rest =>
    rw [sizeL_cons] at h
    have h1 : 2 * Json.size v + 1 < k := by omega
    have h2 : 2 * Json.size.sizeL rest < k := by omega
    simp only [parseListRangeN_cons, (hP _ _ v _ _ h1).2, (hR _ _ rest h2).2, and_true]
    have hne := (hP p fi v elemTypeIdKey elemTypeKey h1).1
    cases hr : parseN k p fi v elemTypeIdKey elemTypeKey with
    | exhausted => exact absurd hr hne
    | panic => simp
    | ret r =>
      obtain ⟨e, q⟩ := r
      cases e
      · exact (hR q fi rest h2).1
      · simp

theorem fuelOk_parseMapRangeN (k : Nat) (ih : FuelOk k) (p fi o)
    (h : 2 * Json.size.sizeO o < k + 1) :
    parseMapRangeN (k + 1) p fi o ≠ .exhausted ∧
      parseMapRangeN (k + 1 + 1) p fi o = parseMapRangeN (k + 1) p fi o := by
  obtain ⟨hP, _, hR, _, _, _, _⟩ := ih
  cases o with
  | nil => simp [parseMapRangeN_nil]
  | cons kv rest =>
    obtain ⟨key, v⟩ := kv
    rw [sizeO_cons] at h
    have h0 : 2 * Json.size (Json.str key) + 1 < k := by rw [size_str]; omega
    have h1 : 2 * Json.size v + 1 < k := by omega
    have h2 : 2 * Json.size.sizeO rest < k := by omega
    simp only [parseMapRangeN_cons, (hP _ _ (Json.str key) _ _ h0).2, (hP _ _ v _ _ h1).2,
      (hR _ _ rest h2).2, and_true]
    have hne := (hP p fi (Json.str key) keyTypeIdKey keyTypeKey h0).1
    cases hr : parseN k p fi (Json.str key) keyTypeIdKey keyTypeKey with
    | exhausted => exact absurd hr hne
    | panic => simp
    | ret r =>
      obtain ⟨e, q⟩ := r
      cases e
      · simp only
        have hne2 := (hP q fi v valueTypeIdKey valueTypeKey h1).1
        cases hr2 : parseN k q fi v valueTypeIdKey valueTypeKey with
        | exhausted => exact absurd hr2 hne2
        | panic => simp
        | ret r2 =>
          obtain ⟨e2, q2⟩ := r2
          cases e2
          · exact (hR q2 fi rest h2).1
          · simp
      · simp

theorem fuelOk_parseStructRangeN (k : Nat) (ih : FuelOk k) (p fl o)
    (h : 2 * Json.size.sizeO o < k + 1) :
    parseStructRangeN (k + 1) p fl o ≠ .exhausted ∧
      parseStructRangeN (k + 1 + 1) p fl o = parseStructRangeN (k + 1) p fl o := by
  obtain ⟨hP, _, _, _, _, _, hR⟩ := ih
  cases o with
  | nil => simp [parseStructRangeN_nil]
  | cons kv rest =>
    obtain ⟨key, v⟩ := kv
    rw [sizeO_cons] at h
    have h1 : 2 * Json.size v + 1 < k := by omega
    have h2 : 2 * Json.size.sizeO rest < k := by omega
    simp only [parseStructRangeN_cons, (hP _ _ v _ _ h1).2, (hR _ _ rest h2).2, and_true]
    cases findInJsonArray fl nameKey key with
    | none => simp
    | some fi =>
      simp only
      cases getStringVal fi [typeIdKey] with
      | none => simp
      | some ft =>
        simp only
        rcases StringToTypeId ft with ⟨t, _ | e⟩
        · simp only
          cases getDefaultInt16Val fi keyKey 0 with
          | none => simp
          | some key16 =>
            simp only
            have hne := (hP (add p [Token.string key, Token.TType t, Token.int16 key16]) fi v
              typeIdKey typeKey h1).1
            cases hr : parseN k (add p [Token.string key, Token.TType t, Token.int16 key16]) fi v
                typeIdKey typeKey with
            | exhausted => exact absurd hr hne
            | panic => simp
            | ret r =>
              obtain ⟨e, q⟩ := r
              cases e
              · exact (hR q fl rest h2).1
              · simp
        · simp

/-- From fuel `n` on nothing changes, provided `n` exceeds twice the size of the value. -/
theorem fuelOk (n : Nat) : FuelOk n := by
  induction n with
  | zero =>
    refine ⟨?_, ?_, ?_, ?_, ?_, ?_, ?_⟩ <;> intros <;> omega
  | succ k ih =>
    exact ⟨fuelOk_parseN k ih, fuelOk_parseMapN k ih, fuelOk_parseMapRangeN k ih,
      fuelOk_parseListN k ih, fuelOk_parseListRangeN k ih, fuelOk_parseStructN k ih,
      fuelOk_parseStructRangeN k ih⟩

/-- A view of `parseN` at positive fuel by the wire tag of the declared type. -/
theorem parseN_view (n : Nat) (p : WIJSONProtocol) (fi : Object) (v : Json) (k1 k2 : String) :
    parseN (n + 1) p fi v k1 k2 =
      match getStringVal fi [k1] with
      | none => .panic
      | some ft =>
        match StringToTypeId ft with
        | (_, some _) => .ret (some (Err.New ("Unexpected type " ++ ft)), p)
        | (TType.BOOL, none) =>
          (match v with
          | .bool b => .ret (none, add p [Token.bool b])
          | _ => .ret (some (Err.New "Expected bool"), p))
        | (TType.BYTE, none) =>
          (match v with
          | .num q => .ret (none, add p [Token.byte (byteOfFloat64 q)])
          | _ => .ret (some (Err.New "Expected byte"), p))
        | (TType.I16, none) =>
          (match v with
          | .num q => .ret (none, add p [Token.int16 (int16OfFloat64 q)])
          | _ => .ret (some (Err.New "Expected int16"), p))
        | (TType.I32, none) =>
          (match v with
          | .num q => .ret (none, add p [Token.int32 (int32OfFloat64 q)])
          | _ => .ret (some (Err.New "Expected int32"), p))
        | (TType.I64, none) =>
          (match v with
          | .num q => .ret (none, add p [Token.int64 (int64OfFloat64 q)])
          | _ => .ret (some (Err.New "Expected int64"), p))
        | (TType.DOUBLE, none) =>
          (match v with
          | .num q => .ret (none, add p [Token.float64 q])
          | _ => .ret (some (Err.New "Expected double"), p))
        | (TType.STRING, none) =>
          (match v with
          | .str s => .ret (none, add p [Token.string s])
          | _ => .ret (some (Err.New "Expected string"), p))
        | (TType.STRUCT, none) =>
          (match getJsonVal fi [k2] with
          | none => .panic
          | some elemType =>
            match getStructFieldList p elemType with
            | none => .panic
            | some fieldsList => parseStructN n p fieldsList v)
        | (TType.MAP, none) =>
          (match getJsonVal fi [k2] with
          | none => .panic
          | some info => parseMapN n p info v)
        | (TType.SET, none) =>
          (match getJsonVal fi [k2] with
          | none => .panic
          | some info => parseListN n p info v)
        | (TType.LIST, none) =>
          (match getJsonVal fi [k2] with
          | none => .panic
          | some info => parseListN n p info v)
        | (TType.STOP, none) => .panic := by
  rw [parseN_succ]
  cases getStringVal fi [k1] with
  | none => rfl
  | some ft =>
    simp only
    by_cases h1 : ft = "bool"
    · subst h1; rfl
    by_cases h2 : ft = "i8"
    · subst h2; rfl
    by_cases h3 : ft = "i16"
    · subst h3; rfl
    by_cases h4 : ft = "i32"
    · subst h4; rfl
    by_cases h5 : ft = "i64"
    · subst h5; rfl
    by_cases h6 : ft = "double"
    · subst h6; rfl
    by_cases h7 : ft = "string"
    · subst h7; rfl
    by_cases h8 : ft = "struct" ∨ ft = "union" ∨ ft = "exception"
    · rcases h8 with h | h | h <;> subst h <;> rfl
    by_cases h9 : ft = "map"
    · subst h9; rfl
    by_cases h10 : ft = "set" ∨ ft = "list"
    · rcases h10 with h | h <;> subst h <;> rfl
    rw [if_neg h1, if_neg h2, if_neg h3, if_neg h4, if_neg h5, if_neg h6, if_neg h7, if_neg h8,
      if_neg h9, if_neg h10]
    have hs : StringToTypeId ft = (TType.STOP, some (Err.TProtocolException
        TProtocolExceptionType.INVALID_DATA (Err.New ("Unknown type identifier: " ++ ft)))) := by
      have h11 : ¬ ft = "set" := fun h => h10 (Or.inl h)
      have h12 : ¬ ft = "list" := fun h => h10 (Or.inr h)
      unfold StringToTypeId
      rw [if_neg h1, if_neg h2, if_neg h3, if_neg h4, if_neg h5, if_neg h6, if_neg h7,
        if_neg h8, if_neg h9, if_neg h11, if_neg h12]
    rw [hs]

/-! ## Enough fuel -/

theorem parseN_fuel {n m : Nat} (p : WIJSONProtocol) (fi : Object) (v : Json) (k1 k2 : String)
    (h : 2 * Json.size v + 1 < n) (hm : n ≤ m) :
    parseN m p fi v k1 k2 = parseN n p fi v k1 k2 := by
  induction hm with
  | refl => rfl
  | step hle ih =>
    rw [← ih]
    exact ((fuelOk _).1 p fi v k1 k2 (Nat.lt_of_lt_of_le h hle)).2

theorem parseMapN_fuel {n m : Nat} (p : WIJSONProtocol) (fi : Object) (v : Json)
    (h : 2 * Json.size v < n) (hm : n ≤ m) : parseMapN m p fi v = parseMapN n p fi v := by
  induction hm with
  | refl => rfl
  | step hle ih =>
    rw [← ih]
    exact ((fuelOk _).2.1 p fi v (Nat.lt_of_lt_of_le h hle)).2

theorem parseMapRangeN_fuel {n m : Nat} (p : WIJSONProtocol) (fi : Object) (o : Object)
    (h : 2 * Json.size.sizeO o < n) (hm : n ≤ m) :
    parseMapRangeN m p fi o = parseMapRangeN n p fi o := by
  induction hm with
  | refl => rfl
  | step hle ih =>
    rw [← ih]
    exact ((fuelOk _).2.2.1 p fi o (Nat.lt_of_lt_of_le h hle)).2

theorem parseListN_fuel {n m : Nat} (p : WIJSONProtocol) (fi : Object) (v : Json)
    (h : 2 * Json.size v < n) (hm : n ≤ m) : parseListN m p fi v = parseListN n p fi v := by
  induction hm with
  | refl => rfl
  | step hle ih =>
    rw [← ih]
    exact ((fuelOk _).2.2.2.1 p fi v (Nat.lt_of_lt_of_le h hle)).2

theorem parseListRangeN_fuel {n m : Nat} (p : WIJSONProtocol) (fi : Object) (a : List Json)
    (h : 2 * Json.size.sizeL a < n) (hm : n ≤ m) :
    parseListRangeN m p fi a = parseListRangeN n p fi a := by
  induction hm with
  | refl => rfl
  | step hle ih =>
    rw [← ih]
    exact ((fuelOk _).2.2.2.2.1 p fi a (Nat.lt_of_lt_of_le h hle)).2

theorem parseStructN_fuel {n m : Nat} (p : WIJSONProtocol) (fl : List Json) (v : Json)
    (h : 2 * Json.size v < n) (hm : n ≤ m) : parseStructN m p fl v = parseStructN n p fl v := by
  induction hm with
  | refl => rfl
  | step hle ih =>
    rw [← ih]
    exact ((fuelOk _).2.2.2.2.2.1 p fl v (Nat.lt_of_lt_of_le h hle)).2

theorem parseStructRangeN_fuel {n m : Nat} (p : WIJSONProtocol) (fl : List Json) (o : Object)
    (h : 2 * Json.size.sizeO o < n) (hm : n ≤ m) :
    parseStructRangeN m p fl o = parseStructRangeN n p fl o := by
  induction hm with
  | refl => rfl
  | step hle ih =>
    rw [← ih]
    exact ((fuelOk _).2.2.2.2.2.2 p fl o (Nat.lt_of_lt_of_le h hle)).2

/-! ## The recursion equations of the linearizer -/

/-- Go `parse` satisfies the equation that the Go function body reads. -/
theorem parse_eq (protocol : WIJSONProtocol) (fieldInfo : Object) (value : Json)
    (fieldTypeIdKey fieldTypeKey : String) :
    parse protocol fieldInfo value fieldTypeIdKey fieldTypeKey =
      match getStringVal fieldInfo [fieldTypeIdKey] with
      | none => .panic
      | some fieldType =>
        if fieldType = "bool" then
          match value with
          | .bool v => .ret (none, add protocol [Token.bool v])
          | _ => .ret (some (Err.New "Expected bool"), protocol)
        else if fieldType = "i8" then
          match value with
          | .num v => .ret (none, add protocol [Token.byte (byteOfFloat64 v)])
          | _ => .ret (some (Err.New "Expected byte"), protocol)
        else if fieldType = "i16" then
          match value with
          | .num v => .ret (none, add protocol [Token.int16 (int16OfFloat64 v)])
          | _ => .ret (some (Err.New "Expected int16"), protocol)
        else if fieldType = "i32" then
          match value with
          | .num v => .ret (none, add protocol [Token.int32 (int32OfFloat64 v)])
          | _ => .ret (some (Err.New "Expected int32"), protocol)
        else if fieldType = "i64" then
          match value with
          | .num v => .ret (none, add protocol [Token.int64 (int64OfFloat64 v)])
          | _ => .ret (some (Err.New "Expected int64"), protocol)
        else if fieldType = "double" then
          match value with
          | .num v => .ret (none, add protocol [Token.float64 v])
          | _ => .ret (some (Err.New "Expected double"), protocol)
        else if fieldType = "string" then
          match value with
          | .str v => .ret (none, add protocol [Token.string v])
          | _ => .ret (some (Err.New "Expected string"), protocol)
        else if fieldType = "struct" ∨ fieldType = "union" ∨ fieldType = "exception" then
          match getJsonVal fieldInfo [fieldTypeKey] with
          | none => .panic
          | some elemType =>
            match getStructFieldList protocol elemType with
            | none => .panic
            | some fieldsList => parseStruct protocol fieldsList value
        else if fieldType = "map" then
          match getJsonVal fieldInfo [fieldTypeKey] with
          | none => .panic
          | some info => parseMap protocol info value
        else if fieldType = "set" ∨ fieldType = "list" then
          match getJsonVal fieldInfo [fieldTypeKey] with
          | none => .panic
          | some info => parseList protocol info value
        else .ret (some (Err.New ("Unexpected type " ++ fieldType)), protocol) := by
  rfl

theorem parseStruct_eq (protocol : WIJSONProtocol) (fieldsList : List Json) (request : Json) :
    parseStruct protocol fieldsList request =
      match toJsonCheck request with
      | some object =>
        match parseStructRange protocol fieldsList object with
        | .ret (none, protocol1) => .ret (none, add protocol1 stopField)
        | r => r
      | none => .ret (some (Err.expectedJsonObject request), protocol) := by
  unfold parseStruct parseStructRange
  rw [parseStructN_succ]
  cases ho : toJsonCheck request with
  | none => rfl
  | some o =>
    have hv := toJsonCheck_eq_some ho
    subst hv
    have e : ∀ q, parseStructRangeN (2 * (Json.obj o).size) q fieldsList o =
        parseStructRangeN (2 * Json.size.sizeO o + 1) q fieldsList o := fun q =>
      parseStructRangeN_fuel q fieldsList o (Nat.lt_succ_self _) (by rw [size_obj]; omega)
    simp only [e]

theorem parseStructRange_nil (protocol : WIJSONProtocol) (fieldsList : List Json) :
    parseStructRange protocol fieldsList [] = .ret (none, protocol) := by
  rfl

theorem parseStructRange_cons (protocol : WIJSONProtocol) (fieldsList : List Json)
    (key : String) (value : Json) (rest : Object) :
    parseStructRange protocol fieldsList ((key, value) :: rest) =
      match findInJsonArray fieldsList nameKey key with
      | none => .ret (some (Err.New ("Unexpected key " ++ key)), protocol)
      | some fieldInfo =>
        match getStringVal fieldInfo [typeIdKey] with
        | none => .panic
        | some typeId =>
          match StringToTypeId typeId with
          | (_, some err) => .ret (some err, protocol)
          | (fieldType, none) =>
            match getDefaultInt16Val fieldInfo keyKey 0 with
            | none => .panic
            | some key16 =>
              match parse
                  (add protocol [Token.string key, Token.TType fieldType, Token.int16 key16])
                  fieldInfo value typeIdKey typeKey with
              | .ret (none, protocol1) => parseStructRange protocol1 fieldsList rest
              | r => r := by
  unfold parseStructRange parse
  rw [parseStructRangeN_cons]
  have e1 : ∀ q fi k1 k2, parseN (2 * Json.size.sizeO ((key, value) :: rest)) q fi value k1 k2 =
      parseN (2 * value.size + 1 + 1) q fi value k1 k2 := fun q fi k1 k2 =>
    parseN_fuel q fi value k1 k2 (Nat.lt_succ_self _) (by rw [sizeO_cons]; omega)
  have e2 : ∀ q, parseStructRangeN (2 * Json.size.sizeO ((key, value) :: rest)) q fieldsList rest =
      parseStructRangeN (2 * Json.size.sizeO rest + 1) q fieldsList rest := fun q =>
    parseStructRangeN_fuel q fieldsList rest (Nat.lt_succ_self _) (by rw [sizeO_cons]; omega)
  simp only [e1, e2]

theorem parseMap_eq (protocol : WIJSONProtocol) (fieldInfo : Object) (request : Json) :
    parseMap protocol fieldInfo request =
      match toJsonCheck request with
      | some object =>
        match getStringVal fieldInfo [keyTypeIdKey] with
        | none => .panic
        | some keyTypeId =>
          match StringToTypeId keyTypeId with
          | (_, some err) => .ret (some err, protocol)
          | (keyType, none) =>
            match getStringVal fieldInfo [valueTypeIdKey] with
            | none => .panic
            | some valueTypeId =>
              match StringToTypeId valueTypeId with
              | (_, some err) => .ret (some err, protocol)
              | (valueType, none) =>
                parseMapRange
                  (add protocol
                    [Token.TType keyType, Token.TType valueType, Token.int object.length])
                  fieldInfo object
      | none => .ret (some (Err.New "Expected Map (Json Object)"), protocol) := by
  unfold parseMap parseMapRange
  rw [parseMapN_succ]
  cases ho : toJsonCheck request with
  | none => rfl
  | some o =>
    have hv := toJsonCheck_eq_some ho
    subst hv
    have e : ∀ q, parseMapRangeN (2 * (Json.obj o).size) q fieldInfo o =
        parseMapRangeN (2 * Json.size.sizeO o + 1) q fieldInfo o := fun q =>
      parseMapRangeN_fuel q fieldInfo o (Nat.lt_succ_self _) (by rw [size_obj]; omega)
    simp only [e]

theorem parseMapRange_nil (protocol : WIJSONProtocol) (fieldInfo : Object) :
    parseMapRange protocol fieldInfo [] = .ret (none, protocol) := by
  rfl

theorem parseMapRange_cons (protocol : WIJSONProtocol) (fieldInfo : Object)
    (key : String) (value : Json) (rest : Object) :
    parseMapRange protocol fieldInfo ((key, value) :: rest) =
      match parse protocol fieldInfo (Json.str key) keyTypeIdKey keyTypeKey with
      | .ret (none, protocol1) =>
        match parse protocol1 fieldInfo value valueTypeIdKey valueTypeKey with
        | .ret (none, protocol2) => parseMapRange protocol2 fieldInfo rest
        | r => r
      | r => r := by
  unfold parseMapRange parse
  rw [parseMapRangeN_cons]
  have e0 : ∀ q fi k1 k2,
      parseN (2 * Json.size.sizeO ((key, value) :: rest)) q fi (Json.str key) k1 k2 =
      parseN (2 * (Json.str key).size + 1 + 1) q fi (Json.str key) k1 k2 := fun q fi k1 k2 =>
    parseN_fuel q fi (Json.str key) k1 k2 (Nat.lt_succ_self _)
      (by rw [sizeO_cons, size_str]; omega)
  have e1 : ∀ q fi k1 k2, parseN (2 * Json.size.sizeO ((key, value) :: rest)) q fi value k1 k2 =
      parseN (2 * value.size + 1 + 1) q fi value k1 k2 := fun q fi k1 k2 =>
    parseN_fuel q fi value k1 k2 (Nat.lt_succ_self _) (by rw [sizeO_cons]; omega)
  have e2 : ∀ q, parseMapRangeN (2 * Json.size.sizeO ((key, value) :: rest)) q fieldInfo rest =
      parseMapRangeN (2 * Json.size.sizeO rest + 1) q fieldInfo rest := fun q =>
    parseMapRangeN_fuel q fieldInfo rest (Nat.lt_succ_self _) (by rw [sizeO_cons]; omega)
  simp only [e0, e1, e2]

theorem parseList_eq (protocol : WIJSONProtocol) (fieldInfo : Object) (request : Json) :
    parseList protocol fieldInfo request =
      match ToJsonArrayCheck request with
      | some array =>
        match getStringVal fieldInfo [elemTypeIdKey] with
        | none => .panic
        | some elemTypeId =>
          match StringToTypeId elemTypeId with
          | (_, some err) => .ret (some err, protocol)
          | (elemType, none) =>
            parseListRange (add protocol [Token.TType elemType, Token.int array.length])
              fieldInfo array
      | none => .ret (some (Err.New "Expected Json Array"), protocol) := by
  unfold parseList parseListRange
  rw [parseListN_succ]
  cases ho : ToJsonArrayCheck request with
  | none => rfl
  | some a =>
    have hv := ToJsonArrayCheck_eq_some ho
    subst hv
    have e : ∀ q, parseListRangeN (2 * (Json.arr a).size) q fieldInfo a =
        parseListRangeN (2 * Json.size.sizeL a + 1) q fieldInfo a := fun q =>
      parseListRangeN_fuel q fieldInfo a (Nat.lt_succ_self _) (by rw [size_arr]; omega)
    simp only [e]

theorem parseListRange_nil (protocol : WIJSONProtocol) (fieldInfo : Object) :
    parseListRange protocol fieldInfo [] = .ret (none, protocol) := by
  rfl

theorem parseListRange_cons (protocol : WIJSONProtocol) (fieldInfo : Object)
    (value : Json) (rest : List Json) :
    parseListRange protocol fieldInfo (value :: rest) =
      match parse protocol fieldInfo value elemTypeIdKey elemTypeKey with
      | .ret (none, protocol1) => parseListRange protocol1 fieldInfo rest
      | r => r := by
  unfold parseListRange parse
  rw [parseListRangeN_cons]
  have e1 : ∀ q fi k1 k2, parseN (2 * Json.size.sizeL (value :: rest)) q fi value k1 k2 =
      parseN (2 * value.size + 1 + 1) q fi value k1 k2 := fun q fi k1 k2 =>
    parseN_fuel q fi value k1 k2 (Nat.lt_succ_self _) (by rw [sizeL_cons]; omega)
  have e2 : ∀ q, parseListRangeN (2 * Json.size.sizeL (value :: rest)) q fieldInfo rest =
      parseListRangeN (2 * Json.size.sizeL rest + 1) q fieldInfo rest := fun q =>
    parseListRangeN_fuel q fieldInfo rest (Nat.lt_succ_self _) (by rw [sizeL_cons]; omega)
  simp only [e1, e2]

/-! ## The linearizer only appends -/

theorem add_nil (p : WIJSONProtocol) : add p [] = p := by
  simp [add]

theorem add_add (p : WIJSONProtocol) (a b : List Token) : add (add p a) b = add p (a ++ b) := by
  simp [add]

theorem prepend_add (ps : List Token) (p : WIJSONProtocol) (ts : List Token) :
    add (prepend ps p) ts = prepend ps (add p ts) := by
  simp [add, prepend]

theorem getStructFieldList_prepend (ps : List Token) (p : WIJSONProtocol) (et : Object) :
    getStructFieldList (prepend ps p) et = getStructFieldList p et := by
  rfl

theorem appends_parseN (k : Nat) (ih : Appends k) (p fi v k1 k2 e q)
    (h : parseN (k + 1) p fi v k1 k2 = .ret (e, q)) : ∃ toks, q = add p toks := by
  obtain ⟨_, hM, _, hL, _, hS, _⟩ := ih
  rw [parseN_view] at h
  cases hg : getStringVal fi [k1] with
  | none => rw [hg] at h; simp at h
  | some ft =>
    rw [hg] at h
    simp only at h
    rcases hs : StringToTypeId ft with ⟨t, _ | e'⟩
    · rw [hs] at h
      cases t
      case STOP => simp at h
      case STRUCT =>
        simp only at h
        cases hj : getJsonVal fi [k2] with
        | none => rw [hj] at h; simp at h
        | some et =>
          rw [hj] at h
          simp only at h
          cases hf : getStructFieldList p et with
          | none => rw [hf] at h; simp at h
          | some fl => rw [hf] at h; exact hS _ _ _ _ _ h
      case MAP =>
        simp only at h
        cases hj : getJsonVal fi [k2] with
        | none => rw [hj] at h; simp at h
        | some et => rw [hj] at h; exact hM _ _ _ _ _ h
      case SET =>
        simp only at h
        cases hj : getJsonVal fi [k2] with
        | none => rw [hj] at h; simp at h
        | some et => rw [hj] at h; exact hL _ _ _ _ _ h
      case LIST =>
        simp only at h
        cases hj : getJsonVal fi [k2] with
        | none => rw [hj] at h; simp at h
        | some et => rw [hj] at h; exact hL _ _ _ _ _ h
      all_goals
        cases v <;> simp only [Run.ret.injEq, Prod.mk.injEq] at h <;> obtain ⟨_, rfl⟩ := h <;>
          first
            | exact ⟨_, rfl⟩
            | exact ⟨[], (add_nil p).symm⟩
    · rw [hs] at h
      simp only [Run.ret.injEq, Prod.mk.injEq] at h
      exact ⟨[], by rw [add_nil]; exact h.2.symm⟩

theorem appends_parseMapN (k : Nat) (ih : Appends k) (p fi v e q)
    (h : parseMapN (k + 1) p fi v = .ret (e, q)) : ∃ toks, q = add p toks := by
  obtain ⟨_, _, hR, _, _, _, _⟩ := ih
  rw [parseMapN_succ] at h
  cases ho : toJsonCheck v with
  | none =>
    rw [ho] at h
    simp only [Run.ret.injEq, Prod.mk.injEq] at h
    exact ⟨[], by rw [add_nil]; exact h.2.symm⟩
  | some o =>
    rw [ho] at h
    simp only at h
    cases hk : getStringVal fi [keyTypeIdKey] with
    | none => rw [hk] at h; simp at h
    | some kt =>
      rw [hk] at h
      simp only at h
      rcases hs : StringToTypeId kt with ⟨t, _ | e'⟩
      · rw [hs] at h
        simp only at h
        cases hv : getStringVal fi [valueTypeIdKey] with
        | none => rw [hv] at h; simp at h
        | some vt =>
          rw [hv] at h
          simp only at h
          rcases hs2 : StringToTypeId vt with ⟨t2, _ | e2⟩
          · rw [hs2] at h
            simp only at h
            obtain ⟨toks, rfl⟩ := hR _ _ _ _ _ h
            exact ⟨_, add_add _ _ _⟩
          · rw [hs2] at h
            simp only [Run.ret.injEq, Prod.mk.injEq] at h
            exact ⟨[], by rw [add_nil]; exact h.2.symm⟩
      · rw [hs] at h
        simp only [Run.ret.injEq, Prod.mk.injEq] at h
        exact ⟨[], by rw [add_nil]; exact h.2.symm⟩

theorem appends_parseListN (k : Nat) (ih : Appends k) (p fi v e q)
    (h : parseListN (k + 1) p fi v = .ret (e, q)) : ∃ toks, q = add p toks := by
  obtain ⟨_, _, _, _, hR, _, _⟩ := ih
  rw [parseListN_succ] at h
  cases ho : ToJsonArrayCheck v with
  | none =>
    rw [ho] at h
    simp only [Run.ret.injEq, Prod.mk.injEq] at h
    exact ⟨[], by rw [add_nil]; exact h.2.symm⟩
  | some o =>
    rw [ho] at h
    simp only at h
    cases hk : getStringVal fi [elemTypeIdKey] with
    | none => rw [hk] at h; simp at h
    | some kt =>
      rw [hk] at h
      simp only at h
      rcases hs : StringToTypeId kt with ⟨t, _ | e'⟩
      · rw [hs] at h
        simp only at h
        obtain ⟨toks, rfl⟩ := hR _ _ _ _ _ h
        exact ⟨_, add_add _ _ _⟩
      · rw [hs] at h
        simp only [Run.ret.injEq, Prod.mk.injEq] at h
        exact ⟨[], by rw [add_nil]; exact h.2.symm⟩

theorem appends_parseStructN (k : Nat) (ih : Appends k) (p fl v e q)
    (h : parseStructN (k + 1) p fl v = .ret (e, q)) : ∃ toks, q = add p toks := by
  obtain ⟨_, _, _, _, _, _, hR⟩ := ih
  rw [parseStructN_succ] at h
  cases ho : toJsonCheck v with
  | none =>
    rw [ho] at h
    simp only [Run.ret.injEq, Prod.mk.injEq] at h
    exact ⟨[], by rw [add_nil]; exact h.2.symm⟩
  | some o =>
    rw [ho] at h
    simp only at h
    cases hr : parseStructRangeN k p fl o with
    | exhausted => rw [hr] at h; simp at h
    | panic => rw [hr] at h; simp at h
    | ret r =>
      obtain ⟨e1, q1⟩ := r
      rw [hr] at h
      obtain ⟨toks, rfl⟩ := hR _ _ _ _ _ hr
      cases e1 with
      | none =>
        simp only [Run.ret.injEq, Prod.mk.injEq] at h
        exact ⟨_, by rw [← h.2, add_add]⟩
      | some e1 =>
        simp only [Run.ret.injEq, Prod.mk.injEq] at h
        exact ⟨_, h.2.symm⟩

theorem appends_parseListRangeN (k : Nat) (ih : Appends k) (p fi a e q)
    (h : parseListRangeN (k + 1) p fi a = .ret (e, q)) : ∃ toks, q = add p toks := by
  obtain ⟨hP, _, _, _, hR, _, _⟩ := ih
  cases a with
  | nil =>
    rw [parseListRangeN_nil] at h
    simp only [Run.ret.injEq, Prod.mk.injEq] at h
    exact ⟨[], by rw [add_nil]; exact h.2.symm⟩
  | cons v rest =>
    rw [parseListRangeN_cons] at h
    cases hr : parseN k p fi v elemTypeIdKey elemTypeKey with
    | exhausted => rw [hr] at h; simp at h
    | panic => rw [hr] at h; simp at h
    | ret r =>
      obtain ⟨e1, q1⟩ := r
      rw [hr] at h
      obtain ⟨toks, rfl⟩ := hP _ _ _ _ _ _ _ hr
      cases e1 with
      | none =>
        simp only at h
        obtain ⟨toks2, rfl⟩ := hR _ _ _ _ _ h
        exact ⟨_, add_add _ _ _⟩
      | some e1 =>
        simp only [Run.ret.injEq, Prod.mk.injEq] at h
        exact ⟨_, h.2.symm⟩

theorem appends_parseMapRangeN (k : Nat) (ih : Appends k) (p fi o e q)
    (h : parseMapRangeN (k + 1) p fi o = .ret (e, q)) : ∃ toks, q = add p toks := by
  obtain ⟨hP, _, hR, _, _, _, _⟩ := ih
  cases o with
  | nil =>
    rw [parseMapRangeN_nil] at h
    simp only [Run.ret.injEq, Prod.mk.injEq] at h
    exact ⟨[], by rw [add_nil]; exact h.2.symm⟩
  | cons kv rest =>
    obtain ⟨key, v⟩ := kv
    rw [parseMapRangeN_cons] at h
    cases hr : parseN k p fi (Json.str key) keyTypeIdKey keyTypeKey with
    | exhausted => rw [hr] at h; simp at h
    | panic => rw [hr] at h; simp at h
    | ret r =>
      obtain ⟨e1, q1⟩ := r
      rw [hr] at h
      obtain ⟨toks, rfl⟩ := hP _ _ _ _ _ _ _ hr
      cases e1 with
      | none =>
        simp only at h
        cases hr2 : parseN k (add p toks) fi v valueTypeIdKey valueTypeKey with
        | exhausted => rw [hr2] at h; simp at h
        | panic => rw [hr2] at h; simp at h
        | ret r2 =>
          obtain ⟨e2, q2⟩ := r2
          rw [hr2] at h
          obtain ⟨toks2, rfl⟩ := hP _ _ _ _ _ _ _ hr2
          cases e2 with
          | none =>
            simp only at h
            obtain ⟨toks3, rfl⟩ := hR _ _ _ _ _ h
            exact ⟨_, by rw [add_add, add_add]⟩
          | some e2 =>
            simp only [Run.ret.injEq, Prod.mk.injEq] at h
            exact ⟨_, by rw [← h.2, add_add]⟩
      | some e1 =>
        simp only [Run.ret.injEq, Prod.mk.injEq] at h
        exact ⟨_, h.2.symm⟩

theorem appends_parseStructRangeN (k : Nat) (ih : Appends k) (p fl o e q)
    (h : parseStructRangeN (k + 1) p fl o = .ret (e, q)) : ∃ toks, q = add p toks := by
  obtain ⟨hP, _, _, _, _, _, hR⟩ := ih
  cases o with
  | nil =>
    rw [parseStructRangeN_nil] at h
    simp only [Run.ret.injEq, Prod.mk.injEq] at h
    exact ⟨[], by rw [add_nil]; exact h.2.symm⟩
  | cons kv rest =>
    obtain ⟨key, v⟩ := kv
    rw [parseStructRangeN_cons] at h
    cases hf : findInJsonArray fl nameKey key with
    | none =>
      rw [hf] at h
      simp only [Run.ret.injEq, Prod.mk.injEq] at h
      exact ⟨[], by rw [add_nil]; exact h.2.symm⟩
    | some fi =>
      rw [hf] at h
      simp only at h
      cases hk : getStringVal fi [typeIdKey] with
      | none => rw [hk] at h; simp at h
      | some ft =>
        rw [hk] at h
        simp only at h
        rcases hs : StringToTypeId ft with ⟨t, _ | e'⟩
        · rw [hs] at h
          simp only at h
          cases hd : getDefaultInt16Val fi keyKey 0 with
          | none => rw [hd] at h; simp at h
          | some key16 =>
            rw [hd] at h
            simp only at h
            cases hr : parseN k (add p [Token.string key, Token.TType t, Token.int16 key16]) fi v
                typeIdKey typeKey with
            | exhausted => rw [hr] at h; simp at h
            | panic => rw [hr] at h; simp at h
            | ret r =>
              obtain ⟨e1, q1⟩ := r
              rw [hr] at h
              obtain ⟨toks, rfl⟩ := hP _ _ _ _ _ _ _ hr
              cases e1 with
              | none =>
                simp only at h
                obtain ⟨toks2, rfl⟩ := hR _ _ _ _ _ h
                exact ⟨_, by rw [add_add, add_add]⟩
              | some e1 =>
                simp only [Run.ret.injEq, Prod.mk.injEq] at h
                exact ⟨_, by rw [← h.2, add_add]⟩
        · rw [hs] at h
          simp only [Run.ret.injEq, Prod.mk.injEq] at h
          exact ⟨[], by rw [add_nil]; exact h.2.symm⟩

/-- Whatever the fuel, a linearizer call that returns has only appended tokens. -/
theorem appends (n : Nat) : Appends n := by
  induction n with
  | zero =>
    refine ⟨?_, ?_, ?_, ?_, ?_, ?_, ?_⟩ <;> intros <;> rename_i h <;>
      simp [parseN, parseMapN, parseMapRangeN, parseListN, parseListRangeN, parseStructN,
        parseStructRangeN] at h
  | succ k ih =>
    exact ⟨appends_parseN k ih, appends_parseMapN k ih, appends_parseMapRangeN k ih,
      appends_parseListN k ih, appends_parseListRangeN k ih, appends_parseStructN k ih,
      appends_parseStructRangeN k ih⟩

/-! ## The linearizer does not look at the buffer -/

theorem withPrefix_ret (ps : List Token) (e : Option Err) (q : WIJSONProtocol) :
    withPrefix ps (.ret (e, q)) = .ret (e, prepend ps q) := by
  rfl

theorem framed_parseN (k : Nat) (ih : Framed k) (ps p fi v k1 k2) :
    parseN (k + 1) (prepend ps p) fi v k1 k2 = withPrefix ps (parseN (k + 1) p fi v k1 k2) := by
  obtain ⟨_, hM, _, hL, _, hS, _⟩ := ih
  rw [parseN_view, parseN_view]
  cases getStringVal fi [k1] with
  | none => rfl
  | some ft =>
    simp only
    rcases StringToTypeId ft with ⟨t, _ | e'⟩
    · cases t
      case STOP => rfl
      case STRUCT =>
        simp only [getStructFieldList_prepend]
        cases getJsonVal fi [k2] with
        | none => rfl
        | some et =>
          simp only
          cases getStructFieldList p et with
          | none => rfl
          | some fl => exact hS _ _ _ _
      case MAP =>
        simp only
        cases getJsonVal fi [k2] with
        | none => rfl
        | some et => exact hM _ _ _ _
      case SET =>
        simp only
        cases getJsonVal fi [k2] with
        | none => rfl
        | some et => exact hL _ _ _ _
      case LIST =>
        simp only
        cases getJsonVal fi [k2] with
        | none => rfl
        | some et => exact hL _ _ _ _
      all_goals
        cases v <;> simp only [withPrefix_ret, prepend_add]
    · cases t <;> rfl

theorem framed_parseMapN (k : Nat) (ih : Framed k) (ps p fi v) :
    parseMapN (k + 1) (prepend ps p) fi v = withPrefix ps (parseMapN (k + 1) p fi v) := by
  obtain ⟨_, _, hR, _, _, _, _⟩ := ih
  rw [parseMapN_succ, parseMapN_succ]
  cases toJsonCheck v with
  | none => rfl
  | some o =>
    simp only
    cases getStringVal fi [keyTypeIdKey] with
    | none => rfl
    | some kt =>
      simp only
      rcases StringToTypeId kt with ⟨t, _ | e'⟩
      · simp only
        cases getStringVal fi [valueTypeIdKey] with
        | none => rfl
        | some vt =>
          simp only
          rcases StringToTypeId vt with ⟨t2, _ | e2⟩
          · simp only [prepend_add]
            exact hR _ _ _ _
          · rfl
      · rfl

theorem framed_parseListN (k : Nat) (ih : Framed k) (ps p fi v) :
    parseListN (k + 1) (prepend ps p) fi v = withPrefix ps (parseListN (k + 1) p fi v) := by
  obtain ⟨_, _, _, _, hR, _, _⟩ := ih
  rw [parseListN_succ, parseListN_succ]
  cases ToJsonArrayCheck v with
  | none => rfl
  | some o =>
    simp only
    cases getStringVal fi [elemTypeIdKey] with
    | none => rfl
    | some kt =>
      simp only
      rcases StringToTypeId kt with ⟨t, _ | e'⟩
      · simp only [prepend_add]
        exact hR _ _ _ _
      · rfl

theorem framed_parseStructN (k : Nat) (ih : Framed k) (ps p fl v) :
    parseStructN (k + 1) (prepend ps p) fl v = withPrefix ps (parseStructN (k + 1) p fl v) := by
  obtain ⟨_, _, _, _, _, _, hR⟩ := ih
  rw [parseStructN_succ, parseStructN_succ]
  cases toJsonCheck v with
  | none => rfl
  | some o =>
    simp only [hR]
    cases parseStructRangeN k p fl o with
    | exhausted => rfl
    | panic => rfl
    | ret r =>
      obtain ⟨e, q⟩ := r
      cases e with
      | none => simp only [withPrefix_ret, prepend_add]
      | some e => rfl

theorem framed_parseListRangeN (k : Nat) (ih : Framed k) (ps p fi a) :
    parseListRangeN (k + 1) (prepend ps p) fi a =
      withPrefix ps (parseListRangeN (k + 1) p fi a) := by
  obtain ⟨hP, _, _, _, hR, _, _⟩ := ih
  cases a with
  | nil => rfl
  | cons v rest =>
    rw [parseListRangeN_cons, parseListRangeN_cons, hP]
    cases parseN k p fi v elemTypeIdKey elemTypeKey with
    | exhausted => rfl
    | panic => rfl
    | ret r =>
      obtain ⟨e, q⟩ := r
      cases e with
      | none => simp only [withPrefix_ret]; exact hR _ _ _ _
      | some e => rfl

theorem framed_parseMapRangeN (k : Nat) (ih : Framed k) (ps p fi o) :
    parseMapRangeN (k + 1) (prepend ps p) fi o =
      withPrefix ps (parseMapRangeN (k + 1) p fi o) := by
  obtain ⟨hP, _, hR, _, _, _, _⟩ := ih
  cases o with
  | nil => rfl
  | cons kv rest =>
    obtain ⟨key, v⟩ := kv
    rw [parseMapRangeN_cons, parseMapRangeN_cons, hP]
    cases parseN k p fi (Json.str key) keyTypeIdKey keyTypeKey with
    | exhausted => rfl
    | panic => rfl
    | ret r =>
      obtain ⟨e, q⟩ := r
      cases e with
      | none =>
        simp only [withPrefix_ret, hP]
        cases parseN k q fi v valueTypeIdKey valueTypeKey with
        | exhausted => rfl
        | panic => rfl
        | ret r2 =>
          obtain ⟨e2, q2⟩ := r2
          cases e2 with
          | none => simp only [withPrefix_ret]; exact hR _ _ _ _
          | some e2 => rfl
      | some e => rfl

theorem framed_parseStructRangeN (k : Nat) (ih : Framed k) (ps p fl o) :
    parseStructRangeN (k + 1) (prepend ps p) fl o =
      withPrefix ps (parseStructRangeN (k + 1) p fl o) := by
  obtain ⟨hP, _, _, _, _, _, hR⟩ := ih
  cases o with
  | nil => rfl
  | cons kv rest =>
    obtain ⟨key, v⟩ := kv
    rw [parseStructRangeN_cons, parseStructRangeN_cons]
    cases findInJsonArray fl nameKey key with
    | none => rfl
    | some fi =>
      simp only
      cases getStringVal fi [typeIdKey] with
      | none => rfl
      | some ft =>
        simp only
        rcases StringToTypeId ft with ⟨t, _ | e'⟩
        · simp only
          cases getDefaultInt16Val fi keyKey 0 with
          | none => rfl
          | some key16 =>
            simp only [prepend_add, hP]
            cases parseN k (add p [Token.string key, Token.TType t, Token.int16 key16]) fi v
                typeIdKey typeKey with
            | exhausted => rfl
            | panic => rfl
            | ret r =>
              obtain ⟨e, q⟩ := r
              cases e with
              | none => simp only [withPrefix_ret]; exact hR _ _ _ _
              | some e => rfl
        · rfl

/-- Whatever the fuel, a linearizer call does not depend on the tokens already buffered. -/
theorem framed (n : Nat) : Framed n := by
  induction n with
  | zero => exact ⟨fun _ _ _ _ _ _ => rfl, fun _ _ _ _ => rfl, fun _ _ _ _ => rfl,
      fun _ _ _ _ => rfl, fun _ _ _ _ => rfl, fun _ _ _ _ => rfl, fun _ _ _ _ => rfl⟩
  | succ k ih =>
    exact ⟨framed_parseN k ih, framed_parseMapN k ih, framed_parseMapRangeN k ih,
      framed_parseListN k ih, framed_parseListRangeN k ih, framed_parseStructN k ih,
      framed_parseStructRangeN k ih⟩

/-! ## Consequences for `parse` and `parseStruct` -/

theorem prepend_cleared (p : WIJSONProtocol) : prepend p.params (cleared p) = p := by
  simp [prepend, cleared]

theorem prepend_add_cleared (p : WIJSONProtocol) (toks : List Token) :
    prepend p.params (add (cleared p) toks) = add p toks := by
  simp [prepend, cleared, add]

/-- Go `parse` on any buffer is `parse` on the empty buffer, with the buffer put in front. -/
theorem parse_cleared (p : WIJSONProtocol) (fi : Object) (v : Json) (k1 k2 : String) :
    parse p fi v k1 k2 = withPrefix p.params (parse (cleared p) fi v k1 k2) := by
  have h := (framed (2 * v.size + 1 + 1)).1 p.params (cleared p) fi v k1 k2
  rw [prepend_cleared] at h
  exact h

/-- Go `parseStruct` on any buffer is `parseStruct` on the empty buffer, with the buffer put in
front. -/
theorem parseStruct_cleared (p : WIJSONProtocol) (fl : List Json) (v : Json) :
    parseStruct p fl v = withPrefix p.params (parseStruct (cleared p) fl v) := by
  have h := (framed (2 * v.size + 1)).2.2.2.2.2.1 p.params (cleared p) fl v
  rw [prepend_cleared] at h
  exact h

/-- A `parse` that returns has appended the tokens that it emits on the empty buffer. -/
theorem parse_ret (p : WIJSONProtocol) (fi : Object) (v : Json) (k1 k2 : String)
    (e : Option Err) (q : WIJSONProtocol) (h : parse p fi v k1 k2 = .ret (e, q)) :
    q = add p (emitted (parse (cleared p) fi v k1 k2)) := by
  rw [parse_cleared] at h
  cases hc : parse (cleared p) fi v k1 k2 with
  | exhausted => rw [hc] at h; simp [withPrefix] at h
  | panic => rw [hc] at h; simp [withPrefix] at h
  | ret r =>
    obtain ⟨e0, q0⟩ := r
    rw [hc, withPrefix_ret] at h
    obtain ⟨toks, rfl⟩ := (appends _).1 _ _ _ _ _ _ _ hc
    simp only [Run.ret.injEq, Prod.mk.injEq] at h
    rw [← h.2, prepend_add_cleared]
    simp [emitted, add, cleared]

/-- A `parseStruct` that returns has appended the tokens that it emits on the empty buffer. -/
theorem parseStruct_ret (p : WIJSONProtocol) (fl : List Json) (v : Json)
    (e : Option Err) (q : WIJSONProtocol) (h : parseStruct p fl v = .ret (e, q)) :
    q = add p (emitted (parseStruct (cleared p) fl v)) := by
  rw [parseStruct_cleared] at h
  cases hc : parseStruct (cleared p) fl v with
  | exhausted => rw [hc] at h; simp [withPrefix] at h
  | panic => rw [hc] at h; simp [withPrefix] at h
  | ret r =>
    obtain ⟨e0, q0⟩ := r
    rw [hc, withPrefix_ret] at h
    obtain ⟨toks, rfl⟩ := (appends _).2.2.2.2.2.1 _ _ _ _ _ hc
    simp only [Run.ret.injEq, Prod.mk.injEq] at h
    rw [← h.2, prepend_add_cleared]
    simp [emitted, add, cleared]

/-! ## C4: unknown method -/

/-- C4. Unknown method suppression: when the request has the `arguments` key or, lacking it,
the `result` key, and `getMethodInfo` does not find the method name, `ReadMessageBegin`
returns the method name with a nil error, no deferred error is set, the token buffer (empty
before) holds exactly the triple `("", STOP, -1)`, and the first `ReadFieldBegin` returns
`("", STOP, -1)`. -/
theorem unknown_method_suppressed (protocol : WIJSONProtocol) (request : Object)
    (name : String) (err : Err)
    (hname : getDefaultStringVal request methodKey "" = some name)
    (hlookup : getMethodInfo protocol.metadata protocol.service name = some (.error err))
    (hkey : hasKey request argumentsKey = true ∨ hasKey request resultKey = true)
    (hparams : protocol.params = []) (herr : protocol.err = none) :
    ∃ typeId seqId q,
      ReadMessageBegin protocol none (.ok (.obj request)) =
        .ret ((name, typeId, seqId, none), q) ∧
      q.err = none ∧ q.params = stopField ∧
      ReadFieldBegin q = .ret (("", TType.STOP, -1, none), { q with params := [] }) := by
  by_cases ha : hasKey request argumentsKey = true
  · refine ⟨TMessageType.CALL, 0, add { protocol with request := request } stopField, ?_, ?_, ?_, ?_⟩
    · simp [ReadMessageBegin, NewJson, hname, hlookup, getMessageTypeAndSeq, ha, Except.toOption]
    · simpa [add] using herr
    · simp [add, hparams]
    · simp [ReadFieldBegin, slice, add, hparams, stopField]
  · have hr : hasKey request resultKey = true := by
      rcases hkey with h | h
      · exact absurd h ha
      · exact h
    refine ⟨TMessageType.REPLY, 1, add { protocol with request := request } stopField, ?_, ?_, ?_, ?_⟩
    · simp [ReadMessageBegin, NewJson, hname, hlookup, getMessageTypeAndSeq, ha, hr, Except.toOption]
    · simpa [add] using herr
    · simp [add, hparams]
    · simp [ReadFieldBegin, slice, add, hparams, stopField]

theorem unknown_method_suppressed_witness :
    (getDefaultStringVal exampleUnknownCall methodKey "" = some "nope" ∧
      getMethodInfo exampleProtocol.metadata exampleProtocol.service "nope" =
        some (.error (Err.New "Svc::nope not found!")) ∧
      (hasKey exampleUnknownCall argumentsKey = true ∨
        hasKey exampleUnknownCall resultKey = true) ∧
      exampleProtocol.params = [] ∧ exampleProtocol.err = none) ∧
    ∃ typeId seqId q,
      ReadMessageBegin exampleProtocol none (.ok (.obj exampleUnknownCall)) =
        .ret (("nope", typeId, seqId, none), q) ∧
      q.err = none ∧ q.params = stopField ∧
      ReadFieldBegin q = .ret (("", TType.STOP, -1, none), { q with params := [] }) :=
  ⟨⟨rfl, rfl, Or.inl rfl, rfl, rfl⟩,
    unknown_method_suppressed exampleProtocol exampleUnknownCall "nope"
      (Err.New "Svc::nope not found!") rfl rfl (Or.inl rfl) rfl rfl⟩

/-! ## The envelope: `getMessageTypeAndSeq` and the CALL branch -/

/-- The message type and sequence id computed by `getMessageTypeAndSeq`, when it does not
panic, are those of the envelope table (`INVALID_TMESSAGE_TYPE, 0` standing for no entry). -/
theorem getMessageTypeAndSeq_eq (protocol : WIJSONProtocol) (request : Object)
    (lookup : Except Err Object) (typeId : TMessageType) (seqId : Int)
    (h : getMessageTypeAndSeq { protocol with request := request } lookup.toOption =
      some (typeId, seqId)) :
    envelopeOf request lookup = some (typeId, seqId) ∨
      (envelopeOf request lookup = none ∧ typeId = TMessageType.INVALID_TMESSAGE_TYPE) := by
  unfold getMessageTypeAndSeq at h
  unfold envelopeOf
  simp only at h
  by_cases ha : hasKey request argumentsKey = true
  · rw [if_pos ha] at h
    rw [if_pos ha]
    cases lookup with
    | error e =>
      simp only [Except.toOption] at h
      exact Or.inl h
    | ok mi =>
      simp only [Except.toOption] at h
      cases hb : getBoolVal mi [onewayKey] with
      | none => rw [hb] at h; simp at h
      | some b =>
        rw [hb] at h
        cases b
        · simp only [hb]
          rw [if_neg (by simp)]
          exact Or.inl h
        · simp only [hb]
          exact Or.inl h
  · rw [if_neg ha] at h
    rw [if_neg ha]
    by_cases hr : hasKey request resultKey = true
    · rw [if_pos hr] at h
      rw [if_pos hr]
      exact Or.inl h
    · rw [if_neg hr] at h
      rw [if_neg hr]
      by_cases hx : hasKey request exceptionKey = true
      · rw [if_pos hx] at h
        rw [if_pos hx]
        exact Or.inl h
      · rw [if_neg hx] at h
        rw [if_neg hx]
        simp only [Option.some.injEq, Prod.mk.injEq] at h
        exact Or.inr ⟨rfl, h.1.symm⟩

/-- The CALL path of `ReadMessageBegin` on a method that is found: the result of
`parseStruct` on the arguments becomes the deferred error. -/
theorem readMessageBegin_call (protocol : WIJSONProtocol) (request : Object) (name : String)
    (methodInfo : Object) (oneway : Bool) (fieldsList : List Json) (arguments : Object)
    (e : Option Err) (q : WIJSONProtocol)
    (hname : getDefaultStringVal request methodKey "" = some name)
    (hlookup : getMethodInfo protocol.metadata protocol.service name = some (.ok methodInfo))
    (ha : hasKey request argumentsKey = true)
    (ho : getBoolVal methodInfo [onewayKey] = some oneway)
    (hf : getArrayVal methodInfo [argumentsKey] = some fieldsList)
    (hj : getJsonVal request [argumentsKey] = some arguments)
    (hp : parseStruct { protocol with request := request } fieldsList (Json.obj arguments) =
      .ret (e, q)) :
    ReadMessageBegin protocol none (.ok (.obj request)) =
      .ret ((name, if oneway then TMessageType.ONEWAY else TMessageType.CALL, 0, none),
        { q with err := e }) := by
  cases oneway <;>
    simp [ReadMessageBegin, NewJson, hname, hlookup, getMessageTypeAndSeq, ha, ho, hf, hj, hp,
      Except.toOption]

/-! ## C5, C6, C8: the deferred linearizer error -/

theorem hasKey_of_getJsonVal (json : Object) (key : String) (o : Object)
    (h : getJsonVal json [key] = some o) : hasKey json key = true := by
  unfold getJsonVal getVal Object.index at h
  unfold hasKey
  cases hl : json.lookup key with
  | none => rw [hl] at h; simp [toJson] at h
  | some v => rfl

/-- C5. Deferred linearizer error: for a CALL on a method found in the metadata whose
arguments object makes `parseStruct` return an error, `ReadMessageBegin` still returns the
name, the message type and the sequence id with a nil error, and the next `ReadStructBegin`
returns that linearizer error. -/
theorem linearizer_error_deferred (protocol : WIJSONProtocol) (request : Object)
    (name : String) (methodInfo : Object) (oneway : Bool) (fieldsList : List Json)
    (arguments : Object) (e : Err) (q : WIJSONProtocol)
    (hname : getDefaultStringVal request methodKey "" = some name)
    (hlookup : getMethodInfo protocol.metadata protocol.service name = some (.ok methodInfo))
    (honeway : getBoolVal methodInfo [onewayKey] = some oneway)
    (hfields : getArrayVal methodInfo [argumentsKey] = some fieldsList)
    (hargs : getJsonVal request [argumentsKey] = some arguments)
    (hfail : parseStruct { protocol with request := request } fieldsList (Json.obj arguments) =
      .ret (some e, q)) :
    ReadMessageBegin protocol none (.ok (.obj request)) =
      .ret ((name, if oneway then TMessageType.ONEWAY else TMessageType.CALL, 0, none),
        { q with err := some e }) ∧
    (ReadStructBegin { q with err := some e }).1 = ("", some e) := by
  have ha := hasKey_of_getJsonVal request argumentsKey arguments hargs
  exact ⟨readMessageBegin_call protocol request name methodInfo oneway fieldsList arguments
    (some e) q hname hlookup ha honeway hfields hargs hfail, rfl⟩

theorem linearizer_error_deferred_witness :
    (getDefaultStringVal exampleBadCall methodKey "" = some "m" ∧
      getMethodInfo exampleProtocol.metadata exampleProtocol.service "m" =
        some (.ok exampleMethodM) ∧
      getBoolVal exampleMethodM [onewayKey] = some false ∧
      getArrayVal exampleMethodM [argumentsKey] = some exampleFieldsA ∧
      getJsonVal exampleBadCall [argumentsKey] = some [("x", .num 7), ("bad", .num 1)] ∧
      parseStruct { exampleProtocol with request := exampleBadCall } exampleFieldsA
          (Json.obj [("x", .num 7), ("bad", .num 1)]) =
        .ret (some (Err.New "Unexpected key bad"),
          { exampleProtocol with
            request := exampleBadCall
            params := [.string "x", .TType .I32, .int16 1, .int32 7] })) ∧
    (ReadMessageBegin exampleProtocol none (.ok (.obj exampleBadCall)) =
      .ret (("m", if false then TMessageType.ONEWAY else TMessageType.CALL, 0, none),
        { exampleProtocol with
          request := exampleBadCall
          params := [.string "x", .TType .I32, .int16 1, .int32 7]
          err := some (Err.New "Unexpected key bad") }) ∧
    (ReadStructBegin
      { exampleProtocol with
        request := exampleBadCall
        params := [.string "x", .TType .I32, .int16 1, .int32 7]
        err := some (Err.New "Unexpected key bad") }).1 =
      ("", some (Err.New "Unexpected key bad"))) :=
  ⟨⟨rfl, rfl, rfl, rfl, rfl, rfl⟩,
    linearizer_error_deferred exampleProtocol exampleBadCall "m" exampleMethodM false
      exampleFieldsA [("x", .num 7), ("bad", .num 1)] (Err.New "Unexpected key bad")
      { exampleProtocol with
        request := exampleBadCall
        params := [.string "x", .TType .I32, .int16 1, .int32 7] }
      rfl rfl rfl rfl rfl rfl⟩

/-- C6, as the code has it. `ReadStructBegin` returns the empty name and the deferred error
and leaves the state as it is: for every state holding a deferred error `e`, the first
`ReadStructBegin` and every later one return `("", e)`. -/
theorem readStructBegin_keeps_error (protocol : WIJSONProtocol) (e : Err)
    (h : protocol.err = some e) (n : Nat) :
    (fun q => (ReadStructBegin q).2)^[n] protocol = protocol ∧
    (ReadStructBegin ((fun q => (ReadStructBegin q).2)^[n] protocol)).1 = ("", some e) := by
  have hfix : (fun q => (ReadStructBegin q).2)^[n] protocol = protocol := by
    induction n with
    | zero => rfl
    | succ k ih => rw [Function.iterate_succ_apply', ih]; rfl
  refine ⟨hfix, ?_⟩
  rw [hfix]
  simp [ReadStructBegin, h]

theorem readStructBegin_keeps_error_witness :
    exampleFailed.err = some (Err.New "Unexpected key bad") ∧
    ((fun q => (ReadStructBegin q).2)^[1] exampleFailed = exampleFailed ∧
    (ReadStructBegin ((fun q => (ReadStructBegin q).2)^[1] exampleFailed)).1 =
      ("", some (Err.New "Unexpected key bad"))) :=
  ⟨rfl, readStructBegin_keeps_error exampleFailed (Err.New "Unexpected key bad") rfl 1⟩

/-- C6 as stated fails: on a state that holds a deferred error the second `ReadStructBegin`
returns that error again, not nil. -/
theorem readStructBegin_clears_counterexample :
    exampleFailed.err = some (Err.New "Unexpected key bad") ∧
    (ReadStructBegin exampleFailed).1 = ("", some (Err.New "Unexpected key bad")) ∧
    (ReadStructBegin (ReadStructBegin exampleFailed).2).1 =
      ("", some (Err.New "Unexpected key bad")) ∧
    (ReadStructBegin (ReadStructBegin exampleFailed).2).1 ≠ ("", none) := by
  refine ⟨rfl, rfl, rfl, ?_⟩
  intro h
  cases h

/-- C8 at the failing input: for the CALL `{"method":"m","arguments":[1]}` on the method `m`
of the metadata, `ReadMessageBegin` panics (the unchecked assertion of `toJson` in
`getJsonVal`), instead of deferring a type-mismatch error to `ReadStructBegin`. -/
theorem array_arguments_panic :
    ReadMessageBegin exampleProtocol none (.ok (.obj exampleArrayCall)) = .panic := by
  rfl

/-- The other half of C8 holds: at every depth `parseStruct` on a value that is not a JSON
object returns the type-mismatch error and appends nothing. -/
theorem parseStruct_not_object (protocol : WIJSONProtocol) (fieldsList : List Json)
    (request : Json) (h : toJsonCheck request = none) :
    parseStruct protocol fieldsList request =
      .ret (some (Err.expectedJsonObject request), protocol) := by
  rw [parseStruct_eq, h]

/-- A CALL on a found method panics whenever its `arguments` value is not a JSON object. -/
theorem not_object_arguments_panic (protocol : WIJSONProtocol) (request : Object)
    (name : String) (methodInfo : Object) (oneway : Bool) (fieldsList : List Json)
    (hname : getDefaultStringVal request methodKey "" = some name)
    (hlookup : getMethodInfo protocol.metadata protocol.service name = some (.ok methodInfo))
    (hkey : hasKey request argumentsKey = true)
    (honeway : getBoolVal methodInfo [onewayKey] = some oneway)
    (hfields : getArrayVal methodInfo [argumentsKey] = some fieldsList)
    (hargs : toJsonCheck (Object.index request argumentsKey) = none) :
    ReadMessageBegin protocol none (.ok (.obj request)) = .panic := by
  have hj : getJsonVal request [argumentsKey] = none := by
    unfold getJsonVal getVal
    cases hv : Object.index request argumentsKey <;> rw [hv] at hargs <;>
      simp [toJson, toJsonCheck] at hargs ⊢
  cases oneway <;>
    simp [ReadMessageBegin, NewJson, hname, hlookup, getMessageTypeAndSeq, hkey, honeway,
      hfields, hj, Except.toOption]

/-! ## C10: REPLY with success -/

theorem cleared_add (p : WIJSONProtocol) (toks : List Token) : cleared (add p toks) = cleared p := by
  simp [cleared, add]

/-- A `parse` on the empty buffer that returns decides the result of `parse` on any buffer. -/
theorem parse_of_cleared (p : WIJSONProtocol) (fi : Object) (v : Json) (k1 k2 : String)
    (e : Option Err) (q0 : WIJSONProtocol) (h : parse (cleared p) fi v k1 k2 = .ret (e, q0)) :
    parse p fi v k1 k2 = .ret (e, add p q0.params) := by
  rw [parse_cleared, h, withPrefix_ret]
  obtain ⟨toks, rfl⟩ := (appends _).1 _ _ _ _ _ _ _ h
  rw [prepend_add_cleared]
  simp [add, cleared]

/-- A `parseStruct` on the empty buffer that returns decides the result of `parseStruct` on
any buffer. -/
theorem parseStruct_of_cleared (p : WIJSONProtocol) (fl : List Json) (v : Json)
    (e : Option Err) (q0 : WIJSONProtocol) (h : parseStruct (cleared p) fl v = .ret (e, q0)) :
    parseStruct p fl v = .ret (e, add p q0.params) := by
  rw [parseStruct_cleared, h, withPrefix_ret]
  obtain ⟨toks, rfl⟩ := (appends _).2.2.2.2.2.1 _ _ _ _ _ h
  rw [prepend_add_cleared]
  simp [add, cleared]

/-- C10. REPLY with success: for a REPLY on a method found in the metadata whose result
object has the key `success`, whose `returnTypeId` is a known type id and whose success value
linearizes without error, `ReadMessageBegin` returns `(name, REPLY, 1)` with a nil error and
no deferred error, and the token buffer is the buffer before the call followed by the
field-begin triple `("", wire tag of returnTypeId, 0)`, the tokens of `parse` on
`result.success` under the return type descriptor, and `("", STOP, -1)`, whatever the other
keys of `result` are. -/
theorem reply_success (protocol : WIJSONProtocol) (request : Object) (name : String)
    (methodInfo : Object) (result : Object) (returnTypeId : String) (returnType : TType)
    (q0 : WIJSONProtocol)
    (hname : getDefaultStringVal request methodKey "" = some name)
    (hlookup : getMethodInfo protocol.metadata protocol.service name = some (.ok methodInfo))
    (hcall : hasKey request argumentsKey = false)
    (hresult : getJsonVal request [resultKey] = some result)
    (hsuccess : hasKey result successKey = true)
    (hid : getStringVal methodInfo [returnTypeIdKey] = some returnTypeId)
    (htag : StringToTypeId returnTypeId = (returnType, none))
    (hparse : parse (cleared { protocol with request := request }) methodInfo
      (Object.index result successKey) returnTypeIdKey returnTypeKey = .ret (none, q0)) :
    ReadMessageBegin protocol none (.ok (.obj request)) =
      .ret ((name, TMessageType.REPLY, 1, none),
        { protocol with
          request := request
          params := protocol.params ++
            ([Token.string "", Token.TType returnType, Token.int16 0] ++ q0.params ++ stopField)
          err := none }) := by
  have hr := hasKey_of_getJsonVal request resultKey result hresult
  have hp := parse_of_cleared
    (add { protocol with request := request }
      [Token.string "", Token.TType returnType, Token.int16 0])
    methodInfo (Object.index result successKey) returnTypeIdKey returnTypeKey none q0
    (by rw [cleared_add]; exact hparse)
  simp only [ReadMessageBegin, NewJson, hname, hlookup, getMessageTypeAndSeq, hcall, hr, hresult,
    hsuccess, hid, htag, hp, Except.toOption]
  simp [add]

theorem reply_success_witness :
    (getDefaultStringVal exampleReply methodKey "" = some "m" ∧
      getMethodInfo exampleProtocol.metadata exampleProtocol.service "m" =
        some (.ok exampleMethodM) ∧
      hasKey exampleReply argumentsKey = false ∧
      getJsonVal exampleReply [resultKey] = some [("success", .num 5)] ∧
      hasKey [("success", Json.num 5)] successKey = true ∧
      getStringVal exampleMethodM [returnTypeIdKey] = some "i32" ∧
      StringToTypeId "i32" = (TType.I32, none) ∧
      parse (cleared { exampleProtocol with request := exampleReply }) exampleMethodM
          (Object.index [("success", Json.num 5)] successKey) returnTypeIdKey returnTypeKey =
        .ret (none, { exampleProtocol with request := exampleReply, params := [.int32 5] })) ∧
    ReadMessageBegin exampleProtocol none (.ok (.obj exampleReply)) =
      .ret (("m", TMessageType.REPLY, 1, none),
        { exampleProtocol with
          request := exampleReply
          params := exampleProtocol.params ++
            ([Token.string "", Token.TType TType.I32, Token.int16 0] ++ [.int32 5] ++ stopField)
          err := none }) :=
  ⟨⟨rfl, rfl, rfl, rfl, rfl, rfl, rfl, rfl⟩,
    reply_success exampleProtocol exampleReply "m" exampleMethodM [("success", .num 5)] "i32"
      TType.I32 { exampleProtocol with request := exampleReply, params := [.int32 5] }
      rfl rfl rfl rfl rfl rfl rfl rfl⟩

/-! ## The buffer only grows -/

/-- Go `ReadMessageBegin` only appends to the token buffer. -/
theorem readMessageBegin_appends (protocol : WIJSONProtocol) (request : Object)
    (r : MessageBegin) (q : WIJSONProtocol)
    (h : ReadMessageBegin protocol none (.ok (.obj request)) = .ret (r, q)) :
    ∃ toks, q.params = protocol.params ++ toks := by
  simp only [ReadMessageBegin, NewJson] at h
  repeat' split at h
  all_goals first
    | (simp at h; done)
    | (have hq := parseStruct_ret _ _ _ _ _ ‹parseStruct _ _ _ = Run.ret _›
       simp only [Run.ret.injEq, Prod.mk.injEq] at h
       obtain ⟨_, rfl⟩ := h
       subst hq
       simp only [add, List.append_assoc]
       exact ⟨_, rfl⟩)
    | (have hq := parse_ret _ _ _ _ _ _ _ ‹parse _ _ _ _ _ = Run.ret _›
       simp only [Run.ret.injEq, Prod.mk.injEq] at h
       obtain ⟨_, rfl⟩ := h
       subst hq
       simp only [add, List.append_assoc]
       exact ⟨_, rfl⟩)
    | (simp only [Run.ret.injEq, Prod.mk.injEq] at h
       obtain ⟨_, rfl⟩ := h
       first
         | exact ⟨[], (List.append_nil _).symm⟩
         | exact ⟨_, rfl⟩)

/-- C7 as stated fails: for the CALL `{"method":"m","arguments":{"x":7,"bad":1}}`, whose
linearization fails at the key `bad`, the buffer (empty before the call) holds the four
tokens of the field `x` after `ReadMessageBegin`. -/
theorem half_filled_buffer_counterexample :
    exampleProtocol.params = [] ∧
    ReadMessageBegin exampleProtocol none (.ok (.obj exampleBadCall)) =
      .ret (("m", TMessageType.CALL, 0, none),
        { exampleProtocol with
          request := exampleBadCall
          params := [.string "x", .TType .I32, .int16 1, .int32 7]
          err := some (Err.New "Unexpected key bad") }) ∧
    ([.string "x", .TType .I32, .int16 1, .int32 7] : List Token) ≠ exampleProtocol.params := by
  refine ⟨rfl, rfl, ?_⟩
  intro h
  cases h

/-! ## C3: the token stream of `parseStruct` -/

/-- The tag view of `parse`. -/
theorem parse_view (p : WIJSONProtocol) (fi : Object) (v : Json) (k1 k2 : String) :
    parse p fi v k1 k2 =
      match getStringVal fi [k1] with
      | none => .panic
      | some ft =>
        match StringToTypeId ft with
        | (_, some _) => .ret (some (Err.New ("Unexpected type " ++ ft)), p)
        | (TType.BOOL, none) =>
          (match v with
          | .bool b => .ret (none, add p [Token.bool b])
          | _ => .ret (some (Err.New "Expected bool"), p))
        | (TType.BYTE, none) =>
          (match v with
          | .num q => .ret (none, add p [Token.byte (byteOfFloat64 q)])
          | _ => .ret (some (Err.New "Expected byte"), p))
        | (TType.I16, none) =>
          (match v with
          | .num q => .ret (none, add p [Token.int16 (int16OfFloat64 q)])
          | _ => .ret (some (Err.New "Expected int16"), p))
        | (TType.I32, none) =>
          (match v with
          | .num q => .ret (none, add p [Token.int32 (int32OfFloat64 q)])
          | _ => .ret (some (Err.New "Expected int32"), p))
        | (TType.I64, none) =>
          (match v with
          | .num q => .ret (none, add p [Token.int64 (int64OfFloat64 q)])
          | _ => .ret (some (Err.New "Expected int64"), p))
        | (TType.DOUBLE, none) =>
          (match v with
          | .num q => .ret (none, add p [Token.float64 q])
          | _ => .ret (some (Err.New "Expected double"), p))
        | (TType.STRING, none) =>
          (match v with
          | .str s => .ret (none, add p [Token.string s])
          | _ => .ret (some (Err.New "Expected string"), p))
        | (TType.STRUCT, none) =>
          (match getJsonVal fi [k2] with
          | none => .panic
          | some elemType =>
            match getStructFieldList p elemType with
            | none => .panic
            | some fieldsList => parseStruct p fieldsList v)
        | (TType.MAP, none) =>
          (match getJsonVal fi [k2] with
          | none => .panic
          | some info => parseMap p info v)
        | (TType.SET, none) =>
          (match getJsonVal fi [k2] with
          | none => .panic
          | some info => parseList p info v)
        | (TType.LIST, none) =>
          (match getJsonVal fi [k2] with
          | none => .panic
          | some info => parseList p info v)
        | (TType.STOP, none) => .panic :=
  parseN_view (2 * v.size + 1) p fi v k1 k2

/-- A `parse` that returns without error was given a type id that `StringToTypeId` knows. -/
theorem typeId_of_parse (p : WIJSONProtocol) (fi : Object) (v : Json) (k1 k2 : String)
    (q : WIJSONProtocol) (h : parse p fi v k1 k2 = .ret (none, q)) :
    ∃ ft t, getStringVal fi [k1] = some ft ∧ StringToTypeId ft = (t, none) := by
  rw [parse_view] at h
  cases hg : getStringVal fi [k1] with
  | none => rw [hg] at h; simp at h
  | some ft =>
    rw [hg] at h
    simp only at h
    rcases hs : StringToTypeId ft with ⟨t, _ | e⟩
    · exact ⟨ft, t, rfl, hs⟩
    · rw [hs] at h
      cases t <;> simp at h

theorem parseStructRange_stream (protocol : WIJSONProtocol) (fieldsList : List Json)
    (object : Object)
    (hfields : ∀ kv ∈ object, ∃ fieldInfo q0,
      findInJsonArray fieldsList nameKey kv.1 = some fieldInfo ∧
      (getDefaultInt16Val fieldInfo keyKey 0).isSome = true ∧
      parse (cleared protocol) fieldInfo kv.2 typeIdKey typeKey = .ret (none, q0))
    (p : WIJSONProtocol) (hp : cleared p = cleared protocol) :
    parseStructRange p fieldsList object =
      .ret (none, add p (object.flatMap (fieldTokens protocol fieldsList))) := by
  induction object generalizing p with
  | nil => rw [parseStructRange_nil, List.flatMap_nil, add_nil]
  | cons kv rest ih =>
    obtain ⟨key, value⟩ := kv
    obtain ⟨fi, q0, hfind, hkey, hparse⟩ := hfields (key, value) (List.mem_cons_self _ _)
    obtain ⟨ft, t, hft, ht⟩ := typeId_of_parse _ _ _ _ _ _ hparse
    obtain ⟨key16, hkey16⟩ := Option.isSome_iff_exists.mp hkey
    have hparse2 := parse_of_cleared (add p [Token.string key, Token.TType t, Token.int16 key16])
      fi value typeIdKey typeKey none q0 (by rw [cleared_add, hp]; exact hparse)
    have htoks : fieldTokens protocol fieldsList (key, value) =
        [Token.string key, Token.TType t, Token.int16 key16] ++ q0.params := by
      simp only [fieldTokens] at hfind hft hkey16 hparse ⊢
      simp only [hfind, hft, hkey16, hparse, ht, Option.getD_some, emitted]
    rw [parseStructRange_cons]
    simp only at hfind
    simp only [hfind, hft, ht, hkey16, hparse2]
    rw [ih (fun kv hkv => hfields kv (List.mem_cons_of_mem _ hkv)) _
      (by rw [cleared_add, cleared_add, hp])]
    rw [List.flatMap_cons, htoks, add_add, add_add, List.append_assoc]

/-- C3. The token stream of `parseStruct`: for every field list and every JSON object whose
keys all name a field of the list (with a numeric `key`, if any) and whose values linearize
without error, `parseStruct` appends, for each pair in iteration order, the field-begin
triple (key, wire tag of the field's type id, the field's key as int16, or 0 when it has
none) immediately followed by the tokens of `parse` on the value, and after all pairs the
triple `("", STOP, -1)`. With `A {1: i32 x; 2: string y; 3: B nested}`, `B {1: bool b}` and
the object `{"x":7,"y":"hi","nested":{"b":true}}` this is `("x", I32, 1), 7,
("y", STRING, 2), "hi", ("nested", STRUCT, 3), ("b", BOOL, 1), true, ("", STOP, -1),
("", STOP, -1)`. -/
theorem parseStruct_stream (protocol : WIJSONProtocol) (fieldsList : List Json)
    (object : Object)
    (hfields : ∀ kv ∈ object, ∃ fieldInfo q0,
      findInJsonArray fieldsList nameKey kv.1 = some fieldInfo ∧
      (getDefaultInt16Val fieldInfo keyKey 0).isSome = true ∧
      parse (cleared protocol) fieldInfo kv.2 typeIdKey typeKey = .ret (none, q0)) :
    parseStruct protocol fieldsList (Json.obj object) =
      .ret (none,
        add protocol (object.flatMap (fieldTokens protocol fieldsList) ++ stopField)) ∧
    parseStruct exampleProtocol exampleFieldsA (Json.obj exampleObject) =
      .ret (none, add exampleProtocol
        [.string "x", .TType .I32, .int16 1, .int32 7,
         .string "y", .TType .STRING, .int16 2, .string "hi",
         .string "nested", .TType .STRUCT, .int16 3,
         .string "b", .TType .BOOL, .int16 1, .bool true,
         .string "", .TType .STOP, .int16 (-1),
         .string "", .TType .STOP, .int16 (-1)]) := by
  refine ⟨?_, rfl⟩
  rw [parseStruct_eq]
  simp only [toJsonCheck]
  rw [parseStructRange_stream protocol fieldsList object hfields protocol rfl]
  simp only [add_add]

theorem parseStruct_stream_witness :
    (∀ kv ∈ exampleObject, ∃ fieldInfo q0,
      findInJsonArray exampleFieldsA nameKey kv.1 = some fieldInfo ∧
      (getDefaultInt16Val fieldInfo keyKey 0).isSome = true ∧
      parse (cleared exampleProtocol) fieldInfo kv.2 typeIdKey typeKey = .ret (none, q0)) ∧
    (parseStruct exampleProtocol exampleFieldsA (Json.obj exampleObject) =
      .ret (none, add exampleProtocol
        (exampleObject.flatMap (fieldTokens exampleProtocol exampleFieldsA) ++ stopField)) ∧
    parseStruct exampleProtocol exampleFieldsA (Json.obj exampleObject) =
      .ret (none, add exampleProtocol
        [.string "x", .TType .I32, .int16 1, .int32 7,
         .string "y", .TType .STRING, .int16 2, .string "hi",
         .string "nested", .TType .STRUCT, .int16 3,
         .string "b", .TType .BOOL, .int16 1, .bool true,
         .string "", .TType .STOP, .int16 (-1),
         .string "", .TType .STOP, .int16 (-1)])) := by
  have hfields : ∀ kv ∈ exampleObject, ∃ fieldInfo q0,
      findInJsonArray exampleFieldsA nameKey kv.1 = some fieldInfo ∧
      (getDefaultInt16Val fieldInfo keyKey 0).isSome = true ∧
      parse (cleared exampleProtocol) fieldInfo kv.2 typeIdKey typeKey = .ret (none, q0) := by
    intro kv hkv
    simp only [exampleObject, List.mem_cons, List.mem_singleton, List.not_mem_nil, or_false]
      at hkv
    rcases hkv with rfl | rfl | rfl
    · exact ⟨_, _, rfl, rfl, rfl⟩
    · exact ⟨_, _, rfl, rfl, rfl⟩
    · exact ⟨_, _, rfl, rfl, rfl⟩
  exact ⟨hfields, parseStruct_stream exampleProtocol exampleFieldsA exampleObject hfields⟩

/-! ## Scalars: what `parse` appends and what the readers return -/

theorem truncate_intCast (n : Int) : truncate (n : Rat) = n := by
  simp [truncate]

theorem int32OfFloat64_intCast (n : Int) (h1 : -2147483648 ≤ n) (h2 : n ≤ 2147483647) :
    int32OfFloat64 (n : Rat) = n := by
  unfold int32OfFloat64 cvt32
  rw [truncate_intCast, if_pos ⟨h1, by omega⟩]

theorem int16OfFloat64_intCast (n : Int) (h1 : -32768 ≤ n) (h2 : n ≤ 32767) :
    int16OfFloat64 (n : Rat) = n := by
  unfold int16OfFloat64 cvt32
  rw [truncate_intCast, if_pos ⟨by omega, by omega⟩]
  omega

theorem byteOfFloat64_intCast (n : Int) (h1 : 0 ≤ n) (h2 : n ≤ 255) :
    (byteOfFloat64 (n : Rat) : Int) = n := by
  unfold byteOfFloat64 cvt32
  rw [truncate_intCast, if_pos ⟨by omega, by omega⟩]
  omega

theorem int64OfFloat64_intCast (n : Int) (h1 : -9223372036854775808 ≤ n)
    (h2 : n ≤ 9223372036854775807) : int64OfFloat64 (n : Rat) = n := by
  unfold int64OfFloat64
  rw [truncate_intCast, if_pos ⟨h1, by omega⟩]

/-- The struct `{"x": v}` with a scalar field `x`: what `parseStruct` returns when `parse`
appends the single token `tok` for `v`. -/
theorem parseStruct_single (p : WIJSONProtocol) (fieldsList : List Json) (fieldInfo : Object)
    (typeId : String) (tag : TType) (key16 : Int) (v : Json) (tok : Token)
    (hfind : findInJsonArray fieldsList nameKey "x" = some fieldInfo)
    (htype : getStringVal fieldInfo [typeIdKey] = some typeId)
    (htag : StringToTypeId typeId = (tag, none))
    (hkey : getDefaultInt16Val fieldInfo keyKey 0 = some key16)
    (hparse : ∀ q, parse q fieldInfo v typeIdKey typeKey = .ret (none, add q [tok])) :
    parseStruct p fieldsList (Json.obj [("x", v)]) =
      .ret (none, add p ([Token.string "x", Token.TType tag, Token.int16 key16, tok]
        ++ stopField)) := by
  rw [parseStruct_eq]
  simp only [toJsonCheck]
  rw [parseStructRange_cons]
  simp only [hfind, htype, htag, hkey, hparse, parseStructRange_nil, add_add]
  rfl

/-- Reading back the single token of the field `x`. -/
theorem readBack_single {α : Type} (protocol : WIJSONProtocol) (name : String)
    (methodInfo : Object) (oneway : Bool) (fieldsList : List Json) (fieldInfo : Object)
    (typeId : String) (tag : TType) (key16 : Int) (v : Json) (tok : Token)
    (reader : WIJSONProtocol → Run ((α × Option Err) × WIJSONProtocol)) (a : α)
    (hlookup : getMethodInfo protocol.metadata protocol.service name = some (.ok methodInfo))
    (honeway : getBoolVal methodInfo [onewayKey] = some oneway)
    (hfields : getArrayVal methodInfo [argumentsKey] = some fieldsList)
    (hfind : findInJsonArray fieldsList nameKey "x" = some fieldInfo)
    (htype : getStringVal fieldInfo [typeIdKey] = some typeId)
    (htag : StringToTypeId typeId = (tag, none))
    (hkey : getDefaultInt16Val fieldInfo keyKey 0 = some key16)
    (hempty : protocol.params = [])
    (hparse : ∀ q, parse q fieldInfo v typeIdKey typeKey = .ret (none, add q [tok]))
    (hreader : ∀ q : WIJSONProtocol, ∀ rest, q.params = tok :: rest →
      reader q = .ret ((a, none), { q with params := rest })) :
    readBack protocol (scalarRequest name v) reader = some a := by
  have hcall := readMessageBegin_call protocol (scalarRequest name v) name methodInfo oneway
    fieldsList [("x", v)] none _ rfl hlookup rfl honeway hfields rfl
    (parseStruct_single _ fieldsList fieldInfo typeId tag key16 v tok hfind htype htag hkey
      hparse)
  unfold readBack
  rw [hcall]
  simp [ReadStructBegin, ReadFieldBegin, slice, add, hempty, stopField]
  rw [hreader _ _ rfl]

theorem ReadBool_head (q : WIJSONProtocol) (v : Bool) (rest : List Token)
    (h : q.params = Token.bool v :: rest) :
    ReadBool q = .ret ((v, none), { q with params := rest }) := by
  simp [ReadBool, slice, h]

theorem ReadByte_head (q : WIJSONProtocol) (v : Nat) (rest : List Token)
    (h : q.params = Token.byte v :: rest) :
    ReadByte q = .ret ((v, none), { q with params := rest }) := by
  simp [ReadByte, slice, h]

theorem ReadI16_head (q : WIJSONProtocol) (v : Int) (rest : List Token)
    (h : q.params = Token.int16 v :: rest) :
    ReadI16 q = .ret ((v, none), { q with params := rest }) := by
  simp [ReadI16, slice, h]

theorem ReadI32_head (q : WIJSONProtocol) (v : Int) (rest : List Token)
    (h : q.params = Token.int32 v :: rest) :
    ReadI32 q = .ret ((v, none), { q with params := rest }) := by
  simp [ReadI32, slice, h]

theorem ReadI64_head (q : WIJSONProtocol) (v : Int) (rest : List Token)
    (h : q.params = Token.int64 v :: rest) :
    ReadI64 q = .ret ((v, none), { q with params := rest }) := by
  simp [ReadI64, slice, h]

theorem ReadDouble_head (q : WIJSONProtocol) (v : Rat) (rest : List Token)
    (h : q.params = Token.float64 v :: rest) :
    ReadDouble q = .ret ((v, none), { q with params := rest }) := by
  simp [ReadDouble, slice, h]

theorem ReadString_head (q : WIJSONProtocol) (v : String) (rest : List Token)
    (h : q.params = Token.string v :: rest) :
    ReadString q = .ret ((v, none), { q with params := rest }) := by
  simp [ReadString, slice, h]

theorem parse_bool (p : WIJSONProtocol) (fi : Object) (k1 k2 : String) (b : Bool)
    (h : getStringVal fi [k1] = some "bool") :
    parse p fi (Json.bool b) k1 k2 = .ret (none, add p [Token.bool b]) := by
  rw [parse_view, h]
  rfl

theorem parse_i8 (p : WIJSONProtocol) (fi : Object) (k1 k2 : String) (q : Rat)
    (h : getStringVal fi [k1] = some "i8") :
    parse p fi (Json.num q) k1 k2 = .ret (none, add p [Token.byte (byteOfFloat64 q)]) := by
  rw [parse_view, h]
  rfl

theorem parse_i16 (p : WIJSONProtocol) (fi : Object) (k1 k2 : String) (q : Rat)
    (h : getStringVal fi [k1] = some "i16") :
    parse p fi (Json.num q) k1 k2 = .ret (none, add p [Token.int16 (int16OfFloat64 q)]) := by
  rw [parse_view, h]
  rfl

theorem parse_i32 (p : WIJSONProtocol) (fi : Object) (k1 k2 : String) (q : Rat)
    (h : getStringVal fi [k1] = some "i32") :
    parse p fi (Json.num q) k1 k2 = .ret (none, add p [Token.int32 (int32OfFloat64 q)]) := by
  rw [parse_view, h]
  rfl

theorem parse_i64 (p : WIJSONProtocol) (fi : Object) (k1 k2 : String) (q : Rat)
    (h : getStringVal fi [k1] = some "i64") :
    parse p fi (Json.num q) k1 k2 = .ret (none, add p [Token.int64 (int64OfFloat64 q)]) := by
  rw [parse_view, h]
  rfl

theorem parse_double (p : WIJSONProtocol) (fi : Object) (k1 k2 : String) (q : Rat)
    (h : getStringVal fi [k1] = some "double") :
    parse p fi (Json.num q) k1 k2 = .ret (none, add p [Token.float64 q]) := by
  rw [parse_view, h]
  rfl

theorem parse_string (p : WIJSONProtocol) (fi : Object) (k1 k2 : String) (s : String)
    (h : getStringVal fi [k1] = some "string") :
    parse p fi (Json.str s) k1 k2 = .ret (none, add p [Token.string s]) := by
  rw [parse_view, h]
  rfl

/-! ## C2: the linearized stream is exactly consumable -/

theorem readFieldsN_succ (m : Nat) (q : WIJSONProtocol) :
    readFieldsN (m + 1) q =
      match ReadFieldBegin q with
      | .ret ((_, typeId, _, _), protocol1) =>
        if typeId = TType.STOP then .ret protocol1
        else
          match readValueN m protocol1 typeId with
          | .ret protocol2 => readFieldsN m protocol2
          | r => r
      | .panic => .panic
      | .exhausted => .exhausted := by
  rfl

theorem readValueN_succ (m : Nat) (q : WIJSONProtocol) (typeId : TType) :
    readValueN (m + 1) q typeId =
      match typeId with
      | .BOOL => (ReadBool q).state
      | .BYTE => (ReadByte q).state
      | .I16 => (ReadI16 q).state
      | .I32 => (ReadI32 q).state
      | .I64 => (ReadI64 q).state
      | .DOUBLE => (ReadDouble q).state
      | .STRING => (ReadString q).state
      | .STRUCT => readFieldsN m q
      | .MAP =>
        match ReadMapBegin q with
        | .ret ((keyType, valueType, size, _), protocol1) =>
          readEntriesN m protocol1 keyType valueType size.toNat
        | .panic => .panic
        | .exhausted => .exhausted
      | .LIST =>
        match ReadListBegin q with
        | .ret ((elemType, size, _), protocol1) => readElemsN m protocol1 elemType size.toNat
        | .panic => .panic
        | .exhausted => .exhausted
      | .SET =>
        match ReadSetBegin q with
        | .ret ((elemType, size, _), protocol1) => readElemsN m protocol1 elemType size.toNat
        | .panic => .panic
        | .exhausted => .exhausted
      | .STOP => .panic := by
  cases typeId <;> rfl

theorem readEntriesN_zero (m : Nat) (q : WIJSONProtocol) (kt vt : TType) :
    readEntriesN (m + 1) q kt vt 0 = .ret q := by
  rfl

theorem readEntriesN_succ (m : Nat) (q : WIJSONProtocol) (kt vt : TType) (count : Nat) :
    readEntriesN (m + 1) q kt vt (count + 1) =
      match readValueN m q kt with
      | .ret protocol1 =>
        match readValueN m protocol1 vt with
        | .ret protocol2 => readEntriesN m protocol2 kt vt count
        | r => r
      | r => r := by
  rfl

theorem readElemsN_zero (m : Nat) (q : WIJSONProtocol) (et : TType) :
    readElemsN (m + 1) q et 0 = .ret q := by
  rfl

theorem readElemsN_succ (m : Nat) (q : WIJSONProtocol) (et : TType) (count : Nat) :
    readElemsN (m + 1) q et (count + 1) =
      match readValueN m q et with
      | .ret protocol1 => readElemsN m protocol1 et count
      | r => r := by
  rfl

theorem ReadFieldBegin_head (q : WIJSONProtocol) (name : String) (t : TType) (id : Int)
    (rest : List Token)
    (h : q.params = Token.string name :: Token.TType t :: Token.int16 id :: rest) :
    ReadFieldBegin q = .ret ((name, t, id, none), { q with params := rest }) := by
  simp [ReadFieldBegin, slice, h]

theorem ReadMapBegin_head (q : WIJSONProtocol) (kt vt : TType) (size : Int)
    (rest : List Token)
    (h : q.params = Token.TType kt :: Token.TType vt :: Token.int size :: rest) :
    ReadMapBegin q = .ret ((kt, vt, size, none), { q with params := rest }) := by
  simp [ReadMapBegin, slice, h]

theorem ReadListBegin_head (q : WIJSONProtocol) (et : TType) (size : Int) (rest : List Token)
    (h : q.params = Token.TType et :: Token.int size :: rest) :
    ReadListBegin q = .ret ((et, size, none), { q with params := rest }) := by
  simp [ReadListBegin, slice, h]

theorem ReadSetBegin_head (q : WIJSONProtocol) (et : TType) (size : Int) (rest : List Token)
    (h : q.params = Token.TType et :: Token.int size :: rest) :
    ReadSetBegin q = .ret ((et, size, none), { q with params := rest }) := by
  simp [ReadSetBegin, slice, h]

/-- A type id that `StringToTypeId` knows does not have the tag STOP. -/
theorem StringToTypeId_ne_stop (ft : String) (t : TType) (h : StringToTypeId ft = (t, none)) :
    t ≠ TType.STOP := by
  unfold StringToTypeId at h
  by_cases h0 : ft = "bool"
  · rw [if_pos h0] at h; cases h; decide
  rw [if_neg h0] at h
  by_cases h1 : ft = "i8"
  · rw [if_pos h1] at h; cases h; decide
  rw [if_neg h1] at h
  by_cases h2 : ft = "i16"
  · rw [if_pos h2] at h; cases h; decide
  rw [if_neg h2] at h
  by_cases h3 : ft = "i32"
  · rw [if_pos h3] at h; cases h; decide
  rw [if_neg h3] at h
  by_cases h4 : ft = "i64"
  · rw [if_pos h4] at h; cases h; decide
  rw [if_neg h4] at h
  by_cases h5 : ft = "double"
  · rw [if_pos h5] at h; cases h; decide
  rw [if_neg h5] at h
  by_cases h6 : ft = "string"
  · rw [if_pos h6] at h; cases h; decide
  rw [if_neg h6] at h
  by_cases h7 : ft = "struct" ∨ ft = "union" ∨ ft = "exception"
  · rw [if_pos h7] at h; cases h; decide
  rw [if_neg h7] at h
  by_cases h8 : ft = "map"
  · rw [if_pos h8] at h; cases h; decide
  rw [if_neg h8] at h
  by_cases h9 : ft = "set"
  · rw [if_pos h9] at h; cases h; decide
  rw [if_neg h9] at h
  by_cases h10 : ft = "list"
  · rw [if_pos h10] at h; cases h; decide
  rw [if_neg h10] at h
  cases h

theorem with_params_self (q : WIJSONProtocol) (rest : List Token) (h : q.params = rest) :
    { q with params := rest } = q := by
  subst h; rfl

theorem state_ret {α : Type} (a : α) (q : WIJSONProtocol) :
    Run.state (.ret (a, q)) = .ret q := by
  rfl

theorem consumable_parseN (k : Nat) (ih : Consumable k) (p fi v k1 k2 p' ft t)
    (h : parseN (k + 1) p fi v k1 k2 = .ret (none, p'))
    (hft : getStringVal fi [k1] = some ft) (hs : StringToTypeId ft = (t, none)) :
    ∃ toks, p' = add p toks ∧ ∀ m, k + 1 ≤ m → ∀ (q : WIJSONProtocol) rest,
      q.params = toks ++ rest → readValueN m q t = .ret { q with params := rest } := by
  obtain ⟨_, hM, _, hL, _, hS, _⟩ := ih
  rw [parseN_view, hft] at h
  simp only [hs] at h
  cases t
  case STOP => simp at h
  case STRUCT =>
    simp only at h
    cases hj : getJsonVal fi [k2] with
    | none => rw [hj] at h; simp at h
    | some et =>
      rw [hj] at h
      simp only at h
      cases hf : getStructFieldList p et with
      | none => rw [hf] at h; simp at h
      | some fl =>
        rw [hf] at h
        obtain ⟨toks, hp', hread⟩ := hS _ _ _ _ h
        refine ⟨toks, hp', ?_⟩
        intro m hm q rest hq
        obtain ⟨m', rfl⟩ : ∃ m', m = m' + 1 := ⟨m - 1, by omega⟩
        rw [readValueN_succ]
        exact hread m' (by omega) q rest hq
  case MAP =>
    simp only at h
    cases hj : getJsonVal fi [k2] with
    | none => rw [hj] at h; simp at h
    | some et =>
      rw [hj] at h
      obtain ⟨toks, hp', hread⟩ := hM _ _ _ _ h
      exact ⟨toks, hp', fun m hm q rest hq => hread m (by omega) q rest hq⟩
  case SET =>
    simp only at h
    cases hj : getJsonVal fi [k2] with
    | none => rw [hj] at h; simp at h
    | some et =>
      rw [hj] at h
      obtain ⟨toks, hp', hread⟩ := hL _ _ _ _ h
      exact ⟨toks, hp', fun m hm q rest hq => (hread m (by omega) q rest hq).2⟩
  case LIST =>
    simp only at h
    cases hj : getJsonVal fi [k2] with
    | none => rw [hj] at h; simp at h
    | some et =>
      rw [hj] at h
      obtain ⟨toks, hp', hread⟩ := hL _ _ _ _ h
      exact ⟨toks, hp', fun m hm q rest hq => (hread m (by omega) q rest hq).1⟩
  all_goals
    cases v <;> first | (simp at h; done) | skip
    all_goals simp only [Run.ret.injEq, Prod.mk.injEq, true_and] at h
    all_goals subst h
    all_goals refine ⟨_, rfl, ?_⟩
    all_goals intro m hm q rest hq
    all_goals obtain ⟨m', rfl⟩ : ∃ m', m = m' + 1 := ⟨m - 1, by omega⟩
    all_goals rw [readValueN_succ]
    all_goals simp only
    all_goals first
      | rw [ReadBool_head q _ rest hq, state_ret]
      | rw [ReadByte_head q _ rest hq, state_ret]
      | rw [ReadI16_head q _ rest hq, state_ret]
      | rw [ReadI32_head q _ rest hq, state_ret]
      | rw [ReadI64_head q _ rest hq, state_ret]
      | rw [ReadDouble_head q _ rest hq, state_ret]
      | rw [ReadString_head q _ rest hq, state_ret]

theorem consumable_parseMapN (k : Nat) (ih : Consumable k) (p fi v p')
    (h : parseMapN (k + 1) p fi v = .ret (none, p')) :
    ∃ toks, p' = add p toks ∧ ∀ m, k + 1 ≤ m → ∀ (q : WIJSONProtocol) rest,
      q.params = toks ++ rest → readValueN m q TType.MAP = .ret { q with params := rest } := by
  obtain ⟨_, _, hR, _, _, _, _⟩ := ih
  rw [parseMapN_succ] at h
  cases ho : toJsonCheck v with
  | none => rw [ho] at h; simp at h
  | some o =>
    rw [ho] at h
    simp only at h
    cases hk : getStringVal fi [keyTypeIdKey] with
    | none => rw [hk] at h; simp at h
    | some kft =>
      rw [hk] at h
      simp only at h
      rcases hs : StringToTypeId kft with ⟨kt, _ | e'⟩
      · rw [hs] at h
        simp only at h
        cases hv : getStringVal fi [valueTypeIdKey] with
        | none => rw [hv] at h; simp at h
        | some vft =>
          rw [hv] at h
          simp only at h
          rcases hs2 : StringToTypeId vft with ⟨vt, _ | e2⟩
          · rw [hs2] at h
            simp only at h
            obtain ⟨toks, hp', hread⟩ := hR _ _ _ _ kft kt vft vt h hk hs hv hs2
            refine ⟨[Token.TType kt, Token.TType vt, Token.int o.length] ++ toks,
              by rw [hp', add_add], ?_⟩
            intro m hm q rest hq
            obtain ⟨m', rfl⟩ : ∃ m', m = m' + 1 := ⟨m - 1, by omega⟩
            rw [readValueN_succ]
            simp only
            rw [ReadMapBegin_head q kt vt o.length (toks ++ rest) (by rw [hq]; simp)]
            simp only [Int.toNat_ofNat]
            exact hread m' (by omega) _ rest rfl
          · rw [hs2] at h; simp at h
      · rw [hs] at h; simp at h

theorem consumable_parseListN (k : Nat) (ih : Consumable k) (p fi v p')
    (h : parseListN (k + 1) p fi v = .ret (none, p')) :
    ∃ toks, p' = add p toks ∧ ∀ m, k + 1 ≤ m → ∀ (q : WIJSONProtocol) rest,
      q.params = toks ++ rest →
        readValueN m q TType.LIST = .ret { q with params := rest } ∧
        readValueN m q TType.SET = .ret { q with params := rest } := by
  obtain ⟨_, _, _, _, hR, _, _⟩ := ih
  rw [parseListN_succ] at h
  cases ho : ToJsonArrayCheck v with
  | none => rw [ho] at h; simp at h
  | some a =>
    rw [ho] at h
    simp only at h
    cases hk : getStringVal fi [elemTypeIdKey] with
    | none => rw [hk] at h; simp at h
    | some eft =>
      rw [hk] at h
      simp only at h
      rcases hs : StringToTypeId eft with ⟨et, _ | e'⟩
      · rw [hs] at h
        simp only at h
        obtain ⟨toks, hp', hread⟩ := hR _ _ _ _ eft et h hk hs
        refine ⟨[Token.TType et, Token.int a.length] ++ toks, by rw [hp', add_add], ?_⟩
        intro m hm q rest hq
        obtain ⟨m', rfl⟩ : ∃ m', m = m' + 1 := ⟨m - 1, by omega⟩
        rw [readValueN_succ, readValueN_succ]
        simp only
        rw [ReadListBegin_head q et a.length (toks ++ rest) (by rw [hq]; simp),
          ReadSetBegin_head q et a.length (toks ++ rest) (by rw [hq]; simp)]
        simp only [Int.toNat_ofNat]
        exact ⟨hread m' (by omega) _ rest rfl, hread m' (by omega) _ rest rfl⟩
      · rw [hs] at h; simp at h

theorem consumable_parseStructN (k : Nat) (ih : Consumable k) (p fl v p')
    (h : parseStructN (k + 1) p fl v = .ret (none, p')) :
    ∃ toks, p' = add p toks ∧ ∀ m, k + 1 ≤ m → ∀ (q : WIJSONProtocol) rest,
      q.params = toks ++ rest → readFieldsN m q = .ret { q with params := rest } := by
  obtain ⟨_, _, _, _, _, _, hR⟩ := ih
  rw [parseStructN_succ] at h
  cases ho : toJsonCheck v with
  | none => rw [ho] at h; simp at h
  | some o =>
    rw [ho] at h
    simp only at h
    cases hr : parseStructRangeN k p fl o with
    | exhausted => rw [hr] at h; simp at h
    | panic => rw [hr] at h; simp at h
    | ret r =>
      obtain ⟨e1, q1⟩ := r
      rw [hr] at h
      cases e1 with
      | some e1 => simp at h
      | none =>
        simp only [Run.ret.injEq, Prod.mk.injEq, true_and] at h
        obtain ⟨toks, hp1, hread⟩ := hR _ _ _ _ hr
        refine ⟨toks ++ stopField, by rw [← h, hp1, add_add], ?_⟩
        intro m hm q rest hq
        exact hread m (by omega) q rest (by rw [hq, List.append_assoc])

theorem consumable_parseListRangeN (k : Nat) (ih : Consumable k) (p fi a p' eft et)
    (h : parseListRangeN (k + 1) p fi a = .ret (none, p'))
    (hk : getStringVal fi [elemTypeIdKey] = some eft) (hs : StringToTypeId eft = (et, none)) :
    ∃ toks, p' = add p toks ∧ ∀ m, k + 1 ≤ m → ∀ (q : WIJSONProtocol) rest,
      q.params = toks ++ rest → readElemsN m q et a.length = .ret { q with params := rest } := by
  obtain ⟨hP, _, _, _, hR, _, _⟩ := ih
  cases a with
  | nil =>
    rw [parseListRangeN_nil] at h
    simp only [Run.ret.injEq, Prod.mk.injEq, true_and] at h
    refine ⟨[], by rw [add_nil]; exact h.symm, ?_⟩
    intro m hm q rest hq
    obtain ⟨m', rfl⟩ : ∃ m', m = m' + 1 := ⟨m - 1, by omega⟩
    rw [List.length_nil, readElemsN_zero, with_params_self q rest (by simpa using hq)]
  | cons v tl =>
    rw [parseListRangeN_cons] at h
    cases hr : parseN k p fi v elemTypeIdKey elemTypeKey with
    | exhausted => rw [hr] at h; simp at h
    | panic => rw [hr] at h; simp at h
    | ret r =>
      obtain ⟨e1, q1⟩ := r
      rw [hr] at h
      cases e1 with
      | some e1 => simp at h
      | none =>
        simp only at h
        obtain ⟨toks1, hp1, hread1⟩ := hP _ _ _ _ _ _ eft et hr hk hs
        obtain ⟨toks2, hp2, hread2⟩ := hR _ _ _ _ eft et h hk hs
        refine ⟨toks1 ++ toks2, by rw [hp2, hp1, add_add], ?_⟩
        intro m hm q rest hq
        obtain ⟨m', rfl⟩ : ∃ m', m = m' + 1 := ⟨m - 1, by omega⟩
        rw [List.length_cons, readElemsN_succ,
          hread1 m' (by omega) q (toks2 ++ rest) (by rw [hq, List.append_assoc])]
        exact hread2 m' (by omega) _ rest rfl

theorem consumable_parseMapRangeN (k : Nat) (ih : Consumable k) (p fi o p' kft kt vft vt)
    (h : parseMapRangeN (k + 1) p fi o = .ret (none, p'))
    (hk : getStringVal fi [keyTypeIdKey] = some kft) (hs : StringToTypeId kft = (kt, none))
    (hv : getStringVal fi [valueTypeIdKey] = some vft) (hs2 : StringToTypeId vft = (vt, none)) :
    ∃ toks, p' = add p toks ∧ ∀ m, k + 1 ≤ m → ∀ (q : WIJSONProtocol) rest,
      q.params = toks ++ rest →
        readEntriesN m q kt vt o.length = .ret { q with params := rest } := by
  obtain ⟨hP, _, hR, _, _, _, _⟩ := ih
  cases o with
  | nil =>
    rw [parseMapRangeN_nil] at h
    simp only [Run.ret.injEq, Prod.mk.injEq, true_and] at h
    refine ⟨[], by rw [add_nil]; exact h.symm, ?_⟩
    intro m hm q rest hq
    obtain ⟨m', rfl⟩ : ∃ m', m = m' + 1 := ⟨m - 1, by omega⟩
    rw [List.length_nil, readEntriesN_zero, with_params_self q rest (by simpa using hq)]
  | cons kv tl =>
    obtain ⟨key, v⟩ := kv
    rw [parseMapRangeN_cons] at h
    cases hr : parseN k p fi (Json.str key) keyTypeIdKey keyTypeKey with
    | exhausted => rw [hr] at h; simp at h
    | panic => rw [hr] at h; simp at h
    | ret r =>
      obtain ⟨e1, q1⟩ := r
      rw [hr] at h
      cases e1 with
      | some e1 => simp at h
      | none =>
        simp only at h
        cases hr2 : parseN k q1 fi v valueTypeIdKey valueTypeKey with
        | exhausted => rw [hr2] at h; simp at h
        | panic => rw [hr2] at h; simp at h
        | ret r2 =>
          obtain ⟨e2, q2⟩ := r2
          rw [hr2] at h
          cases e2 with
          | some e2 => simp at h
          | none =>
            simp only at h
            obtain ⟨toks1, hp1, hread1⟩ := hP _ _ _ _ _ _ kft kt hr hk hs
            obtain ⟨toks2, hp2, hread2⟩ := hP _ _ _ _ _ _ vft vt hr2 hv hs2
            obtain ⟨toks3, hp3, hread3⟩ := hR _ _ _ _ kft kt vft vt h hk hs hv hs2
            refine ⟨toks1 ++ (toks2 ++ toks3), by rw [hp3, hp2, hp1, add_add, add_add], ?_⟩
            intro m hm q rest hq
            obtain ⟨m', rfl⟩ : ∃ m', m = m' + 1 := ⟨m - 1, by omega⟩
            rw [List.length_cons, readEntriesN_succ,
              hread1 m' (by omega) q (toks2 ++ (toks3 ++ rest))
                (by rw [hq]; simp only [List.append_assoc])]
            simp only
            rw [hread2 m' (by omega) _ (toks3 ++ rest) rfl]
            exact hread3 m' (by omega) _ rest rfl

theorem consumable_parseStructRangeN (k : Nat) (ih : Consumable k) (p fl o p')
    (h : parseStructRangeN (k + 1) p fl o = .ret (none, p')) :
    ∃ toks, p' = add p toks ∧ ∀ m, k + 1 ≤ m → ∀ (q : WIJSONProtocol) rest,
      q.params = toks ++ (stopField ++ rest) →
        readFieldsN m q = .ret { q with params := rest } := by
  obtain ⟨hP, _, _, _, _, _, hR⟩ := ih
  cases o with
  | nil =>
    rw [parseStructRangeN_nil] at h
    simp only [Run.ret.injEq, Prod.mk.injEq, true_and] at h
    refine ⟨[], by rw [add_nil]; exact h.symm, ?_⟩
    intro m hm q rest hq
    obtain ⟨m', rfl⟩ : ∃ m', m = m' + 1 := ⟨m - 1, by omega⟩
    rw [readFieldsN_succ, ReadFieldBegin_head q "" TType.STOP (-1) rest (by rw [hq]; rfl)]
    simp
  | cons kv tl =>
    obtain ⟨key, v⟩ := kv
    rw [parseStructRangeN_cons] at h
    cases hf : findInJsonArray fl nameKey key with
    | none => rw [hf] at h; simp at h
    | some fi =>
      rw [hf] at h
      simp only at h
      cases hk : getStringVal fi [typeIdKey] with
      | none => rw [hk] at h; simp at h
      | some ft =>
        rw [hk] at h
        simp only at h
        rcases hs : StringToTypeId ft with ⟨t, _ | e'⟩
        · rw [hs] at h
          simp only at h
          cases hd : getDefaultInt16Val fi keyKey 0 with
          | none => rw [hd] at h; simp at h
          | some key16 =>
            rw [hd] at h
            simp only at h
            cases hr : parseN k (add p [Token.string key, Token.TType t, Token.int16 key16]) fi v
                typeIdKey typeKey with
            | exhausted => rw [hr] at h; simp at h
            | panic => rw [hr] at h; simp at h
            | ret r =>
              obtain ⟨e1, q1⟩ := r
              rw [hr] at h
              cases e1 with
              | some e1 => simp at h
              | none =>
                simp only at h
                obtain ⟨toks1, hp1, hread1⟩ := hP _ _ _ _ _ _ ft t hr hk hs
                obtain ⟨toks2, hp2, hread2⟩ := hR _ _ _ _ h
                refine ⟨[Token.string key, Token.TType t, Token.int16 key16] ++ (toks1 ++ toks2),
                  by rw [hp2, hp1, add_add, add_add], ?_⟩
                intro m hm q rest hq
                obtain ⟨m', rfl⟩ : ∃ m', m = m' + 1 := ⟨m - 1, by omega⟩
                rw [readFieldsN_succ,
                  ReadFieldBegin_head q key t key16 (toks1 ++ (toks2 ++ (stopField ++ rest)))
                    (by rw [hq]; simp only [List.append_assoc, List.cons_append, List.nil_append])]
                simp only
                rw [if_neg (StringToTypeId_ne_stop ft t hs),
                  hread1 m' (by omega) _ (toks2 ++ (stopField ++ rest)) rfl]
                exact hread2 m' (by omega) _ rest rfl
        · rw [hs] at h; simp at h

/-- Whatever the fuel, the tokens of a linearization that succeeds are those that the
tag-driven consumer reads. -/
theorem consumable (n : Nat) : Consumable n := by
  induction n with
  | zero =>
    refine ⟨?_, ?_, ?_, ?_, ?_, ?_, ?_⟩
    · intro p fi v k1 k2 p' ft t h
      simp [parseN] at h
    · intro p fi v p' h
      simp [parseMapN] at h
    · intro p fi o p' kft kt vft vt h
      simp [parseMapRangeN] at h
    · intro p fi v p' h
      simp [parseListN] at h
    · intro p fi a p' eft et h
      simp [parseListRangeN] at h
    · intro p fl v p' h
      simp [parseStructN] at h
    · intro p fl o p' h
      simp [parseStructRangeN] at h
  | succ k ih =>
    exact ⟨consumable_parseN k ih, consumable_parseMapN k ih, consumable_parseMapRangeN k ih,
      consumable_parseListN k ih, consumable_parseListRangeN k ih, consumable_parseStructN k ih,
      consumable_parseStructRangeN k ih⟩

/-- C2. The linearized stream is exactly consumable: for every metadata, field list and JSON
value on which `parseStruct` succeeds starting from an empty token buffer, the tag-driven
consumer (`ReadFieldBegin` until the tag is STOP; after each other field-begin the value by
the returned tag: the matching scalar reader, the same loop for STRUCT, `ReadMapBegin` and
then `size` times the key and the value by their tags for MAP, `ReadListBegin` or
`ReadSetBegin` and then `size` times the element by its tag for LIST and SET) returns,
whatever fuel from `2 * size + 1` on it is given: it never runs out of tokens, never meets a
token of another runtime type than the reader asserts, and leaves the buffer empty. -/
theorem linearized_stream_consumable (protocol : WIJSONProtocol) (fieldsList : List Json)
    (value : Json) (protocol1 : WIJSONProtocol)
    (hempty : protocol.params = [])
    (hparse : parseStruct protocol fieldsList value = .ret (none, protocol1))
    (fuel : Nat) (hfuel : 2 * value.size + 1 ≤ fuel) :
    readFieldsN fuel protocol1 = .ret { protocol1 with params := [] } := by
  obtain ⟨toks, hp1, hread⟩ :=
    (consumable (2 * value.size + 1)).2.2.2.2.2.1 protocol fieldsList value protocol1 hparse
  exact hread fuel hfuel protocol1 [] (by rw [hp1]; simp [add, hempty])

theorem linearized_stream_consumable_witness :
    (exampleProtocol.params = [] ∧
      parseStruct exampleProtocol exampleFieldsA (Json.obj exampleObject) =
        .ret (none, add exampleProtocol
          [.string "x", .TType .I32, .int16 1, .int32 7,
           .string "y", .TType .STRING, .int16 2, .string "hi",
           .string "nested", .TType .STRUCT, .int16 3,
           .string "b", .TType .BOOL, .int16 1, .bool true,
           .string "", .TType .STOP, .int16 (-1),
           .string "", .TType .STOP, .int16 (-1)]) ∧
      2 * (Json.obj exampleObject).size + 1 ≤ 40) ∧
    readFieldsN 40 (add exampleProtocol
        [.string "x", .TType .I32, .int16 1, .int32 7,
         .string "y", .TType .STRING, .int16 2, .string "hi",
         .string "nested", .TType .STRUCT, .int16 3,
         .string "b", .TType .BOOL, .int16 1, .bool true,
         .string "", .TType .STOP, .int16 (-1),
         .string "", .TType .STOP, .int16 (-1)]) =
      .ret { add exampleProtocol
        [.string "x", .TType .I32, .int16 1, .int32 7,
         .string "y", .TType .STRING, .int16 2, .string "hi",
         .string "nested", .TType .STRUCT, .int16 3,
         .string "b", .TType .BOOL, .int16 1, .bool true,
         .string "", .TType .STOP, .int16 (-1),
         .string "", .TType .STOP, .int16 (-1)] with params := [] } :=
  ⟨⟨rfl, rfl, by decide⟩,
    linearized_stream_consumable exampleProtocol exampleFieldsA (Json.obj exampleObject) _
      rfl rfl 40 (by decide)⟩

/-! ## C12, C13 and the declared exception: the REPLY bodies without `success` -/

/-- An array none of whose objects has the string `val` at `key` makes `findInJsonArray`
return the nil object. -/
theorem findInJsonArray_eq_none (arr : List Json) (key val : String)
    (h : ∀ o, Json.obj o ∈ arr → Object.index o key ≠ Json.str val) :
    findInJsonArray arr key val = none := by
  induction arr with
  | nil => rfl
  | cons v rest ih =>
    have ih1 := ih (fun o ho => h o (List.mem_cons_of_mem _ ho))
    cases v with
    | obj vx =>
      have hx := h vx (List.mem_cons_self _ _)
      simp only [findInJsonArray]
      cases hi : Object.index vx key with
      | str s =>
        have hs : s ≠ val := fun e => hx (by rw [hi, e])
        simp only [if_neg hs]
        exact ih1
      | null => exact ih1
      | bool b => exact ih1
      | num q => exact ih1
      | arr xs => exact ih1
      | obj kvs => exact ih1
    | null => simpa only [findInJsonArray] using ih1
    | bool b => simpa only [findInJsonArray] using ih1
    | num q => simpa only [findInJsonArray] using ih1
    | str s => simpa only [findInJsonArray] using ih1
    | arr xs => simpa only [findInJsonArray] using ih1

/-- The object that `findInJsonArray` returns is an element of the array and has the string
`val` at `key`. -/
theorem findInJsonArray_some (arr : List Json) (key val : String) (o : Object)
    (h : findInJsonArray arr key val = some o) :
    Json.obj o ∈ arr ∧ Object.index o key = Json.str val := by
  induction arr with
  | nil => simp [findInJsonArray] at h
  | cons v rest ih =>
    have step : findInJsonArray rest key val = some o →
        Json.obj o ∈ v :: rest ∧ Object.index o key = Json.str val := fun h1 =>
      ⟨List.mem_cons_of_mem _ (ih h1).1, (ih h1).2⟩
    cases v with
    | obj vx =>
      simp only [findInJsonArray] at h
      cases hi : Object.index vx key with
      | str s =>
        rw [hi] at h
        simp only at h
        by_cases hs : s = val
        · rw [if_pos hs] at h
          cases h
          exact ⟨List.mem_cons_self _ _, by rw [hi, hs]⟩
        · rw [if_neg hs] at h
          exact step h
      | null => rw [hi] at h; exact step h
      | bool b => rw [hi] at h; exact step h
      | num q => rw [hi] at h; exact step h
      | arr xs => rw [hi] at h; exact step h
      | obj kvs => rw [hi] at h; exact step h
    | null => exact step (by simpa only [findInJsonArray] using h)
    | bool b => exact step (by simpa only [findInJsonArray] using h)
    | num q => exact step (by simpa only [findInJsonArray] using h)
    | str s => exact step (by simpa only [findInJsonArray] using h)
    | arr xs => exact step (by simpa only [findInJsonArray] using h)

theorem hasKey_nil (key : String) : hasKey [] key = false := rfl

/-- A result object that is not empty has a length other than 0. -/
theorem length_ne_zero_of_ne_nil (result : Object) (h : result ≠ []) :
    ¬ result.length = 0 := by
  intro h0
  exact h (List.length_eq_zero.mp h0)

/-- The declared-exception REPLY on an exception value that is a JSON object: for a REPLY on
a method found in the metadata whose result object is not empty, has no `success` key and
whose first key `errName` names an entry `errInfo` of the method's `exceptions` array, with
an object as its value, `ReadMessageBegin` returns `(name, REPLY, 1)` with a nil error as
soon as `parse` on the value returns, and the token buffer then is the buffer before the
call, the field-begin triple `(errName, STRUCT, key)`, where `key` is the exception field's
key as int16 and 1 when the descriptor has none, the tokens of `parse` on the exception's
value, and `("", STOP, -1)`. With the exception `err` (key 1) and the body
`{"method":"m","result":{"err":{"errorCode":401}}}` the buffer is `("err", STRUCT, 1),
("errorCode", I32, 1), 401, ("", STOP, -1), ("", STOP, -1)`. -/
theorem declared_exception_reply (protocol : WIJSONProtocol) (request : Object) (name : String)
    (methodInfo result : Object) (exceptions : List Json) (errInfo errValue : Object)
    (key16 : Int) (err : Option Err) (q0 : WIJSONProtocol)
    (hname : getDefaultStringVal request methodKey "" = some name)
    (hlookup : getMethodInfo protocol.metadata protocol.service name = some (.ok methodInfo))
    (hcall : hasKey request argumentsKey = false)
    (hresult : getJsonVal request [resultKey] = some result)
    (hsuccess : hasKey result successKey = false)
    (hne : result ≠ [])
    (hexc : getArrayVal methodInfo [exceptionsKey] = some exceptions)
    (hfind : findInJsonArray exceptions nameKey (firstKey result) = some errInfo)
    (hkey : getDefaultInt16Val errInfo keyKey 1 = some key16)
    (hvalue : getJsonVal result [firstKey result] = some errValue)
    (hparse : parse (cleared { protocol with request := request }) errInfo (Json.obj errValue)
      typeIdKey typeKey = .ret (err, q0)) :
    (ReadMessageBegin protocol none (.ok (.obj request)) =
      .ret ((name, TMessageType.REPLY, 1, none),
        { protocol with
          request := request
          params := protocol.params ++
            ([Token.string (firstKey result), Token.TType TType.STRUCT, Token.int16 key16] ++
              q0.params ++ stopField)
          err := err }) ∧
      (hasKey errInfo keyKey = false → key16 = 1)) ∧
    ReadMessageBegin exampleThrowsProtocol none (.ok (.obj exampleErrReply)) =
      .ret (("m", TMessageType.REPLY, 1, none),
        { exampleThrowsProtocol with
          request := exampleErrReply
          params := [.string "err", .TType .STRUCT, .int16 1,
            .string "errorCode", .TType .I32, .int16 1, .int32 401,
            .string "", .TType .STOP, .int16 (-1),
            .string "", .TType .STOP, .int16 (-1)] }) := by
  refine ⟨⟨?_, ?_⟩, rfl⟩
  · have hr := hasKey_of_getJsonVal request resultKey result hresult
    have hlen := length_ne_zero_of_ne_nil result hne
    have hp := parse_of_cleared
      (add { protocol with request := request }
        [Token.string (firstKey result), Token.TType TType.STRUCT, Token.int16 key16])
      errInfo (Json.obj errValue) typeIdKey typeKey err q0
      (by rw [cleared_add]; exact hparse)
    simp only [ReadMessageBegin, NewJson, hname, hlookup, getMessageTypeAndSeq, hcall, hr,
      hresult, hsuccess, hlen, hexc, hfind, hkey, hvalue, hp, Except.toOption]
    simp [add]
  · intro hk
    unfold hasKey at hk
    unfold getDefaultInt16Val at hkey
    cases hl : errInfo.lookup keyKey with
    | none => rw [hl] at hkey; simpa using hkey.symm
    | some v => rw [hl] at hk; simp at hk

theorem declared_exception_reply_witness :
    (getDefaultStringVal exampleErrReply methodKey "" = some "m" ∧
      getMethodInfo exampleThrowsProtocol.metadata exampleThrowsProtocol.service "m" =
        some (.ok exampleMethodThrows) ∧
      hasKey exampleErrReply argumentsKey = false ∧
      getJsonVal exampleErrReply [resultKey] = some [("err", .obj [("errorCode", .num 401)])] ∧
      hasKey [("err", Json.obj [("errorCode", .num 401)])] successKey = false ∧
      [("err", Json.obj [("errorCode", .num 401)])] ≠ [] ∧
      getArrayVal exampleMethodThrows [exceptionsKey] = some [.obj exampleErrInfo] ∧
      findInJsonArray [.obj exampleErrInfo] nameKey
        (firstKey [("err", Json.obj [("errorCode", .num 401)])]) = some exampleErrInfo ∧
      getDefaultInt16Val exampleErrInfo keyKey 1 = some 1 ∧
      getJsonVal [("err", Json.obj [("errorCode", .num 401)])]
        [firstKey [("err", Json.obj [("errorCode", .num 401)])]] =
          some [("errorCode", .num 401)] ∧
      parse (cleared { exampleThrowsProtocol with request := exampleErrReply }) exampleErrInfo
          (Json.obj [("errorCode", .num 401)]) typeIdKey typeKey =
        .ret (none, { exampleThrowsProtocol with
          request := exampleErrReply
          params := [.string "errorCode", .TType .I32, .int16 1, .int32 401,
            .string "", .TType .STOP, .int16 (-1)] })) ∧
    ReadMessageBegin exampleThrowsProtocol none (.ok (.obj exampleErrReply)) =
      .ret (("m", TMessageType.REPLY, 1, none),
        { exampleThrowsProtocol with
          request := exampleErrReply
          params := exampleThrowsProtocol.params ++
            ([Token.string (firstKey [("err", Json.obj [("errorCode", .num 401)])]),
                Token.TType TType.STRUCT, Token.int16 1] ++
              [.string "errorCode", .TType .I32, .int16 1, .int32 401,
                .string "", .TType .STOP, .int16 (-1)] ++ stopField)
          err := none }) :=
  ⟨⟨rfl, rfl, rfl, rfl, rfl, by simp, rfl, rfl, rfl, rfl, rfl⟩,
    (declared_exception_reply exampleThrowsProtocol exampleErrReply "m" exampleMethodThrows
      [("err", .obj [("errorCode", .num 401)])] [.obj exampleErrInfo] exampleErrInfo
      [("errorCode", .num 401)] 1 none
      { exampleThrowsProtocol with
          request := exampleErrReply
          params := [.string "errorCode", .TType .I32, .int16 1, .int32 401,
            .string "", .TType .STOP, .int16 (-1)] }
      rfl rfl rfl rfl rfl (by simp) rfl rfl rfl rfl rfl).1.1⟩

/-- C12. Undeclared exception REPLY: for a REPLY on a method found in the metadata whose
result object is not empty, has no `success` key and whose first key is the name of no entry
of the method's `exceptions` array, `ReadMessageBegin` itself fails, with a protocol exception
of kind `INVALID_DATA`; the token buffer and the deferred error are what they were before
the call. -/
theorem undeclared_exception_reply (protocol : WIJSONProtocol) (request : Object)
    (name : String) (methodInfo result : Object) (exceptions : List Json)
    (hname : getDefaultStringVal request methodKey "" = some name)
    (hlookup : getMethodInfo protocol.metadata protocol.service name = some (.ok methodInfo))
    (hcall : hasKey request argumentsKey = false)
    (hresult : getJsonVal request [resultKey] = some result)
    (hsuccess : hasKey result successKey = false)
    (hne : result ≠ [])
    (hexc : getArrayVal methodInfo [exceptionsKey] = some exceptions)
    (hundeclared : ∀ o, Json.obj o ∈ exceptions →
      Object.index o nameKey ≠ Json.str (firstKey result)) :
    ∃ cause q,
      ReadMessageBegin protocol none (.ok (.obj request)) =
        .ret (("", TMessageType.INVALID_TMESSAGE_TYPE, 0,
          some (Err.TProtocolException TProtocolExceptionType.INVALID_DATA cause)), q) ∧
      q.params = protocol.params ∧ q.err = protocol.err := by
  have hr := hasKey_of_getJsonVal request resultKey result hresult
  have hlen := length_ne_zero_of_ne_nil result hne
  have hfind := findInJsonArray_eq_none exceptions nameKey (firstKey result) hundeclared
  refine ⟨Err.New "Unable to parse result", { protocol with request := request }, ?_, rfl, rfl⟩
  simp only [ReadMessageBegin, NewJson, hname, hlookup, getMessageTypeAndSeq, hcall, hr,
    hresult, hsuccess, hlen, hexc, hfind, Except.toOption]
  simp

theorem undeclared_exception_reply_witness :
    (getDefaultStringVal exampleUndeclaredReply methodKey "" = some "m" ∧
      getMethodInfo exampleThrowsProtocol.metadata exampleThrowsProtocol.service "m" =
        some (.ok exampleMethodThrows) ∧
      hasKey exampleUndeclaredReply argumentsKey = false ∧
      getJsonVal exampleUndeclaredReply [resultKey] =
        some [("oops", .obj [("errorCode", .num 401)])] ∧
      hasKey [("oops", Json.obj [("errorCode", .num 401)])] successKey = false ∧
      [("oops", Json.obj [("errorCode", .num 401)])] ≠ [] ∧
      getArrayVal exampleMethodThrows [exceptionsKey] = some [.obj exampleErrInfo] ∧
      ∀ o, Json.obj o ∈ [Json.obj exampleErrInfo] →
        Object.index o nameKey ≠
          Json.str (firstKey [("oops", Json.obj [("errorCode", .num 401)])])) ∧
    ∃ cause q,
      ReadMessageBegin exampleThrowsProtocol none (.ok (.obj exampleUndeclaredReply)) =
        .ret (("", TMessageType.INVALID_TMESSAGE_TYPE, 0,
          some (Err.TProtocolException TProtocolExceptionType.INVALID_DATA cause)), q) ∧
      q.params = exampleThrowsProtocol.params ∧ q.err = exampleThrowsProtocol.err := by
  have hundeclared : ∀ o, Json.obj o ∈ [Json.obj exampleErrInfo] →
      Object.index o nameKey ≠
        Json.str (firstKey [("oops", Json.obj [("errorCode", .num 401)])]) := by
    intro o ho
    simp only [List.mem_singleton, Json.obj.injEq] at ho
    subst ho
    simp [Object.index, exampleErrInfo, nameKey, firstKey, List.lookup]
  exact ⟨⟨rfl, rfl, rfl, rfl, rfl, by simp, rfl, hundeclared⟩,
    undeclared_exception_reply exampleThrowsProtocol exampleUndeclaredReply "m"
      exampleMethodThrows [("oops", .obj [("errorCode", .num 401)])] [.obj exampleErrInfo]
      rfl rfl rfl rfl rfl (by simp) rfl hundeclared⟩

/-- C13. Void REPLY: for a REPLY on a method found in the metadata whose result object is
empty, `ReadMessageBegin` returns `(name, REPLY, 1)` with a nil error, sets no deferred error
(the field keeps the nil it had), and appends exactly the triple `("", STOP, -1)` to the
token buffer. -/
theorem void_reply (protocol : WIJSONProtocol) (request : Object) (name : String)
    (methodInfo : Object)
    (hname : getDefaultStringVal request methodKey "" = some name)
    (hlookup : getMethodInfo protocol.metadata protocol.service name = some (.ok methodInfo))
    (hcall : hasKey request argumentsKey = false)
    (hresult : getJsonVal request [resultKey] = some [])
    (herr : protocol.err = none) :
    ReadMessageBegin protocol none (.ok (.obj request)) =
      .ret ((name, TMessageType.REPLY, 1, none),
        { protocol with
          request := request
          params := protocol.params ++ [Token.string "", Token.TType TType.STOP, Token.int16 (-1)]
          err := none }) := by
  have hr := hasKey_of_getJsonVal request resultKey [] hresult
  simp only [ReadMessageBegin, NewJson, hname, hlookup, getMessageTypeAndSeq, hcall, hr,
    hresult, hasKey_nil, Except.toOption]
  simp [add, stopField, herr]

theorem void_reply_witness :
    (getDefaultStringVal exampleVoidReply methodKey "" = some "m" ∧
      getMethodInfo exampleThrowsProtocol.metadata exampleThrowsProtocol.service "m" =
        some (.ok exampleMethodThrows) ∧
      hasKey exampleVoidReply argumentsKey = false ∧
      getJsonVal exampleVoidReply [resultKey] = some [] ∧
      exampleThrowsProtocol.err = none) ∧
    ReadMessageBegin exampleThrowsProtocol none (.ok (.obj exampleVoidReply)) =
      .ret (("m", TMessageType.REPLY, 1, none),
        { exampleThrowsProtocol with
          request := exampleVoidReply
          params := exampleThrowsProtocol.params ++
            [Token.string "", Token.TType TType.STOP, Token.int16 (-1)]
          err := none }) :=
  ⟨⟨rfl, rfl, rfl, rfl, rfl⟩,
    void_reply exampleThrowsProtocol exampleVoidReply "m" exampleMethodThrows
      rfl rfl rfl rfl rfl⟩

/-! ## The exception branch of `ReadMessageBegin` -/

/-- Go `getDefaultStringVal` at `message`, on an object whose `message` is a string or
absent, is the message of the specification. -/
theorem getDefaultStringVal_message (exception : Object)
    (h : exception.lookup messageKey = none ∨ ∃ s, exception.lookup messageKey = some (.str s)) :
    getDefaultStringVal exception messageKey "" = some (exceptionMessage exception) := by
  unfold getDefaultStringVal exceptionMessage
  rcases h with h | ⟨s, h⟩ <;> rw [h]

/-- Go `getDefaultInt32Val` at `type`, on an object whose `type` is a number or absent, is
the type of the specification. -/
theorem getDefaultInt32Val_type (exception : Object)
    (h : exception.lookup typeKey = none ∨ ∃ v, exception.lookup typeKey = some (.num v)) :
    getDefaultInt32Val exception typeKey UNKNOWN_APPLICATION_EXCEPTION =
      some (exceptionType exception) := by
  unfold getDefaultInt32Val exceptionType
  rcases h with h | ⟨v, h⟩ <;> rw [h]

/-- The exception branch of `ReadMessageBegin`: the outcome of the method lookup plays no
part in it. -/
theorem readMessageBegin_exception (protocol : WIJSONProtocol) (request : Object)
    (name : String) (lookup : Except Err Object) (exception : Object)
    (hname : getDefaultStringVal request methodKey "" = some name)
    (hlookup : getMethodInfo protocol.metadata protocol.service name = some lookup)
    (hcall : hasKey request argumentsKey = false)
    (hreply : hasKey request resultKey = false)
    (hexception : getJsonVal request [exceptionKey] = some exception)
    (hmessage : exception.lookup messageKey = none ∨
      ∃ s, exception.lookup messageKey = some (.str s))
    (htype : exception.lookup typeKey = none ∨ ∃ v, exception.lookup typeKey = some (.num v)) :
    ReadMessageBegin protocol none (.ok (.obj request)) =
      .ret ((name, TMessageType.EXCEPTION, 1, none),
        { protocol with
          request := request
          params := protocol.params ++ exceptionTokens exception }) := by
  have hx := hasKey_of_getJsonVal request exceptionKey exception hexception
  have hm := getDefaultStringVal_message exception hmessage
  have ht := getDefaultInt32Val_type exception htype
  simp only [ReadMessageBegin, NewJson, hname, hlookup, getMessageTypeAndSeq, hcall, hreply, hx,
    hexception, hm, ht]
  simp [add, stopField, exceptionTokens]

/-- C15 as stated fails. The request `{"method":"loginUser","exception":{"message":
"Unknown function loginUser","type":1}}` names a method that `getMethodInfo` does not find,
and `ReadMessageBegin` reports no error: the returned error is nil, no deferred error is set,
and the buffer holds the exception body. -/
theorem exception_miss_reported_counterexample :
    getMethodInfo exampleProtocol.metadata exampleProtocol.service "loginUser" =
      some (.error (Err.New "Svc::loginUser not found!")) ∧
    hasKey exampleUnknownException argumentsKey = false ∧
    hasKey exampleUnknownException resultKey = false ∧
    hasKey exampleUnknownException exceptionKey = true ∧
    ReadMessageBegin exampleProtocol none (.ok (.obj exampleUnknownException)) =
      .ret (("loginUser", TMessageType.EXCEPTION, 1, none),
        { exampleProtocol with
          request := exampleUnknownException
          params := [.string "", .TType .STRING, .int16 1,
            .string "Unknown function loginUser",
            .string "", .TType .I32, .int16 2, .int32 1,
            .string "", .TType .STOP, .int16 (-1)]
          err := none }) :=
  ⟨rfl, rfl, rfl, rfl, rfl⟩

/-! ## C16, C18: the token streams of `parseMap` and `parseList` -/

theorem parseMapRange_stream (protocol : WIJSONProtocol) (fieldInfo : Object) (object : Object)
    (hentries : ∀ kv ∈ object, ∃ q1 q2,
      parse (cleared protocol) fieldInfo (Json.str kv.1) keyTypeIdKey keyTypeKey =
        .ret (none, q1) ∧
      parse (cleared protocol) fieldInfo kv.2 valueTypeIdKey valueTypeKey = .ret (none, q2))
    (p : WIJSONProtocol) (hp : cleared p = cleared protocol) :
    parseMapRange p fieldInfo object =
      .ret (none, add p (object.flatMap (entryTokens protocol fieldInfo))) := by
  induction object generalizing p with
  | nil => rw [parseMapRange_nil, List.flatMap_nil, add_nil]
  | cons kv rest ih =>
    obtain ⟨key, value⟩ := kv
    obtain ⟨q1, q2, h1, h2⟩ := hentries (key, value) (List.mem_cons_self _ _)
    have hparse1 := parse_of_cleared p fieldInfo (Json.str key) keyTypeIdKey keyTypeKey none q1
      (by rw [hp]; exact h1)
    have hparse2 := parse_of_cleared (add p q1.params) fieldInfo value valueTypeIdKey
      valueTypeKey none q2 (by rw [cleared_add, hp]; exact h2)
    have htoks : entryTokens protocol fieldInfo (key, value) = q1.params ++ q2.params := by
      simp only [entryTokens] at h1 h2 ⊢
      simp only [h1, h2, emitted]
    rw [parseMapRange_cons]
    simp only [hparse1, hparse2]
    rw [ih (fun kv hkv => hentries kv (List.mem_cons_of_mem _ hkv)) _
      (by rw [cleared_add, cleared_add, hp])]
    rw [List.flatMap_cons, htoks, add_add, add_add, List.append_assoc]

theorem parseListRange_stream (protocol : WIJSONProtocol) (fieldInfo : Object)
    (array : List Json)
    (helems : ∀ v ∈ array, ∃ q0,
      parse (cleared protocol) fieldInfo v elemTypeIdKey elemTypeKey = .ret (none, q0))
    (p : WIJSONProtocol) (hp : cleared p = cleared protocol) :
    parseListRange p fieldInfo array =
      .ret (none, add p (array.flatMap (elemTokens protocol fieldInfo))) := by
  induction array generalizing p with
  | nil => rw [parseListRange_nil, List.flatMap_nil, add_nil]
  | cons value rest ih =>
    obtain ⟨q0, h0⟩ := helems value (List.mem_cons_self _ _)
    have hparse := parse_of_cleared p fieldInfo value elemTypeIdKey elemTypeKey none q0
      (by rw [hp]; exact h0)
    have htoks : elemTokens protocol fieldInfo value = q0.params := by
      simp only [elemTokens, h0, emitted]
    rw [parseListRange_cons]
    simp only [hparse]
    rw [ih (fun v hv => helems v (List.mem_cons_of_mem _ hv)) _ (by rw [cleared_add, hp])]
    rw [List.flatMap_cons, htoks, add_add]

/-- C16. Map linearization: for every map descriptor whose `keyTypeId` and `valueTypeId` are
known type ids and every JSON object whose keys and values linearize without error,
`parseMap` appends the triple (key tag, value tag, number of entries) and then, for each entry
in iteration order, the tokens of the key immediately followed by the tokens of its value.
For `map<string, i32>` and `{"a":1,"b":2}` it appends `(STRING, I32, 2)`, then `"a"`, 1,
`"b"`, 2. -/
theorem parseMap_stream (protocol : WIJSONProtocol) (fieldInfo : Object) (object : Object)
    (keyTypeId valueTypeId : String) (keyType valueType : TType)
    (hkid : getStringVal fieldInfo [keyTypeIdKey] = some keyTypeId)
    (hktag : StringToTypeId keyTypeId = (keyType, none))
    (hvid : getStringVal fieldInfo [valueTypeIdKey] = some valueTypeId)
    (hvtag : StringToTypeId valueTypeId = (valueType, none))
    (hentries : ∀ kv ∈ object, ∃ q1 q2,
      parse (cleared protocol) fieldInfo (Json.str kv.1) keyTypeIdKey keyTypeKey =
        .ret (none, q1) ∧
      parse (cleared protocol) fieldInfo kv.2 valueTypeIdKey valueTypeKey = .ret (none, q2)) :
    parseMap protocol fieldInfo (Json.obj object) =
      .ret (none,
        add protocol
          ([Token.TType keyType, Token.TType valueType, Token.int object.length] ++
            object.flatMap (entryTokens protocol fieldInfo))) ∧
    parseMap exampleProtocol exampleMapInfo (Json.obj exampleMapObject) =
      .ret (none, add exampleProtocol
        [.TType .STRING, .TType .I32, .int 2,
         .string "a", .int32 1,
         .string "b", .int32 2]) := by
  refine ⟨?_, rfl⟩
  rw [parseMap_eq]
  simp only [toJsonCheck, hkid, hktag, hvid, hvtag]
  rw [parseMapRange_stream protocol fieldInfo object hentries _ (by rw [cleared_add])]
  simp only [add_add]

theorem parseMap_stream_witness :
    (getStringVal exampleMapInfo [keyTypeIdKey] = some "string" ∧
      StringToTypeId "string" = (TType.STRING, none) ∧
      getStringVal exampleMapInfo [valueTypeIdKey] = some "i32" ∧
      StringToTypeId "i32" = (TType.I32, none) ∧
      ∀ kv ∈ exampleMapObject, ∃ q1 q2,
        parse (cleared exampleProtocol) exampleMapInfo (Json.str kv.1) keyTypeIdKey keyTypeKey =
          .ret (none, q1) ∧
        parse (cleared exampleProtocol) exampleMapInfo kv.2 valueTypeIdKey valueTypeKey =
          .ret (none, q2)) ∧
    parseMap exampleProtocol exampleMapInfo (Json.obj exampleMapObject) =
      .ret (none,
        add exampleProtocol
          ([Token.TType TType.STRING, Token.TType TType.I32,
              Token.int exampleMapObject.length] ++
            exampleMapObject.flatMap (entryTokens exampleProtocol exampleMapInfo))) := by
  have hentries : ∀ kv ∈ exampleMapObject, ∃ q1 q2,
      parse (cleared exampleProtocol) exampleMapInfo (Json.str kv.1) keyTypeIdKey keyTypeKey =
        .ret (none, q1) ∧
      parse (cleared exampleProtocol) exampleMapInfo kv.2 valueTypeIdKey valueTypeKey =
        .ret (none, q2) := by
    intro kv hkv
    simp only [exampleMapObject, List.mem_cons, List.mem_singleton, List.not_mem_nil, or_false]
      at hkv
    rcases hkv with rfl | rfl
    · exact ⟨_, _, rfl, rfl⟩
    · exact ⟨_, _, rfl, rfl⟩
  exact ⟨⟨rfl, rfl, rfl, rfl, hentries⟩,
    (parseMap_stream exampleProtocol exampleMapInfo exampleMapObject "string" "i32"
      TType.STRING TType.I32 rfl rfl rfl rfl hentries).1⟩

/-- C18. List and set linearization: for every list or set descriptor whose `elemTypeId` is a
known type id and every JSON array whose elements linearize without error, `parseList`
appends the pair (element tag, number of elements) followed by the tokens of the elements in
array order; and on a value that is not a JSON array it fails and appends nothing. -/
theorem parseList_stream (protocol : WIJSONProtocol) (fieldInfo : Object) (array : List Json)
    (elemTypeId : String) (elemType : TType)
    (hid : getStringVal fieldInfo [elemTypeIdKey] = some elemTypeId)
    (htag : StringToTypeId elemTypeId = (elemType, none))
    (helems : ∀ v ∈ array, ∃ q0,
      parse (cleared protocol) fieldInfo v elemTypeIdKey elemTypeKey = .ret (none, q0)) :
    parseList protocol fieldInfo (Json.arr array) =
      .ret (none,
        add protocol
          ([Token.TType elemType, Token.int array.length] ++
            array.flatMap (elemTokens protocol fieldInfo))) ∧
    (∀ request : Json, (∀ xs, request ≠ Json.arr xs) →
      parseList protocol fieldInfo request =
        .ret (some (Err.New "Expected Json Array"), protocol)) ∧
    parseList exampleProtocol exampleListInfo (Json.arr exampleArray) =
      .ret (none, add exampleProtocol
        [.TType .I32, .int 4, .int32 4, .int32 3, .int32 2, .int32 1]) := by
  refine ⟨?_, ?_, rfl⟩
  · rw [parseList_eq]
    simp only [ToJsonArrayCheck, hid, htag]
    rw [parseListRange_stream protocol fieldInfo array helems _ (by rw [cleared_add])]
    simp only [add_add]
  · intro request hreq
    rw [parseList_eq]
    cases request with
    | arr xs => exact absurd rfl (hreq xs)
    | null => rfl
    | bool b => rfl
    | num q => rfl
    | str s => rfl
    | obj kvs => rfl

theorem parseList_stream_witness :
    (getStringVal exampleListInfo [elemTypeIdKey] = some "i32" ∧
      StringToTypeId "i32" = (TType.I32, none) ∧
      ∀ v ∈ exampleArray, ∃ q0,
        parse (cleared exampleProtocol) exampleListInfo v elemTypeIdKey elemTypeKey =
          .ret (none, q0)) ∧
    parseList exampleProtocol exampleListInfo (Json.arr exampleArray) =
      .ret (none,
        add exampleProtocol
          ([Token.TType TType.I32, Token.int exampleArray.length] ++
            exampleArray.flatMap (elemTokens exampleProtocol exampleListInfo))) := by
  have helems : ∀ v ∈ exampleArray, ∃ q0,
      parse (cleared exampleProtocol) exampleListInfo v elemTypeIdKey elemTypeKey =
        .ret (none, q0) := by
    intro v hv
    simp only [exampleArray, List.mem_cons, List.mem_singleton, List.not_mem_nil, or_false]
      at hv
    rcases hv with rfl | rfl | rfl | rfl
    · exact ⟨_, rfl⟩
    · exact ⟨_, rfl⟩
    · exact ⟨_, rfl⟩
    · exact ⟨_, rfl⟩
  exact ⟨⟨rfl, rfl, helems⟩,
    (parseList_stream exampleProtocol exampleListInfo exampleArray "i32" TType.I32
      rfl rfl helems).1⟩

/-! ## C17: map keys -/

/-- Only the type id `string` has the tag STRING. -/
theorem StringToTypeId_string (ft : String) (h : StringToTypeId ft = (TType.STRING, none)) :
    ft = "string" := by
  unfold StringToTypeId at h
  by_cases h0 : ft = "bool"
  · rw [if_pos h0] at h; cases h
  rw [if_neg h0] at h
  by_cases h1 : ft = "i8"
  · rw [if_pos h1] at h; cases h
  rw [if_neg h1] at h
  by_cases h2 : ft = "i16"
  · rw [if_pos h2] at h; cases h
  rw [if_neg h2] at h
  by_cases h3 : ft = "i32"
  · rw [if_pos h3] at h; cases h
  rw [if_neg h3] at h
  by_cases h4 : ft = "i64"
  · rw [if_pos h4] at h; cases h
  rw [if_neg h4] at h
  by_cases h5 : ft = "double"
  · rw [if_pos h5] at h; cases h
  rw [if_neg h5] at h
  by_cases h6 : ft = "string"
  · exact h6
  rw [if_neg h6] at h
  by_cases h7 : ft = "struct" ∨ ft = "union" ∨ ft = "exception"
  · rw [if_pos h7] at h; cases h
  rw [if_neg h7] at h
  by_cases h8 : ft = "map"
  · rw [if_pos h8] at h; cases h
  rw [if_neg h8] at h
  by_cases h9 : ft = "set"
  · rw [if_pos h9] at h; cases h
  rw [if_neg h9] at h
  by_cases h10 : ft = "list"
  · rw [if_pos h10] at h; cases h
  rw [if_neg h10] at h
  cases h

/-- A JSON string never linearizes without error under a type id other than `string`: that
is what `parse` is given for every key of a map. -/
theorem parse_str_not_string (p : WIJSONProtocol) (fi : Object) (s : String) (k1 k2 : String)
    (ft : String) (hft : getStringVal fi [k1] = some ft) (hne : ft ≠ "string")
    (q : WIJSONProtocol) : parse p fi (Json.str s) k1 k2 ≠ .ret (none, q) := by
  intro h
  rw [parse_view, hft] at h
  simp only at h
  rcases hs : StringToTypeId ft with ⟨t, _ | e⟩
  · rw [hs] at h
    cases t with
    | STRING => exact hne (StringToTypeId_string ft hs)
    | STRUCT =>
      simp only at h
      cases hj : getJsonVal fi [k2] with
      | none => rw [hj] at h; simp at h
      | some elemType =>
        rw [hj] at h
        simp only at h
        cases hl : getStructFieldList p elemType with
        | none => rw [hl] at h; simp at h
        | some fieldsList =>
          rw [hl] at h
          simp only at h
          rw [parseStruct_not_object p fieldsList (Json.str s) rfl] at h
          simp at h
    | MAP =>
      simp only at h
      cases hj : getJsonVal fi [k2] with
      | none => rw [hj] at h; simp at h
      | some info =>
        rw [hj] at h
        simp only at h
        rw [parseMap_eq] at h
        simp [toJsonCheck] at h
    | SET =>
      simp only at h
      cases hj : getJsonVal fi [k2] with
      | none => rw [hj] at h; simp at h
      | some info =>
        rw [hj] at h
        simp only at h
        rw [parseList_eq] at h
        simp [ToJsonArrayCheck] at h
    | LIST =>
      simp only at h
      cases hj : getJsonVal fi [k2] with
      | none => rw [hj] at h; simp at h
      | some info =>
        rw [hj] at h
        simp only at h
        rw [parseList_eq] at h
        simp [ToJsonArrayCheck] at h
    | BOOL => simp at h
    | BYTE => simp at h
    | I16 => simp at h
    | I32 => simp at h
    | I64 => simp at h
    | DOUBLE => simp at h
    | STOP => simp at h
  · rw [hs] at h
    cases t <;> simp at h

/-- No map whose declared key type is not `string` linearizes a JSON object that has an
entry: `parseMap` returns an error or panics, whatever the keys are. -/
theorem parseMap_typed_key_fails (protocol : WIJSONProtocol) (fieldInfo : Object)
    (key : String) (value : Json) (rest : Object) (keyTypeId : String)
    (hkid : getStringVal fieldInfo [keyTypeIdKey] = some keyTypeId)
    (hne : keyTypeId ≠ "string") (q : WIJSONProtocol) :
    parseMap protocol fieldInfo (Json.obj ((key, value) :: rest)) ≠ .ret (none, q) := by
  intro h
  rw [parseMap_eq] at h
  simp only [toJsonCheck, hkid] at h
  rcases hk : StringToTypeId keyTypeId with ⟨kt, _ | e⟩
  · rw [hk] at h
    simp only at h
    cases hv : getStringVal fieldInfo [valueTypeIdKey] with
    | none => rw [hv] at h; simp at h
    | some valueTypeId =>
      rw [hv] at h
      simp only at h
      rcases hvt : StringToTypeId valueTypeId with ⟨vt, _ | e⟩
      · rw [hvt] at h
        simp only at h
        rw [parseMapRange_cons] at h
        cases hr : parse
            (add protocol [Token.TType kt, Token.TType vt,
              Token.int (((key, value) :: rest).length : Nat)])
            fieldInfo (Json.str key) keyTypeIdKey keyTypeKey with
        | ret x =>
          obtain ⟨e, p1⟩ := x
          cases e with
          | none => exact parse_str_not_string _ _ _ _ _ keyTypeId hkid hne p1 hr
          | some e => rw [hr] at h; simp at h
        | panic => rw [hr] at h; simp at h
        | exhausted => rw [hr] at h; simp at h
      · rw [hvt] at h
        simp at h
  · rw [hk] at h
    simp at h

/-- C17 fails on the code. For `map<i32, string>` and the object `{"1":"a"}`, `parseMap`
appends the map-begin triple `(I32, STRING, 1)` and then fails on the key with
`Expected int32`: the key is handed to `parse` as the JSON string it is, and no key token is
appended. -/
theorem int_key_map_fails :
    parseMap exampleProtocol exampleIntKeyMapInfo (Json.obj exampleIntKeyMapObject) =
      .ret (some (Err.New "Expected int32"),
        add exampleProtocol [.TType .I32, .TType .STRING, .int 1]) := by
  rfl

/-! ## C19: what the readers remove from the buffer -/

/-- C19. Reader pops: on every token buffer that starts with the tokens the call expects and
goes on with any `rest`, `ReadFieldBegin` and `ReadMapBegin` remove exactly the first 3
tokens, `ReadListBegin` and `ReadSetBegin` exactly the first 2, and `ReadBool`, `ReadByte`,
`ReadI16`, `ReadI32`, `ReadI64`, `ReadDouble`, `ReadString` and `ReadBinary` exactly the
first one; each returns the removed tokens in order (`ReadBinary` the bytes of the string)
with a nil error and leaves `rest` as the buffer; `ReadStructBegin`, `ReadStructEnd`,
`ReadFieldEnd`, `ReadMapEnd`, `ReadListEnd`, `ReadSetEnd` and `ReadMessageEnd` leave the
state, and so the buffer, unchanged. -/
theorem reader_pops (p : WIJSONProtocol) (rest : List Token) :
    (∀ (name : String) (typeId : TType) (id : Int),
      ReadFieldBegin
          { p with params := [Token.string name, Token.TType typeId, Token.int16 id] ++ rest } =
        .ret ((name, typeId, id, none), { p with params := rest })) ∧
    (∀ (keyType valueType : TType) (size : Int),
      ReadMapBegin
          { p with
            params := [Token.TType keyType, Token.TType valueType, Token.int size] ++ rest } =
        .ret ((keyType, valueType, size, none), { p with params := rest })) ∧
    (∀ (elemType : TType) (size : Int),
      ReadListBegin { p with params := [Token.TType elemType, Token.int size] ++ rest } =
        .ret ((elemType, size, none), { p with params := rest })) ∧
    (∀ (elemType : TType) (size : Int),
      ReadSetBegin { p with params := [Token.TType elemType, Token.int size] ++ rest } =
        .ret ((elemType, size, none), { p with params := rest })) ∧
    (∀ v : Bool, ReadBool { p with params := [Token.bool v] ++ rest } =
      .ret ((v, none), { p with params := rest })) ∧
    (∀ v : Nat, ReadByte { p with params := [Token.byte v] ++ rest } =
      .ret ((v, none), { p with params := rest })) ∧
    (∀ v : Int, ReadI16 { p with params := [Token.int16 v] ++ rest } =
      .ret ((v, none), { p with params := rest })) ∧
    (∀ v : Int, ReadI32 { p with params := [Token.int32 v] ++ rest } =
      .ret ((v, none), { p with params := rest })) ∧
    (∀ v : Int, ReadI64 { p with params := [Token.int64 v] ++ rest } =
      .ret ((v, none), { p with params := rest })) ∧
    (∀ v : Rat, ReadDouble { p with params := [Token.float64 v] ++ rest } =
      .ret ((v, none), { p with params := rest })) ∧
    (∀ v : String, ReadString { p with params := [Token.string v] ++ rest } =
      .ret ((v, none), { p with params := rest })) ∧
    (∀ v : String, ReadBinary { p with params := [Token.string v] ++ rest } =
      .ret ((v.toUTF8.toList, none), { p with params := rest })) ∧
    ReadStructBegin p = (("", p.err), p) ∧
    ReadStructEnd p = (none, p) ∧
    ReadFieldEnd p = (none, p) ∧
    ReadMapEnd p = (none, p) ∧
    ReadListEnd p = (none, p) ∧
    ReadSetEnd p = (none, p) ∧
    ReadMessageEnd p = (none, p) := by
  refine ⟨?_, ?_, ?_, ?_, ?_, ?_, ?_, ?_, ?_, ?_, ?_, ?_, rfl, rfl, rfl, rfl, rfl, rfl, rfl⟩
  · intro name typeId id
    exact ReadFieldBegin_head _ name typeId id rest rfl
  · intro keyType valueType size
    exact ReadMapBegin_head _ keyType valueType size rest rfl
  · intro elemType size
    exact ReadListBegin_head _ elemType size rest rfl
  · intro elemType size
    exact ReadSetBegin_head _ elemType size rest rfl
  · intro v
    exact ReadBool_head _ v rest rfl
  · intro v
    exact ReadByte_head _ v rest rfl
  · intro v
    exact ReadI16_head _ v rest rfl
  · intro v
    exact ReadI32_head _ v rest rfl
  · intro v
    exact ReadI64_head _ v rest rfl
  · intro v
    exact ReadDouble_head _ v rest rfl
  · intro v
    exact ReadString_head _ v rest rfl
  · intro v
    unfold ReadBinary
    rw [ReadString_head _ v rest rfl]

/-! ## C20: the type-tag table -/

/-- C20. Type-tag table: `StringToTypeId` maps `bool` to BOOL, `i8` to BYTE, `i16` to I16,
`i32` to I32, `i64` to I64, `double` to DOUBLE, `string` to STRING, each of `struct`, `union`
and `exception` to STRUCT, `map` to MAP, `set` to SET and `list` to LIST with a nil error,
and for every other string it fails with a protocol exception of kind `INVALID_DATA` (next
to the tag STOP). -/
theorem type_tag_table (fieldType : String) :
    StringToTypeId "bool" = (TType.BOOL, none) ∧
    StringToTypeId "i8" = (TType.BYTE, none) ∧
    StringToTypeId "i16" = (TType.I16, none) ∧
    StringToTypeId "i32" = (TType.I32, none) ∧
    StringToTypeId "i64" = (TType.I64, none) ∧
    StringToTypeId "double" = (TType.DOUBLE, none) ∧
    StringToTypeId "string" = (TType.STRING, none) ∧
    StringToTypeId "struct" = (TType.STRUCT, none) ∧
    StringToTypeId "union" = (TType.STRUCT, none) ∧
    StringToTypeId "exception" = (TType.STRUCT, none) ∧
    StringToTypeId "map" = (TType.MAP, none) ∧
    StringToTypeId "set" = (TType.SET, none) ∧
    StringToTypeId "list" = (TType.LIST, none) ∧
    (fieldType ∉ typeIdentifiers →
      StringToTypeId fieldType =
        (TType.STOP,
          some (Err.TProtocolException TProtocolExceptionType.INVALID_DATA
            (Err.New ("Unknown type identifier: " ++ fieldType))))) := by
  refine ⟨rfl, rfl, rfl, rfl, rfl, rfl, rfl, rfl, rfl, rfl, rfl, rfl, rfl, ?_⟩
  intro h
  simp only [typeIdentifiers, List.mem_cons, List.mem_singleton, List.not_mem_nil, or_false,
    not_or] at h
  obtain ⟨h0, h1, h2, h3, h4, h5, h6, h7, h8, h9, h10, h11, h12⟩ := h
  have h789 : ¬ (fieldType = "struct" ∨ fieldType = "union" ∨ fieldType = "exception") := by
    rintro (h | h | h)
    · exact h7 h
    · exact h8 h
    · exact h9 h
  unfold StringToTypeId
  rw [if_neg h0, if_neg h1, if_neg h2, if_neg h3, if_neg h4, if_neg h5, if_neg h6, if_neg h789,
    if_neg h10, if_neg h11, if_neg h12]

theorem type_tag_table_witness :
    "binary" ∉ typeIdentifiers ∧
    StringToTypeId "binary" =
      (TType.STOP,
        some (Err.TProtocolException TProtocolExceptionType.INVALID_DATA
          (Err.New ("Unknown type identifier: " ++ "binary")))) :=
  ⟨by decide, (type_tag_table "binary").2.2.2.2.2.2.2.2.2.2.2.2.2 (by decide)⟩

/-! ## C21: the type-tag mapper is not injective -/

/-- C21, as the code has it. The type-tag mapper is a surjection from the thirteen IDL type
identifiers onto the eleven wire-type tags and is injective apart from `struct`, `union` and
`exception`, which all have the tag STRUCT: `StringToTypeId` sends two different identifiers
to the same tag exactly when both are among these three; every identifier gets one of the
eleven tags with a nil error, and every one of the eleven tags is the tag of an identifier. -/
theorem type_tag_collisions (a b : String) (ha : a ∈ typeIdentifiers)
    (hb : b ∈ typeIdentifiers) (hne : a ≠ b) :
    ((StringToTypeId a).1 = (StringToTypeId b).1 ↔
      a ∈ structIdentifiers ∧ b ∈ structIdentifiers) ∧
    ((StringToTypeId a).1 ∈ wireTags ∧ (StringToTypeId a).2 = none) ∧
    ∀ t ∈ wireTags, ∃ c ∈ typeIdentifiers, StringToTypeId c = (t, none) := by
  refine ⟨?_, ?_, ?_⟩
  · simp only [typeIdentifiers, List.mem_cons, List.mem_singleton, List.not_mem_nil, or_false]
      at ha hb
    rcases ha with rfl | rfl | rfl | rfl | rfl | rfl | rfl | rfl | rfl | rfl | rfl | rfl | rfl <;>
      rcases hb with rfl | rfl | rfl | rfl | rfl | rfl | rfl | rfl | rfl | rfl | rfl | rfl | rfl <;>
        first
          | exact absurd rfl hne
          | decide
  · simp only [typeIdentifiers, List.mem_cons, List.mem_singleton, List.not_mem_nil, or_false]
      at ha
    rcases ha with rfl | rfl | rfl | rfl | rfl | rfl | rfl | rfl | rfl | rfl | rfl | rfl | rfl <;>
      exact ⟨by decide, rfl⟩
  · intro t ht
    simp only [wireTags, List.mem_cons, List.mem_singleton, List.not_mem_nil, or_false] at ht
    rcases ht with rfl | rfl | rfl | rfl | rfl | rfl | rfl | rfl | rfl | rfl | rfl
    · exact ⟨"bool", by decide, rfl⟩
    · exact ⟨"i8", by decide, rfl⟩
    · exact ⟨"i16", by decide, rfl⟩
    · exact ⟨"i32", by decide, rfl⟩
    · exact ⟨"i64", by decide, rfl⟩
    · exact ⟨"double", by decide, rfl⟩
    · exact ⟨"string", by decide, rfl⟩
    · exact ⟨"struct", by decide, rfl⟩
    · exact ⟨"map", by decide, rfl⟩
    · exact ⟨"set", by decide, rfl⟩
    · exact ⟨"list", by decide, rfl⟩

theorem type_tag_collisions_witness :
    ("map" ∈ typeIdentifiers ∧ "set" ∈ typeIdentifiers ∧ "map" ≠ "set") ∧
    ((StringToTypeId "map").1 = (StringToTypeId "set").1 ↔
      "map" ∈ structIdentifiers ∧ "set" ∈ structIdentifiers) ∧
    ((StringToTypeId "map").1 ∈ wireTags ∧ (StringToTypeId "map").2 = none) ∧
    ∀ t ∈ wireTags, ∃ c ∈ typeIdentifiers, StringToTypeId c = (t, none) :=
  ⟨⟨by decide, by decide, by decide⟩,
    type_tag_collisions "map" "set" (by decide) (by decide) (by decide)⟩

/-- C21 as stated fails. `struct` and `union` are two different identifiers of the set, and
`StringToTypeId` sends both to the tag STRUCT; no map from the thirteen identifiers to the
eleven tags is a bijection. -/
theorem type_tag_bijection_counterexample :
    "struct" ∈ typeIdentifiers ∧ "union" ∈ typeIdentifiers ∧ "struct" ≠ "union" ∧
    StringToTypeId "struct" = (TType.STRUCT, none) ∧
    StringToTypeId "union" = (TType.STRUCT, none) ∧
    typeIdentifiers.length = 13 ∧ wireTags.length = 11 :=
  ⟨by decide, by decide, by decide, rfl, rfl, rfl, rfl⟩

/-! ## C22: the metadata index -/

/-- Go `findInJsonArray` is the array search of the specification. -/
theorem findInJsonArray_eq_findByField (arr : List Json) (key val : String) :
    findInJsonArray arr key val = findByField arr key val := by
  induction arr with
  | nil => rfl
  | cons v rest ih =>
    unfold findByField at ih ⊢
    cases v with
    | obj vx =>
      simp only [findInJsonArray, Object.index, List.find?, hasField]
      cases hl : vx.lookup key with
      | none => simpa using ih
      | some x =>
        cases x with
        | str s =>
          simp only [Option.getD_some]
          by_cases hs : s = val
          · have hb : (s == val) = true := by simp [hs]
            simp only [hb, if_pos hs]
          · have hb : (s == val) = false := by simp [hs]
            simp only [hb, if_neg hs]
            exact ih
        | null => simpa using ih
        | bool b => simpa using ih
        | num q => simpa using ih
        | arr xs => simpa using ih
        | obj kvs => simpa using ih
    | null => simpa only [findInJsonArray, List.find?, hasField] using ih
    | bool b => simpa only [findInJsonArray, List.find?, hasField] using ih
    | num q => simpa only [findInJsonArray, List.find?, hasField] using ih
    | str s => simpa only [findInJsonArray, List.find?, hasField] using ih
    | arr xs => simpa only [findInJsonArray, List.find?, hasField] using ih

/-- The object that the array search returns is an element of the array. -/
theorem mem_of_findByField (arr : List Json) (key val : String) (o : Object)
    (h : findByField arr key val = some o) : Json.obj o ∈ arr := by
  rw [← findInJsonArray_eq_findByField] at h
  exact (findInJsonArray_some arr key val o h).1

theorem getArrayValSafe_single (o : Object) (k : String) :
    getArrayValSafe o [k] =
      some (match o.lookup k with
        | some (.arr a) => .ok a
        | _ => .error errInvalidKey) := by
  unfold getArrayValSafe getVal Object.index
  cases o.lookup k with
  | none => rfl
  | some x => cases x <;> rfl

theorem getStringVal_single (o : Object) (k : String) :
    getStringVal o [k] =
      match o.lookup k with
      | some (.str s) => some s
      | _ => none := by
  unfold getStringVal getVal Object.index
  cases o.lookup k with
  | none => rfl
  | some x => cases x <;> rfl

theorem getArrayVal_single (o : Object) (k : String) :
    getArrayVal o [k] =
      match o.lookup k with
      | some (.arr a) => some a
      | _ => none := by
  unfold getArrayVal getVal Object.index
  cases o.lookup k with
  | none => rfl
  | some x => cases x <;> rfl

theorem methodInfoSpec_cons_none (v : Json) (rest : List Json) (S M : String)
    (h : offeredMethod S M v = none) :
    methodInfoSpec (v :: rest) S M = methodInfoSpec rest S M := by
  simp only [methodInfoSpec, List.findSome?, h]

theorem methodInfoSpec_cons_some (v : Json) (rest : List Json) (S M : String) (info : Object)
    (h : offeredMethod S M v = some info) :
    methodInfoSpec (v :: rest) S M = .ok info := by
  simp only [methodInfoSpec, List.findSome?, h]

/-- Go `getMethodInfo` skips an entry of the metadata that is not an object. -/
theorem getMethodInfo_cons_skip (v : Json) (rest : List Json) (S M : String)
    (h : toJsonCheck v = none) :
    getMethodInfo (v :: rest) S M = getMethodInfo rest S M := by
  simp only [getMethodInfo, h]

/-- One turn of the loop of `getMethodInfo` on a package object, read off the keys of the
package. -/
theorem getMethodInfo_cons_obj (pkg : Object) (rest : List Json) (S M : String) :
    getMethodInfo (Json.obj pkg :: rest) S M =
      match pkg.lookup servicesKey with
      | some (.arr svcs) =>
        (match pkg.lookup nameKey with
        | some (.str pkgName) =>
          (match findByField svcs nameKey (pkgName ++ "." ++ S) with
          | none => getMethodInfo rest S M
          | some svc =>
            (match svc.lookup functionsKey with
            | some (.arr functions) =>
              (match findByField functions nameKey M with
              | some methodInfo => some (.ok methodInfo)
              | none => getMethodInfo rest S M)
            | _ => none))
        | _ => none)
      | _ => getMethodInfo rest S M := by
  simp only [getMethodInfo, toJsonCheck, getArrayValSafe_single, getStringVal_single,
    getArrayVal_single, findInJsonArray_eq_findByField]
  cases hs : pkg.lookup servicesKey with
  | none => rfl
  | some x =>
    cases x with
    | arr svcs =>
      simp only
      cases hn : pkg.lookup nameKey with
      | none => rfl
      | some y =>
        cases y with
        | str pkgName =>
          simp only
          cases hf : findByField svcs nameKey (pkgName ++ "." ++ S) with
          | none => rfl
          | some svc =>
            simp only
            cases hl : svc.lookup functionsKey with
            | none => rfl
            | some z =>
              cases z with
              | arr functions =>
                simp only
              | null => rfl
              | bool b => rfl
              | num q => rfl
              | str s => rfl
              | obj kvs => rfl
        | null => rfl
        | bool b => rfl
        | num q => rfl
        | arr xs => rfl
        | obj kvs => rfl
    | null => rfl
    | bool b => rfl
    | num q => rfl
    | str s => rfl
    | obj kvs => rfl

/-- One turn of the loop of `getMethodInfo`, against the specification: the package offers
the method and it is returned; or it does not and the loop goes on; or the loop panics, on a
package that has a `services` array and either no string `name` or a service without a
`functions` array. -/
theorem getMethodInfo_step (v : Json) (rest : List Json) (S M : String) :
    (∃ info, offeredMethod S M v = some info ∧
      getMethodInfo (v :: rest) S M = some (.ok info)) ∨
    (offeredMethod S M v = none ∧ getMethodInfo (v :: rest) S M = getMethodInfo rest S M) ∨
    (getMethodInfo (v :: rest) S M = none ∧
      ∃ pkg services, v = Json.obj pkg ∧ pkg.lookup servicesKey = some (.arr services) ∧
        ((∀ name, pkg.lookup nameKey ≠ some (.str name)) ∨
          ∃ service, Json.obj service ∈ services ∧
            ∀ functions, service.lookup functionsKey ≠ some (.arr functions))) := by
  cases v with
  | obj pkg =>
    rw [getMethodInfo_cons_obj]
    cases hs : pkg.lookup servicesKey with
    | none => exact Or.inr (Or.inl ⟨by simp [offeredMethod, hs], rfl⟩)
    | some x =>
      cases x with
      | arr svcs =>
        simp only
        cases hn : pkg.lookup nameKey with
        | none =>
          exact Or.inr (Or.inr ⟨rfl, pkg, svcs, rfl, hs, Or.inl (by simp [hn])⟩)
        | some y =>
          cases y with
          | str pkgName =>
            simp only
            cases hf : findByField svcs nameKey (pkgName ++ "." ++ S) with
            | none => exact Or.inr (Or.inl ⟨by simp [offeredMethod, hs, hn, hf], rfl⟩)
            | some svc =>
              simp only
              have hmem := mem_of_findByField svcs nameKey _ svc hf
              cases hl : svc.lookup functionsKey with
              | none =>
                exact Or.inr (Or.inr ⟨rfl, pkg, svcs, rfl, hs,
                  Or.inr ⟨svc, hmem, by simp [hl]⟩⟩)
              | some z =>
                cases z with
                | arr functions =>
                  simp only
                  cases hm : findByField functions nameKey M with
                  | none =>
                    exact Or.inr (Or.inl ⟨by simp [offeredMethod, hs, hn, hf, hl, hm], rfl⟩)
                  | some info =>
                    exact Or.inl ⟨info, by simp [offeredMethod, hs, hn, hf, hl, hm], rfl⟩
                | null =>
                  exact Or.inr (Or.inr ⟨rfl, pkg, svcs, rfl, hs,
                    Or.inr ⟨svc, hmem, by simp [hl]⟩⟩)
                | bool b =>
                  exact Or.inr (Or.inr ⟨rfl, pkg, svcs, rfl, hs,
                    Or.inr ⟨svc, hmem, by simp [hl]⟩⟩)
                | num q =>
                  exact Or.inr (Or.inr ⟨rfl, pkg, svcs, rfl, hs,
                    Or.inr ⟨svc, hmem, by simp [hl]⟩⟩)
                | str s =>
                  exact Or.inr (Or.inr ⟨rfl, pkg, svcs, rfl, hs,
                    Or.inr ⟨svc, hmem, by simp [hl]⟩⟩)
                | obj kvs =>
                  exact Or.inr (Or.inr ⟨rfl, pkg, svcs, rfl, hs,
                    Or.inr ⟨svc, hmem, by simp [hl]⟩⟩)
          | null => exact Or.inr (Or.inr ⟨rfl, pkg, svcs, rfl, hs, Or.inl (by simp [hn])⟩)
          | bool b => exact Or.inr (Or.inr ⟨rfl, pkg, svcs, rfl, hs, Or.inl (by simp [hn])⟩)
          | num q => exact Or.inr (Or.inr ⟨rfl, pkg, svcs, rfl, hs, Or.inl (by simp [hn])⟩)
          | arr xs => exact Or.inr (Or.inr ⟨rfl, pkg, svcs, rfl, hs, Or.inl (by simp [hn])⟩)
          | obj kvs => exact Or.inr (Or.inr ⟨rfl, pkg, svcs, rfl, hs, Or.inl (by simp [hn])⟩)
      | null => exact Or.inr (Or.inl ⟨by simp [offeredMethod, hs], rfl⟩)
      | bool b => exact Or.inr (Or.inl ⟨by simp [offeredMethod, hs], rfl⟩)
      | num q => exact Or.inr (Or.inl ⟨by simp [offeredMethod, hs], rfl⟩)
      | str s => exact Or.inr (Or.inl ⟨by simp [offeredMethod, hs], rfl⟩)
      | obj kvs => exact Or.inr (Or.inl ⟨by simp [offeredMethod, hs], rfl⟩)
  | null => exact Or.inr (Or.inl ⟨rfl, getMethodInfo_cons_skip _ _ _ _ rfl⟩)
  | bool b => exact Or.inr (Or.inl ⟨rfl, getMethodInfo_cons_skip _ _ _ _ rfl⟩)
  | num q => exact Or.inr (Or.inl ⟨rfl, getMethodInfo_cons_skip _ _ _ _ rfl⟩)
  | str s => exact Or.inr (Or.inl ⟨rfl, getMethodInfo_cons_skip _ _ _ _ rfl⟩)
  | arr xs => exact Or.inr (Or.inl ⟨rfl, getMethodInfo_cons_skip _ _ _ _ rfl⟩)

/-- Whenever `getMethodInfo` returns, it returns what the specification says. -/
theorem getMethodInfo_of_some (metadata : List Json) (S M : String) :
    ∀ r, getMethodInfo metadata S M = some r → r = methodInfoSpec metadata S M := by
  induction metadata with
  | nil =>
    intro r h
    simp only [getMethodInfo, Option.some.injEq] at h
    rw [← h]
    rfl
  | cons v rest ih =>
    intro r h
    rcases getMethodInfo_step v rest S M with ⟨info, ho, hg⟩ | ⟨ho, hg⟩ | ⟨hg, _⟩
    · rw [hg] at h
      rw [methodInfoSpec_cons_some v rest S M info ho]
      exact (Option.some.inj h).symm
    · rw [hg] at h
      rw [methodInfoSpec_cons_none v rest S M ho]
      exact ih r h
    · rw [hg] at h
      cases h

/-- On a metadata document of the data model's shape `getMethodInfo` does not panic. -/
theorem getMethodInfo_total (metadata : List Json) (S M : String)
    (hwf : ServicesWellFormed metadata) :
    getMethodInfo metadata S M = some (methodInfoSpec metadata S M) := by
  induction metadata with
  | nil => rfl
  | cons v rest ih =>
    have hrest : ServicesWellFormed rest := fun pkg services hp hs =>
      hwf pkg services (List.mem_cons_of_mem _ hp) hs
    rcases getMethodInfo_step v rest S M with ⟨info, ho, hg⟩ | ⟨ho, hg⟩ | ⟨_, pkg, svcs, hv, hs, hbad⟩
    · rw [hg, methodInfoSpec_cons_some v rest S M info ho]
    · rw [hg, methodInfoSpec_cons_none v rest S M ho]
      exact ih hrest
    · exfalso
      obtain ⟨⟨name, hname⟩, hfun⟩ := hwf pkg svcs (by rw [hv]; exact List.mem_cons_self _ _) hs
      rcases hbad with hbad | ⟨service, hmem, hbad⟩
      · exact hbad name hname
      · obtain ⟨functions, hfunctions⟩ := hfun service hmem
        exact hbad functions hfunctions

/-- The first object found by the array search is the first element of the array that is an
object with the searched value at the field: no earlier element is one. -/
theorem findByField_first (arr : List Json) (key val : String) (o : Object)
    (h : findByField arr key val = some o) :
    ∃ pre post, arr = pre ++ Json.obj o :: post ∧ o.lookup key = some (.str val) ∧
      ∀ v ∈ pre, hasField key val v = false := by
  unfold findByField at h
  cases hf : arr.find? (hasField key val) with
  | none => rw [hf] at h; simp at h
  | some x =>
    rw [hf] at h
    cases x with
    | obj o1 =>
      simp only [Option.some.injEq] at h
      subst h
      have hp := List.find?_some hf
      obtain ⟨_, pre, post, harr, hpre⟩ := List.find?_eq_some.mp hf
      refine ⟨pre, post, harr, ?_, ?_⟩
      · unfold hasField at hp
        simp only at hp
        cases hl : o1.lookup key with
        | none => rw [hl] at hp; simp at hp
        | some y =>
          rw [hl] at hp
          cases y with
          | str s => simp only [beq_iff_eq] at hp; rw [hp]
          | null => simp at hp
          | bool b => simp at hp
          | num q => simp at hp
          | arr xs => simp at hp
          | obj kvs => simp at hp
      · intro v hv
        simpa using hpre v hv
    | null => simp at h
    | bool b => simp at h
    | num q => simp at h
    | str s => simp at h
    | arr xs => simp at h

/-- C22. The metadata index: for every metadata array, service name `S` and method name `M`,
whenever `getMethodInfo` returns, and on every metadata document of the data model's shape it
does return, its result is that of the specification: the function descriptor named `M`
(the first one) in the first entry named `<package name>.S` of the `services` array of the
first package, in metadata order, that has such a service with such a function, a package
without a `services` array being skipped; and when no package qualifies, the error
`S::M not found!`, which carries both names. The array search is the linear scan of the
specification. -/
theorem getMethodInfo_spec (metadata : List Json) (S M : String) :
    (∀ r, getMethodInfo metadata S M = some r → r = methodInfoSpec metadata S M) ∧
    (ServicesWellFormed metadata →
      getMethodInfo metadata S M = some (methodInfoSpec metadata S M)) ∧
    (∀ info, methodInfoSpec metadata S M = .ok info →
      ∃ pre v post, metadata = pre ++ v :: post ∧ offeredMethod S M v = some info ∧
        ∀ w ∈ pre, offeredMethod S M w = none) ∧
    ((∀ v ∈ metadata, offeredMethod S M v = none) →
      methodInfoSpec metadata S M = .error (Err.New (S ++ "::" ++ M ++ " not found!"))) ∧
    (∀ (arr : List Json) (key val : String),
      findInJsonArray arr key val = findByField arr key val) := by
  refine ⟨getMethodInfo_of_some metadata S M, getMethodInfo_total metadata S M, ?_, ?_,
    findInJsonArray_eq_findByField⟩
  · intro info h
    unfold methodInfoSpec at h
    cases hf : metadata.findSome? (offeredMethod S M) with
    | none => rw [hf] at h; simp at h
    | some info1 =>
      rw [hf] at h
      simp only [Except.ok.injEq] at h
      subst h
      obtain ⟨pre, v, post, hm, ho, hpre⟩ := List.findSome?_eq_some_iff.mp hf
      exact ⟨pre, v, post, hm, ho, fun w hw => hpre w hw⟩
  · intro h
    unfold methodInfoSpec
    rw [List.findSome?_eq_none_iff.mpr h]

theorem getMethodInfo_spec_witness :
    ServicesWellFormed exampleMetadata ∧
    getMethodInfo exampleMetadata "Svc" "ping" =
      some (methodInfoSpec exampleMetadata "Svc" "ping") ∧
    methodInfoSpec exampleMetadata "Svc" "ping" = .ok exampleMethodPing ∧
    methodInfoSpec exampleMetadata "Svc" "nope" = .error (Err.New "Svc::nope not found!") := by
  have hwf : ServicesWellFormed exampleMetadata := by
    intro pkg services hp hs
    simp only [exampleMetadata, List.mem_singleton, Json.obj.injEq] at hp
    subst hp
    have hs2 : some (Json.arr [.obj [("name", .str "pkg.Svc"), ("functions", .arr [
        .obj exampleMethodM, .obj exampleMethodPing, .obj exampleMethodPut])]]) =
        some (Json.arr services) := hs
    simp only [Option.some.injEq, Json.arr.injEq] at hs2
    subst hs2
    refine ⟨⟨"pkg", rfl⟩, ?_⟩
    intro service hsvc
    simp only [List.mem_singleton, Json.obj.injEq] at hsvc
    subst hsvc
    exact ⟨_, rfl⟩
  exact ⟨hwf, (getMethodInfo_spec exampleMetadata "Svc" "ping").2.1 hwf, rfl, rfl⟩

/-! ## C23: the linearizer returns on well-formed metadata -/

theorem wfDesc_succ (P : WIJSONProtocol) (depth : Nat) (fieldInfo : Object)
    (fieldTypeIdKey fieldTypeKey : String) :
    wfDesc P (depth + 1) fieldInfo fieldTypeIdKey fieldTypeKey =
      match getStringVal fieldInfo [fieldTypeIdKey] with
      | none => false
      | some fieldType =>
        match StringToTypeId fieldType with
        | (TType.STRUCT, none) =>
          match getJsonVal fieldInfo [fieldTypeKey] with
          | none => false
          | some elemType => (getStructFieldList P elemType).isSome
        | (TType.MAP, none) =>
          match getJsonVal fieldInfo [fieldTypeKey] with
          | none => false
          | some info =>
            wfDesc P depth info keyTypeIdKey keyTypeKey &&
              wfDesc P depth info valueTypeIdKey valueTypeKey
        | (TType.SET, none) =>
          match getJsonVal fieldInfo [fieldTypeKey] with
          | none => false
          | some info => wfDesc P depth info elemTypeIdKey elemTypeKey
        | (TType.LIST, none) =>
          match getJsonVal fieldInfo [fieldTypeKey] with
          | none => false
          | some info => wfDesc P depth info elemTypeIdKey elemTypeKey
        | _ => true := by
  rfl

/-- A well-formed descriptor has a string type id. -/
theorem wfDesc_typeId {P : WIJSONProtocol} {fi : Object} {k1 k2 : String}
    (h : WfDesc P fi k1 k2) : ∃ ft, getStringVal fi [k1] = some ft := by
  obtain ⟨d, hd⟩ := h
  cases d with
  | zero => simp [wfDesc] at hd
  | succ d =>
    rw [wfDesc_succ] at hd
    cases hg : getStringVal fi [k1] with
    | none => rw [hg] at hd; simp at hd
    | some ft => exact ⟨ft, rfl⟩

/-- A well-formed struct, union or exception descriptor resolves to a field list. -/
theorem wfDesc_struct {P : WIJSONProtocol} {fi : Object} {k1 k2 ft : String}
    (h : WfDesc P fi k1 k2) (hg : getStringVal fi [k1] = some ft)
    (hs : StringToTypeId ft = (TType.STRUCT, none)) :
    ∃ et fl, getJsonVal fi [k2] = some et ∧ getStructFieldList P et = some fl := by
  obtain ⟨d, hd⟩ := h
  cases d with
  | zero => simp [wfDesc] at hd
  | succ d =>
    rw [wfDesc_succ, hg] at hd
    simp only [hs] at hd
    cases hj : getJsonVal fi [k2] with
    | none => rw [hj] at hd; simp at hd
    | some et =>
      rw [hj] at hd
      simp only at hd
      obtain ⟨fl, hfl⟩ := Option.isSome_iff_exists.mp hd
      exact ⟨et, fl, rfl, hfl⟩

/-- A well-formed map descriptor has well-formed key and value descriptors. -/
theorem wfDesc_map {P : WIJSONProtocol} {fi : Object} {k1 k2 ft : String}
    (h : WfDesc P fi k1 k2) (hg : getStringVal fi [k1] = some ft)
    (hs : StringToTypeId ft = (TType.MAP, none)) :
    ∃ info, getJsonVal fi [k2] = some info ∧ WfDesc P info keyTypeIdKey keyTypeKey ∧
      WfDesc P info valueTypeIdKey valueTypeKey := by
  obtain ⟨d, hd⟩ := h
  cases d with
  | zero => simp [wfDesc] at hd
  | succ d =>
    rw [wfDesc_succ, hg] at hd
    simp only [hs] at hd
    cases hj : getJsonVal fi [k2] with
    | none => rw [hj] at hd; simp at hd
    | some info =>
      rw [hj] at hd
      simp only [Bool.and_eq_true] at hd
      exact ⟨info, rfl, ⟨d, hd.1⟩, ⟨d, hd.2⟩⟩

/-- A well-formed list or set descriptor has a well-formed element descriptor. -/
theorem wfDesc_list {P : WIJSONProtocol} {fi : Object} {k1 k2 ft : String}
    (h : WfDesc P fi k1 k2) (hg : getStringVal fi [k1] = some ft)
    (hs : StringToTypeId ft = (TType.LIST, none) ∨ StringToTypeId ft = (TType.SET, none)) :
    ∃ info, getJsonVal fi [k2] = some info ∧ WfDesc P info elemTypeIdKey elemTypeKey := by
  obtain ⟨d, hd⟩ := h
  cases d with
  | zero => simp [wfDesc] at hd
  | succ d =>
    rw [wfDesc_succ, hg] at hd
    rcases hs with hs | hs <;>
    · simp only [hs] at hd
      cases hj : getJsonVal fi [k2] with
      | none => rw [hj] at hd; simp at hd
      | some info =>
        rw [hj] at hd
        exact ⟨info, rfl, ⟨d, hd⟩⟩

/-- Go `getStructFieldList` reads nothing of the protocol state but the metadata. -/
theorem getStructFieldList_congr (p P : WIJSONProtocol) (h : p.metadata = P.metadata)
    (et : Object) : getStructFieldList p et = getStructFieldList P et := by
  unfold getStructFieldList getInfo
  rw [h]

theorem getArrayVal_nil (k : String) : getArrayVal [] [k] = none := rfl

/-- A field list that `getStructFieldList` returns is the `fields` array of a struct of a
package of the metadata. -/
theorem getStructFieldList_mem (P : WIJSONProtocol) (et : Object) (fl : List Json)
    (h : getStructFieldList P et = some fl) :
    ∃ pkg structs info, Json.obj pkg ∈ P.metadata ∧ getArrayVal pkg [structsKey] = some structs ∧
      Json.obj info ∈ structs ∧ getArrayVal info [fieldsKey] = some fl := by
  unfold getStructFieldList at h
  cases hc : getStringVal et [classKey] with
  | none => rw [hc] at h; simp at h
  | some cls =>
    rw [hc] at h
    simp only at h
    unfold getInfo at h
    cases hsp : splitDot [] cls.data with
    | nil => rw [hsp] at h; simp at h
    | cons p0 tl =>
      cases tl with
      | nil => rw [hsp] at h; simp at h
      | cons p1 tl2 =>
        rw [hsp] at h
        simp only at h
        cases hpk : findInJsonArray P.metadata nameKey p0 with
        | none =>
          rw [hpk] at h
          simp only [Option.getD_none, getArrayVal_nil] at h
          simp at h
        | some pkg =>
          rw [hpk] at h
          simp only [Option.getD_some] at h
          cases hst : getArrayVal pkg [structsKey] with
          | none => rw [hst] at h; simp at h
          | some structs =>
            rw [hst] at h
            simp only at h
            cases hin : findInJsonArray structs nameKey p1 with
            | none =>
              rw [hin] at h
              simp only [Option.getD_none, getArrayVal_nil] at h
              simp at h
            | some info =>
              rw [hin] at h
              simp only [Option.getD_some] at h
              exact ⟨pkg, structs, info, (findInJsonArray_some _ _ _ _ hpk).1, hst,
                (findInJsonArray_some _ _ _ _ hin).1, h⟩

theorem metadata_add (p : WIJSONProtocol) (toks : List Token) :
    (add p toks).metadata = p.metadata := rfl

theorem noPanic_parseN (P : WIJSONProtocol) (hmeta : WfMetadata P) (k : Nat)
    (ih : NoPanic P k) (p : WIJSONProtocol) (fi v k1 k2) (hp : p.metadata = P.metadata)
    (hwf : WfDesc P fi k1 k2) : parseN (k + 1) p fi v k1 k2 ≠ .panic := by
  obtain ⟨_, hM, _, hL, _, hS, _⟩ := ih
  obtain ⟨ft, hg⟩ := wfDesc_typeId hwf
  rw [parseN_view, hg]
  simp only
  rcases hs : StringToTypeId ft with ⟨t, _ | e⟩
  · cases t
    case STOP => exact absurd rfl (StringToTypeId_ne_stop ft _ hs)
    case STRUCT =>
      obtain ⟨et, fl, hj, hfl⟩ := wfDesc_struct hwf hg hs
      simp only [hj, getStructFieldList_congr p P hp et, hfl]
      obtain ⟨pkg, structs, info, h1, h2, h3, h4⟩ := getStructFieldList_mem P et fl hfl
      exact hS p fl v hp (hmeta pkg structs info fl h1 h2 h3 h4)
    case MAP =>
      obtain ⟨info, hj, hk, hv⟩ := wfDesc_map hwf hg hs
      simp only [hj]
      exact hM p info v hp hk hv
    case SET =>
      obtain ⟨info, hj, he⟩ := wfDesc_list hwf hg (Or.inr hs)
      simp only [hj]
      exact hL p info v hp he
    case LIST =>
      obtain ⟨info, hj, he⟩ := wfDesc_list hwf hg (Or.inl hs)
      simp only [hj]
      exact hL p info v hp he
    all_goals cases v <;> simp
  · simp

theorem noPanic_parseMapN (P : WIJSONProtocol) (k : Nat) (ih : NoPanic P k)
    (p : WIJSONProtocol) (fi v) (hp : p.metadata = P.metadata)
    (hk : WfDesc P fi keyTypeIdKey keyTypeKey) (hv : WfDesc P fi valueTypeIdKey valueTypeKey) :
    parseMapN (k + 1) p fi v ≠ .panic := by
  obtain ⟨_, _, hR, _, _, _, _⟩ := ih
  obtain ⟨kid, hkid⟩ := wfDesc_typeId hk
  obtain ⟨vid, hvid⟩ := wfDesc_typeId hv
  rw [parseMapN_succ]
  cases ho : toJsonCheck v with
  | none => simp
  | some o =>
    simp only [hkid]
    rcases hs : StringToTypeId kid with ⟨t, _ | e⟩
    · simp only [hvid]
      rcases hs2 : StringToTypeId vid with ⟨t2, _ | e2⟩
      · simp only
        exact hR _ fi o (by rw [metadata_add, hp]) hk hv
      · simp
    · simp

theorem noPanic_parseListN (P : WIJSONProtocol) (k : Nat) (ih : NoPanic P k)
    (p : WIJSONProtocol) (fi v) (hp : p.metadata = P.metadata)
    (he : WfDesc P fi elemTypeIdKey elemTypeKey) :
    parseListN (k + 1) p fi v ≠ .panic := by
  obtain ⟨_, _, _, _, hR, _, _⟩ := ih
  obtain ⟨eid, heid⟩ := wfDesc_typeId he
  rw [parseListN_succ]
  cases ho : ToJsonArrayCheck v with
  | none => simp
  | some a =>
    simp only [heid]
    rcases hs : StringToTypeId eid with ⟨t, _ | e⟩
    · simp only
      exact hR _ fi a (by rw [metadata_add, hp]) he
    · simp

theorem noPanic_parseStructN (P : WIJSONProtocol) (k : Nat) (ih : NoPanic P k)
    (p : WIJSONProtocol) (fl v) (hp : p.metadata = P.metadata) (hfl : WfFields P fl) :
    parseStructN (k + 1) p fl v ≠ .panic := by
  obtain ⟨_, _, _, _, _, _, hR⟩ := ih
  rw [parseStructN_succ]
  cases ho : toJsonCheck v with
  | none => simp
  | some o =>
    simp only
    cases hr : parseStructRangeN k p fl o with
    | panic => exact absurd hr (hR p fl o hp hfl)
    | exhausted => simp
    | ret r =>
      obtain ⟨e, q⟩ := r
      cases e <;> simp

theorem metadata_of_appends (p q P : WIJSONProtocol)
    (hp : p.metadata = P.metadata) (h : ∃ toks, q = add p toks) :
    q.metadata = P.metadata := by
  obtain ⟨toks, rfl⟩ := h
  rw [metadata_add, hp]

theorem noPanic_parseListRangeN (P : WIJSONProtocol) (k : Nat) (ih : NoPanic P k)
    (p : WIJSONProtocol) (fi a) (hp : p.metadata = P.metadata)
    (he : WfDesc P fi elemTypeIdKey elemTypeKey) :
    parseListRangeN (k + 1) p fi a ≠ .panic := by
  obtain ⟨hP, _, _, _, hR, _, _⟩ := ih
  cases a with
  | nil => rw [parseListRangeN_nil]; simp
  | cons value rest =>
    rw [parseListRangeN_cons]
    cases hr : parseN k p fi value elemTypeIdKey elemTypeKey with
    | panic => exact absurd hr (hP p fi value _ _ hp he)
    | exhausted => simp
    | ret r =>
      obtain ⟨e, q⟩ := r
      cases e with
      | some e => simp
      | none =>
        simp only
        exact hR q fi rest
          (metadata_of_appends p q P hp ((appends k).1 _ _ _ _ _ _ _ hr)) he

theorem noPanic_parseMapRangeN (P : WIJSONProtocol) (k : Nat) (ih : NoPanic P k)
    (p : WIJSONProtocol) (fi o) (hp : p.metadata = P.metadata)
    (hk : WfDesc P fi keyTypeIdKey keyTypeKey) (hv : WfDesc P fi valueTypeIdKey valueTypeKey) :
    parseMapRangeN (k + 1) p fi o ≠ .panic := by
  obtain ⟨hP, _, hR, _, _, _, _⟩ := ih
  cases o with
  | nil => rw [parseMapRangeN_nil]; simp
  | cons kv rest =>
    obtain ⟨key, value⟩ := kv
    rw [parseMapRangeN_cons]
    cases hr : parseN k p fi (Json.str key) keyTypeIdKey keyTypeKey with
    | panic => exact absurd hr (hP p fi _ _ _ hp hk)
    | exhausted => simp
    | ret r =>
      obtain ⟨e, q⟩ := r
      cases e with
      | some e => simp
      | none =>
        simp only
        have hq : q.metadata = P.metadata :=
          metadata_of_appends p q P hp ((appends k).1 _ _ _ _ _ _ _ hr)
        cases hr2 : parseN k q fi value valueTypeIdKey valueTypeKey with
        | panic => exact absurd hr2 (hP q fi _ _ _ hq hv)
        | exhausted => simp
        | ret r2 =>
          obtain ⟨e2, q2⟩ := r2
          cases e2 with
          | some e2 => simp
          | none =>
            simp only
            exact hR q2 fi rest
              (metadata_of_appends q q2 P hq ((appends k).1 _ _ _ _ _ _ _ hr2)) hk hv

theorem noPanic_parseStructRangeN (P : WIJSONProtocol) (k : Nat) (ih : NoPanic P k)
    (p : WIJSONProtocol) (fl o) (hp : p.metadata = P.metadata) (hfl : WfFields P fl) :
    parseStructRangeN (k + 1) p fl o ≠ .panic := by
  obtain ⟨hP, _, _, _, _, _, hR⟩ := ih
  cases o with
  | nil => rw [parseStructRangeN_nil]; simp
  | cons kv rest =>
    obtain ⟨key, value⟩ := kv
    rw [parseStructRangeN_cons]
    cases hf : findInJsonArray fl nameKey key with
    | none => simp
    | some fi =>
      obtain ⟨hkey, hdesc⟩ := hfl fi (findInJsonArray_some _ _ _ _ hf).1
      obtain ⟨ft, hg⟩ := wfDesc_typeId hdesc
      obtain ⟨key16, hkey16⟩ := Option.isSome_iff_exists.mp hkey
      simp only [hg]
      rcases hs : StringToTypeId ft with ⟨t, _ | e⟩
      · simp only [hkey16]
        cases hr : parseN k (add p [Token.string key, Token.TType t, Token.int16 key16]) fi value
            typeIdKey typeKey with
        | panic => exact absurd hr (hP _ fi _ _ _ (by rw [metadata_add, hp]) hdesc)
        | exhausted => simp
        | ret r =>
          obtain ⟨e, q⟩ := r
          cases e with
          | some e => simp
          | none =>
            simp only
            exact hR q fl rest
              (metadata_of_appends _ q P (by rw [metadata_add, hp])
                ((appends k).1 _ _ _ _ _ _ _ hr)) hfl
      · simp

/-- Whatever the fuel, the linearizer does not panic on well-formed metadata and
descriptors. -/
theorem noPanic (P : WIJSONProtocol) (hmeta : WfMetadata P) (n : Nat) : NoPanic P n := by
  induction n with
  | zero =>
    refine ⟨?_, ?_, ?_, ?_, ?_, ?_, ?_⟩ <;> intros <;>
      simp [parseN, parseMapN, parseMapRangeN, parseListN, parseListRangeN, parseStructN,
        parseStructRangeN]
  | succ k ih =>
    exact ⟨noPanic_parseN P hmeta k ih, noPanic_parseMapN P k ih,
      noPanic_parseMapRangeN P k ih, noPanic_parseListN P k ih,
      noPanic_parseListRangeN P k ih, noPanic_parseStructN P k ih,
      noPanic_parseStructRangeN P k ih⟩

/-! ## C23: termination -/

/-- A run that neither panics nor runs out of fuel returns. -/
theorem ret_of_ne {α : Type} (r : Run α) (h1 : r ≠ .panic) (h2 : r ≠ .exhausted) :
    ∃ a, r = .ret a := by
  cases r with
  | ret a => exact ⟨a, rfl⟩
  | panic => exact absurd rfl h1
  | exhausted => exact absurd rfl h2

theorem parse_ne_exhausted (p : WIJSONProtocol) (fi : Object) (v : Json) (k1 k2 : String) :
    parse p fi v k1 k2 ≠ .exhausted :=
  ((fuelOk _).1 p fi v k1 k2 (Nat.lt_succ_self _)).1

theorem parseStruct_ne_exhausted (p : WIJSONProtocol) (fl : List Json) (v : Json) :
    parseStruct p fl v ≠ .exhausted :=
  ((fuelOk _).2.2.2.2.2.1 p fl v (Nat.lt_succ_self _)).1

theorem parseMap_ne_exhausted (p : WIJSONProtocol) (fi : Object) (v : Json) :
    parseMap p fi v ≠ .exhausted :=
  ((fuelOk _).2.1 p fi v (Nat.lt_succ_self _)).1

theorem parseList_ne_exhausted (p : WIJSONProtocol) (fi : Object) (v : Json) :
    parseList p fi v ≠ .exhausted :=
  ((fuelOk _).2.2.2.1 p fi v (Nat.lt_succ_self _)).1

/-- C23. The linearizer terminates. For every protocol state (whatever its metadata, cyclic
struct definitions included), every descriptor and every JSON value: (1) the recursion of
`parse`, `parseStruct`, `parseMap` and `parseList` is bounded by the size of the JSON value
alone, since every recursive call is made on a strict sub-value: run with any fuel above
twice the size of the value they give one and the same outcome, and that outcome is never
`exhausted`; (2) on a metadata document and descriptors of the data model's shape that
outcome is a return, with tokens or with an error. (On an ill-formed descriptor the only
other outcome is the panic of a failed type assertion.) -/
theorem linearizer_terminates (p : WIJSONProtocol) (fieldInfo : Object)
    (fieldsList : List Json) (value : Json) (k1 k2 : String) :
    (parse p fieldInfo value k1 k2 ≠ .exhausted ∧
      ∀ n, 2 * value.size + 1 < n →
        parseN n p fieldInfo value k1 k2 = parse p fieldInfo value k1 k2) ∧
    (parseStruct p fieldsList value ≠ .exhausted ∧
      ∀ n, 2 * value.size < n →
        parseStructN n p fieldsList value = parseStruct p fieldsList value) ∧
    (parseMap p fieldInfo value ≠ .exhausted ∧
      ∀ n, 2 * value.size < n → parseMapN n p fieldInfo value = parseMap p fieldInfo value) ∧
    (parseList p fieldInfo value ≠ .exhausted ∧
      ∀ n, 2 * value.size < n → parseListN n p fieldInfo value = parseList p fieldInfo value) ∧
    (WfMetadata p →
      (WfDesc p fieldInfo k1 k2 → ∃ err q, parse p fieldInfo value k1 k2 = .ret (err, q)) ∧
      (WfFields p fieldsList → ∃ err q, parseStruct p fieldsList value = .ret (err, q)) ∧
      (WfDesc p fieldInfo keyTypeIdKey keyTypeKey →
        WfDesc p fieldInfo valueTypeIdKey valueTypeKey →
        ∃ err q, parseMap p fieldInfo value = .ret (err, q)) ∧
      (WfDesc p fieldInfo elemTypeIdKey elemTypeKey →
        ∃ err q, parseList p fieldInfo value = .ret (err, q))) := by
  refine ⟨⟨parse_ne_exhausted _ _ _ _ _, ?_⟩, ⟨parseStruct_ne_exhausted _ _ _, ?_⟩,
    ⟨parseMap_ne_exhausted _ _ _, ?_⟩, ⟨parseList_ne_exhausted _ _ _, ?_⟩, ?_⟩
  · intro n hn
    exact parseN_fuel p fieldInfo value k1 k2 (Nat.lt_succ_self _) hn
  · intro n hn
    exact parseStructN_fuel p fieldsList value (Nat.lt_succ_self _) hn
  · intro n hn
    exact parseMapN_fuel p fieldInfo value (Nat.lt_succ_self _) hn
  · intro n hn
    exact parseListN_fuel p fieldInfo value (Nat.lt_succ_self _) hn
  · intro hmeta
    refine ⟨?_, ?_, ?_, ?_⟩
    · intro hwf
      obtain ⟨⟨err, q⟩, h⟩ := ret_of_ne _
        ((noPanic p hmeta _).1 p fieldInfo value k1 k2 rfl hwf) (parse_ne_exhausted _ _ _ _ _)
      exact ⟨err, q, h⟩
    · intro hwf
      obtain ⟨⟨err, q⟩, h⟩ := ret_of_ne _
        ((noPanic p hmeta _).2.2.2.2.2.1 p fieldsList value rfl hwf)
        (parseStruct_ne_exhausted _ _ _)
      exact ⟨err, q, h⟩
    · intro hk hv
      obtain ⟨⟨err, q⟩, h⟩ := ret_of_ne _
        ((noPanic p hmeta _).2.1 p fieldInfo value rfl hk hv) (parseMap_ne_exhausted _ _ _)
      exact ⟨err, q, h⟩
    · intro he
      obtain ⟨⟨err, q⟩, h⟩ := ret_of_ne _
        ((noPanic p hmeta _).2.2.2.1 p fieldInfo value rfl he) (parseList_ne_exhausted _ _ _)
      exact ⟨err, q, h⟩

/-- The cyclic metadata of the example is well formed. -/
theorem exampleCyclic_wf : WfMetadata exampleCyclicProtocol := by
  intro pkg structs info fl hpkg hst hinfo hfl fi hfi
  simp only [exampleCyclicProtocol, NewWIJSONProtocol, exampleCyclicMetadata,
    List.mem_singleton, Json.obj.injEq] at hpkg
  subst hpkg
  have hst2 : some [Json.obj [("name", .str "Ping"), ("fields", .arr [.obj exampleFieldPong])],
      Json.obj [("name", .str "Pong"),
        ("fields", .arr [.obj exampleFieldPing, .obj exampleFieldN])]] = some structs := hst
  simp only [Option.some.injEq] at hst2
  subst hst2
  simp only [List.mem_cons, List.mem_singleton, List.not_mem_nil, or_false, Json.obj.injEq]
    at hinfo
  rcases hinfo with rfl | rfl
  · have hfl2 : some [Json.obj exampleFieldPong] = some fl := hfl
    simp only [Option.some.injEq] at hfl2
    subst hfl2
    simp only [List.mem_singleton, Json.obj.injEq] at hfi
    subst hfi
    exact ⟨rfl, 1, rfl⟩
  · have hfl2 : some [Json.obj exampleFieldPing, Json.obj exampleFieldN] = some fl := hfl
    simp only [Option.some.injEq] at hfl2
    subst hfl2
    simp only [List.mem_cons, List.mem_singleton, List.not_mem_nil, or_false, Json.obj.injEq]
      at hfi
    rcases hfi with rfl | rfl
    · exact ⟨rfl, 1, rfl⟩
    · exact ⟨rfl, 1, rfl⟩

theorem linearizer_terminates_witness :
    (WfMetadata exampleCyclicProtocol ∧
      WfDesc exampleCyclicProtocol exampleFieldPing typeIdKey typeKey) ∧
    (∃ err q, parse exampleCyclicProtocol exampleFieldPing examplePingValue typeIdKey typeKey =
      .ret (err, q)) ∧
    parse exampleCyclicProtocol exampleFieldPing examplePingValue typeIdKey typeKey =
      .ret (none, add exampleCyclicProtocol
        [.string "next", .TType .STRUCT, .int16 1,
         .string "n", .TType .I32, .int16 2, .int32 5,
         .string "next", .TType .STRUCT, .int16 1,
         .string "", .TType .STOP, .int16 (-1),
         .string "", .TType .STOP, .int16 (-1),
         .string "", .TType .STOP, .int16 (-1)]) :=
  ⟨⟨exampleCyclic_wf, 1, rfl⟩,
    ((linearizer_terminates exampleCyclicProtocol exampleFieldPing [] examplePingValue
      typeIdKey typeKey).2.2.2.2 exampleCyclic_wf).1 ⟨1, rfl⟩,
    rfl⟩

/-! ## The REPLY branches of `ReadMessageBegin`, whatever the linearizer returns -/

/-- The REPLY branch with `success`: the result of `parse` on the success value becomes the
deferred error, and the STOP triple follows whatever `parse` appended. -/
theorem readMessageBegin_reply_success (protocol : WIJSONProtocol) (request : Object)
    (name : String) (methodInfo : Object) (result : Object) (returnTypeId : String)
    (returnType : TType) (err : Option Err) (q0 : WIJSONProtocol)
    (hname : getDefaultStringVal request methodKey "" = some name)
    (hlookup : getMethodInfo protocol.metadata protocol.service name = some (.ok methodInfo))
    (hcall : hasKey request argumentsKey = false)
    (hresult : getJsonVal request [resultKey] = some result)
    (hsuccess : hasKey result successKey = true)
    (hid : getStringVal methodInfo [returnTypeIdKey] = some returnTypeId)
    (htag : StringToTypeId returnTypeId = (returnType, none))
    (hparse : parse (cleared { protocol with request := request }) methodInfo
      (Object.index result successKey) returnTypeIdKey returnTypeKey = .ret (err, q0)) :
    ReadMessageBegin protocol none (.ok (.obj request)) =
      .ret ((name, TMessageType.REPLY, 1, none),
        { protocol with
          request := request
          params := protocol.params ++
            ([Token.string "", Token.TType returnType, Token.int16 0] ++ q0.params ++ stopField)
          err := err }) := by
  have hr := hasKey_of_getJsonVal request resultKey result hresult
  have hp := parse_of_cleared
    (add { protocol with request := request }
      [Token.string "", Token.TType returnType, Token.int16 0])
    methodInfo (Object.index result successKey) returnTypeIdKey returnTypeKey err q0
    (by rw [cleared_add]; exact hparse)
  simp only [ReadMessageBegin, NewJson, hname, hlookup, getMessageTypeAndSeq, hcall, hr, hresult,
    hsuccess, hid, htag, hp, Except.toOption]
  simp [add]

/-- The REPLY branch with `success` and a return type id that `StringToTypeId` does not know:
the error is deferred and nothing is appended. -/
theorem readMessageBegin_reply_unknown_type (protocol : WIJSONProtocol) (request : Object)
    (name : String) (methodInfo : Object) (result : Object) (returnTypeId : String)
    (tag : TType) (e : Err)
    (hname : getDefaultStringVal request methodKey "" = some name)
    (hlookup : getMethodInfo protocol.metadata protocol.service name = some (.ok methodInfo))
    (hcall : hasKey request argumentsKey = false)
    (hresult : getJsonVal request [resultKey] = some result)
    (hsuccess : hasKey result successKey = true)
    (hid : getStringVal methodInfo [returnTypeIdKey] = some returnTypeId)
    (htag : StringToTypeId returnTypeId = (tag, some e)) :
    ReadMessageBegin protocol none (.ok (.obj request)) =
      .ret ((name, TMessageType.REPLY, 1, none),
        { protocol with request := request, err := some e }) := by
  have hr := hasKey_of_getJsonVal request resultKey result hresult
  simp only [ReadMessageBegin, NewJson, hname, hlookup, getMessageTypeAndSeq, hcall, hr, hresult,
    hsuccess, hid, htag, Except.toOption]
  simp

/-- The REPLY branch with an empty result. -/
theorem readMessageBegin_reply_void (protocol : WIJSONProtocol) (request : Object)
    (name : String) (methodInfo : Object)
    (hname : getDefaultStringVal request methodKey "" = some name)
    (hlookup : getMethodInfo protocol.metadata protocol.service name = some (.ok methodInfo))
    (hcall : hasKey request argumentsKey = false)
    (hresult : getJsonVal request [resultKey] = some []) :
    ReadMessageBegin protocol none (.ok (.obj request)) =
      .ret ((name, TMessageType.REPLY, 1, none),
        add { protocol with request := request } stopField) := by
  have hr := hasKey_of_getJsonVal request resultKey [] hresult
  simp only [ReadMessageBegin, NewJson, hname, hlookup, getMessageTypeAndSeq, hcall, hr,
    hresult, hasKey_nil, Except.toOption]
  simp

/-- The REPLY branch whose first key names no declared exception. -/
theorem readMessageBegin_reply_undeclared (protocol : WIJSONProtocol) (request : Object)
    (name : String) (methodInfo result : Object) (exceptions : List Json)
    (hname : getDefaultStringVal request methodKey "" = some name)
    (hlookup : getMethodInfo protocol.metadata protocol.service name = some (.ok methodInfo))
    (hcall : hasKey request argumentsKey = false)
    (hresult : getJsonVal request [resultKey] = some result)
    (hsuccess : hasKey result successKey = false)
    (hne : result ≠ [])
    (hexc : getArrayVal methodInfo [exceptionsKey] = some exceptions)
    (hfind : findInJsonArray exceptions nameKey (firstKey result) = none) :
    ReadMessageBegin protocol none (.ok (.obj request)) =
      .ret (("", TMessageType.INVALID_TMESSAGE_TYPE, 0,
        some (Err.TProtocolException TProtocolExceptionType.INVALID_DATA
          (Err.New "Unable to parse result"))), { protocol with request := request }) := by
  have hr := hasKey_of_getJsonVal request resultKey result hresult
  have hlen := length_ne_zero_of_ne_nil result hne
  simp only [ReadMessageBegin, NewJson, hname, hlookup, getMessageTypeAndSeq, hcall, hr,
    hresult, hsuccess, hlen, hexc, hfind, Except.toOption]
  simp

/-- The method name that `ReadMessageBegin` reads is the one of the specification, when the
`method` value is a string or absent. -/
theorem getDefaultStringVal_method (request : Object)
    (h : request.lookup methodKey = none ∨ ∃ s, request.lookup methodKey = some (.str s)) :
    getDefaultStringVal request methodKey "" = some (methodName request) := by
  unfold getDefaultStringVal methodName
  rcases h with h | ⟨s, h⟩ <;> rw [h]

/-- The envelope table has no entry exactly when none of the three keys is present. -/
theorem envelopeOf_eq_none (request : Object) (lookup : Except Err Object) :
    envelopeOf request lookup = none ↔
      hasKey request argumentsKey = false ∧ hasKey request resultKey = false ∧
        hasKey request exceptionKey = false := by
  unfold envelopeOf
  by_cases ha : hasKey request argumentsKey = true
  · rw [if_pos ha]
    constructor
    · intro h
      cases lookup <;> simp only at h <;> (try split at h) <;> simp at h
    · intro h
      rw [ha] at h
      simp at h
  · rw [if_neg ha]
    by_cases hr : hasKey request resultKey = true
    · rw [if_pos hr]
      simp [hr]
    · rw [if_neg hr]
      by_cases hx : hasKey request exceptionKey = true
      · rw [if_pos hx]
        simp [hx]
      · rw [if_neg hx]
        simp only [Bool.not_eq_true] at ha hr hx
        simp [ha, hr, hx]

/-! ## C1: envelope dispatch -/

/-- C1, as the code has it. Envelope dispatch: for every request object whose `method` value
is a string or absent and every outcome `lookup` of the method lookup,
(1) whenever `ReadMessageBegin` returns with a nil error, the name is the method name and the
message type and sequence id are those of the envelope table, decided by the first present of
the keys `arguments`, `result`, `exception`: CALL 0, or ONEWAY 0 when the method was found and
its oneway flag is true; REPLY 1; EXCEPTION 1;
(2) whenever it returns with an error, it returns `("", INVALID_TMESSAGE_TYPE, 0)` and the
error is either the protocol exception `INVALID_MESSAGE_TYPE_EXCEPTION`, with none of the
three keys present, or the protocol exception `INVALID_DATA` of a REPLY;
(3) with none of the three keys present it does fail with `INVALID_MESSAGE_TYPE_EXCEPTION`;
(4) it returns the table's entry with a nil error for a CALL or REPLY on a method that is not
found; (5) for a CALL on a method that is found, with an arguments object, as soon as
`parseStruct` returns; (6) for a REPLY on a method that is found whose result has the key
`success`, as soon as `parse` returns, and also when the return type id is unknown; (7) for a
REPLY on a method that is found whose result is empty; (8) for a REPLY on a method that is
found whose first key names a declared exception with an object as value, as soon as `parse`
returns;
(9) the one REPLY that does not give `(REPLY, 1)`: on a method that is found, a result that
is not empty, has no `success` key and whose first key names no declared exception makes
`ReadMessageBegin` fail with `INVALID_DATA` and return `(INVALID_TMESSAGE_TYPE, 0)`;
(10) it returns the table's entry with a nil error for an exception envelope whose exception
object has a string, if any, at `message` and a number, if any, at `type`. -/
theorem envelope_dispatch (protocol : WIJSONProtocol) (request : Object)
    (lookup : Except Err Object)
    (hmethod : request.lookup methodKey = none ∨
      ∃ s, request.lookup methodKey = some (.str s))
    (hlookup : getMethodInfo protocol.metadata protocol.service (methodName request) =
      some lookup) :
    (∀ n typeId seqId q,
      ReadMessageBegin protocol none (.ok (.obj request)) = .ret ((n, typeId, seqId, none), q) →
        n = methodName request ∧ envelopeOf request lookup = some (typeId, seqId)) ∧
    (∀ n typeId seqId e q,
      ReadMessageBegin protocol none (.ok (.obj request)) =
        .ret ((n, typeId, seqId, some e), q) →
      n = "" ∧ typeId = TMessageType.INVALID_TMESSAGE_TYPE ∧ seqId = 0 ∧
        ((envelopeOf request lookup = none ∧
            e = Err.TProtocolException TProtocolExceptionType.INVALID_MESSAGE_TYPE_EXCEPTION
              (Err.New "Invalid type")) ∨
          (hasKey request argumentsKey = false ∧ hasKey request resultKey = true ∧
            e = Err.TProtocolException TProtocolExceptionType.INVALID_DATA
              (Err.New "Unable to parse result")))) ∧
    (envelopeOf request lookup = none →
      ReadMessageBegin protocol none (.ok (.obj request)) =
        .ret (("", TMessageType.INVALID_TMESSAGE_TYPE, 0,
          some (Err.TProtocolException TProtocolExceptionType.INVALID_MESSAGE_TYPE_EXCEPTION
            (Err.New "Invalid type"))), { protocol with request := request })) ∧
    (∀ err, lookup = .error err → ∀ typeId seqId,
      envelopeOf request lookup = some (typeId, seqId) →
      typeId = TMessageType.CALL ∨ typeId = TMessageType.REPLY →
      ReadMessageBegin protocol none (.ok (.obj request)) =
        .ret ((methodName request, typeId, seqId, none),
          add { protocol with request := request } stopField)) ∧
    (∀ methodInfo oneway fieldsList arguments e q, lookup = .ok methodInfo →
      hasKey request argumentsKey = true →
      getBoolVal methodInfo [onewayKey] = some oneway →
      getArrayVal methodInfo [argumentsKey] = some fieldsList →
      getJsonVal request [argumentsKey] = some arguments →
      parseStruct { protocol with request := request } fieldsList (Json.obj arguments) =
        .ret (e, q) →
      ReadMessageBegin protocol none (.ok (.obj request)) =
        .ret ((methodName request,
            if oneway then TMessageType.ONEWAY else TMessageType.CALL, 0, none),
          { q with err := e })) ∧
    (∀ methodInfo result returnTypeId, lookup = .ok methodInfo →
      hasKey request argumentsKey = false →
      getJsonVal request [resultKey] = some result →
      hasKey result successKey = true →
      getStringVal methodInfo [returnTypeIdKey] = some returnTypeId →
      (∀ returnType err q0, StringToTypeId returnTypeId = (returnType, none) →
        parse (cleared { protocol with request := request }) methodInfo
          (Object.index result successKey) returnTypeIdKey returnTypeKey = .ret (err, q0) →
        ∃ q, ReadMessageBegin protocol none (.ok (.obj request)) =
          .ret ((methodName request, TMessageType.REPLY, 1, none), q)) ∧
      (∀ tag e, StringToTypeId returnTypeId = (tag, some e) →
        ∃ q, ReadMessageBegin protocol none (.ok (.obj request)) =
          .ret ((methodName request, TMessageType.REPLY, 1, none), q))) ∧
    (∀ methodInfo, lookup = .ok methodInfo →
      hasKey request argumentsKey = false →
      getJsonVal request [resultKey] = some [] →
      ∃ q, ReadMessageBegin protocol none (.ok (.obj request)) =
        .ret ((methodName request, TMessageType.REPLY, 1, none), q)) ∧
    (∀ methodInfo result exceptions errInfo key16 errValue err q0, lookup = .ok methodInfo →
      hasKey request argumentsKey = false →
      getJsonVal request [resultKey] = some result →
      hasKey result successKey = false → result ≠ [] →
      getArrayVal methodInfo [exceptionsKey] = some exceptions →
      findInJsonArray exceptions nameKey (firstKey result) = some errInfo →
      getDefaultInt16Val errInfo keyKey 1 = some key16 →
      getJsonVal result [firstKey result] = some errValue →
      parse (cleared { protocol with request := request }) errInfo (Json.obj errValue)
        typeIdKey typeKey = .ret (err, q0) →
      ∃ q, ReadMessageBegin protocol none (.ok (.obj request)) =
        .ret ((methodName request, TMessageType.REPLY, 1, none), q)) ∧
    (∀ methodInfo result exceptions, lookup = .ok methodInfo →
      hasKey request argumentsKey = false →
      getJsonVal request [resultKey] = some result →
      hasKey result successKey = false → result ≠ [] →
      getArrayVal methodInfo [exceptionsKey] = some exceptions →
      findInJsonArray exceptions nameKey (firstKey result) = none →
      ReadMessageBegin protocol none (.ok (.obj request)) =
        .ret (("", TMessageType.INVALID_TMESSAGE_TYPE, 0,
          some (Err.TProtocolException TProtocolExceptionType.INVALID_DATA
            (Err.New "Unable to parse result"))), { protocol with request := request })) ∧
    (∀ exception, hasKey request argumentsKey = false →
      hasKey request resultKey = false →
      getJsonVal request [exceptionKey] = some exception →
      (exception.lookup messageKey = none ∨
        ∃ s, exception.lookup messageKey = some (.str s)) →
      (exception.lookup typeKey = none ∨ ∃ v, exception.lookup typeKey = some (.num v)) →
      ∃ q, ReadMessageBegin protocol none (.ok (.obj request)) =
        .ret ((methodName request, TMessageType.EXCEPTION, 1, none), q)) := by
  have hname := getDefaultStringVal_method request hmethod
  refine ⟨?_, ?_, ?_, ?_, ?_, ?_, ?_, ?_, ?_, ?_⟩
  · intro n typeId seqId q h
    simp only [ReadMessageBegin, NewJson, hname, hlookup] at h
    cases hg : getMessageTypeAndSeq { protocol with request := request } lookup.toOption with
    | none => rw [hg] at h; simp at h
    | some ts =>
      obtain ⟨t, s⟩ := ts
      rw [hg] at h
      simp only at h
      have henv := getMessageTypeAndSeq_eq protocol request lookup t s hg
      have key : n = methodName request ∧ typeId = t ∧ seqId = s := by
        repeat' split at h
        all_goals first
          | (simp only [Run.ret.injEq, Prod.mk.injEq] at h
             exact ⟨h.1.1.symm, h.1.2.1.symm, h.1.2.2.1.symm⟩)
          | (simp at h)
      obtain ⟨hn, ht, hs⟩ := key
      subst hn ht hs
      refine ⟨rfl, ?_⟩
      rcases henv with h1 | ⟨h1, _⟩
      · exact h1
      · exfalso
        obtain ⟨ha, hr, hx⟩ := (envelopeOf_eq_none request lookup).mp h1
        simp [ha, hr, hx] at h
  · intro n typeId seqId e q h
    simp only [ReadMessageBegin, NewJson, hname, hlookup] at h
    cases hg : getMessageTypeAndSeq { protocol with request := request } lookup.toOption with
    | none => rw [hg] at h; simp at h
    | some ts =>
      obtain ⟨t, s⟩ := ts
      rw [hg] at h
      simp only at h
      by_cases ha : hasKey request argumentsKey = true
      · rw [if_pos ha] at h
        exfalso
        repeat' split at h
        all_goals simp at h
      · rw [if_neg ha] at h
        simp only [Bool.not_eq_true] at ha
        by_cases hr : hasKey request resultKey = true
        · rw [if_pos hr] at h
          repeat' split at h
          all_goals first
            | (simp at h; done)
            | (simp only [Run.ret.injEq, Prod.mk.injEq, Option.some.injEq] at h
               obtain ⟨⟨h1, h2, h3, h4⟩, _⟩ := h
               exact ⟨h1.symm, h2.symm, h3.symm, Or.inr ⟨ha, hr, h4.symm⟩⟩)
        · rw [if_neg hr] at h
          simp only [Bool.not_eq_true] at hr
          by_cases hx : hasKey request exceptionKey = true
          · rw [if_pos hx] at h
            exfalso
            repeat' split at h
            all_goals simp at h
          · rw [if_neg hx] at h
            simp only [Bool.not_eq_true] at hx
            simp only [Run.ret.injEq, Prod.mk.injEq, Option.some.injEq] at h
            obtain ⟨⟨h1, h2, h3, h4⟩, _⟩ := h
            exact ⟨h1.symm, h2.symm, h3.symm,
              Or.inl ⟨(envelopeOf_eq_none request lookup).mpr ⟨ha, hr, hx⟩, h4.symm⟩⟩
  · intro henv
    obtain ⟨ha, hr, hx⟩ := (envelopeOf_eq_none request lookup).mp henv
    simp [ReadMessageBegin, NewJson, hname, hlookup, getMessageTypeAndSeq, ha, hr, hx]
  · intro err hl typeId seqId henv ht
    subst hl
    unfold envelopeOf at henv
    by_cases ha : hasKey request argumentsKey = true
    · rw [if_pos ha] at henv
      simp only [Option.some.injEq, Prod.mk.injEq] at henv
      obtain ⟨rfl, rfl⟩ := henv
      simp [ReadMessageBegin, NewJson, hname, hlookup, getMessageTypeAndSeq, ha,
        Except.toOption]
    · rw [if_neg ha] at henv
      by_cases hr : hasKey request resultKey = true
      · rw [if_pos hr] at henv
        simp only [Option.some.injEq, Prod.mk.injEq] at henv
        obtain ⟨rfl, rfl⟩ := henv
        simp [ReadMessageBegin, NewJson, hname, hlookup, getMessageTypeAndSeq, ha, hr,
          Except.toOption]
      · rw [if_neg hr] at henv
        by_cases hx : hasKey request exceptionKey = true
        · rw [if_pos hx] at henv
          simp only [Option.some.injEq, Prod.mk.injEq] at henv
          obtain ⟨rfl, rfl⟩ := henv
          simp at ht
        · rw [if_neg hx] at henv
          simp at henv
  · intro methodInfo oneway fieldsList arguments e q hl ha ho hf hj hp
    subst hl
    exact readMessageBegin_call protocol request _ methodInfo oneway fieldsList arguments e q
      hname hlookup ha ho hf hj hp
  · intro methodInfo result returnTypeId hl hcall hresult hsuccess hid
    subst hl
    refine ⟨?_, ?_⟩
    · intro returnType err q0 htag hparse
      exact ⟨_, readMessageBegin_reply_success protocol request _ methodInfo result returnTypeId
        returnType err q0 hname hlookup hcall hresult hsuccess hid htag hparse⟩
    · intro tag e htag
      exact ⟨_, readMessageBegin_reply_unknown_type protocol request _ methodInfo result
        returnTypeId tag e hname hlookup hcall hresult hsuccess hid htag⟩
  · intro methodInfo hl hcall hresult
    subst hl
    exact ⟨_, readMessageBegin_reply_void protocol request _ methodInfo hname hlookup hcall
      hresult⟩
  · intro methodInfo result exceptions errInfo key16 errValue err q0 hl hcall hresult hsuccess
      hne hexc hfind hkey hvalue hparse
    subst hl
    exact ⟨_, (declared_exception_reply protocol request _ methodInfo result exceptions errInfo
      errValue key16 err q0 hname hlookup hcall hresult hsuccess hne hexc hfind hkey hvalue
      hparse).1.1⟩
  · intro methodInfo result exceptions hl hcall hresult hsuccess hne hexc hfind
    subst hl
    exact readMessageBegin_reply_undeclared protocol request _ methodInfo result exceptions
      hname hlookup hcall hresult hsuccess hne hexc hfind
  · intro exception hcall hreply hexception hmessage htype
    exact ⟨_, readMessageBegin_exception protocol request _ lookup exception hname hlookup hcall
      hreply hexception hmessage htype⟩

theorem envelope_dispatch_witness :
    ((List.lookup methodKey exampleReply = none ∨
        ∃ s, List.lookup methodKey exampleReply = some (.str s)) ∧
      getMethodInfo exampleProtocol.metadata exampleProtocol.service (methodName exampleReply) =
        some (.ok exampleMethodM)) ∧
    methodName exampleReply = "m" ∧
    ∃ q, ReadMessageBegin exampleProtocol none (.ok (.obj exampleReply)) =
      .ret ((methodName exampleReply, TMessageType.REPLY, 1, none), q) :=
  ⟨⟨Or.inr ⟨"m", rfl⟩, rfl⟩, rfl,
    ((envelope_dispatch exampleProtocol exampleReply (.ok exampleMethodM) (Or.inr ⟨"m", rfl⟩)
      rfl).2.2.2.2.2.1 exampleMethodM [("success", .num 5)] "i32" rfl rfl rfl rfl rfl).1
      TType.I32 none { exampleProtocol with request := exampleReply, params := [.int32 5] }
      rfl rfl⟩

/-- C1 as stated fails. The REPLY `{"method":"m","result":{"oops":{"errorCode":401}}}` has the
key `result` and no key `arguments`, its method is found, and `ReadMessageBegin` returns
`(INVALID_TMESSAGE_TYPE, 0)` with the protocol exception `INVALID_DATA`, not `(REPLY, 1)`;
and the request `{"method":5}`, which has none of the three keys, makes `ReadMessageBegin`
panic instead of failing with `INVALID_MESSAGE_TYPE_EXCEPTION`. -/
theorem envelope_dispatch_counterexample :
    (hasKey exampleUndeclaredReply argumentsKey = false ∧
      hasKey exampleUndeclaredReply resultKey = true ∧
      getMethodInfo exampleThrowsProtocol.metadata exampleThrowsProtocol.service "m" =
        some (.ok exampleMethodThrows) ∧
      ReadMessageBegin exampleThrowsProtocol none (.ok (.obj exampleUndeclaredReply)) =
        .ret (("", TMessageType.INVALID_TMESSAGE_TYPE, 0,
          some (Err.TProtocolException TProtocolExceptionType.INVALID_DATA
            (Err.New "Unable to parse result"))),
          { exampleThrowsProtocol with request := exampleUndeclaredReply })) ∧
    (hasKey exampleNumericMethod argumentsKey = false ∧
      hasKey exampleNumericMethod resultKey = false ∧
      hasKey exampleNumericMethod exceptionKey = false ∧
      ReadMessageBegin exampleThrowsProtocol none (.ok (.obj exampleNumericMethod)) = .panic) :=
  ⟨⟨rfl, rfl, rfl, rfl⟩, ⟨rfl, rfl, rfl, rfl⟩⟩

/-! ## C7: the buffer after a failed linearization -/

/-- The loop of `parseStruct` on entries that all linearize without error passes on to the
entries after them, with the tokens of the first entries appended. -/
theorem parseStructRange_append (protocol : WIJSONProtocol) (fieldsList : List Json)
    (pre rest : Object)
    (hfields : ∀ kv ∈ pre, ∃ fieldInfo q0,
      findInJsonArray fieldsList nameKey kv.1 = some fieldInfo ∧
      (getDefaultInt16Val fieldInfo keyKey 0).isSome = true ∧
      parse (cleared protocol) fieldInfo kv.2 typeIdKey typeKey = .ret (none, q0))
    (p : WIJSONProtocol) (hp : cleared p = cleared protocol) :
    parseStructRange p fieldsList (pre ++ rest) =
      parseStructRange (add p (pre.flatMap (fieldTokens protocol fieldsList))) fieldsList
        rest := by
  induction pre generalizing p with
  | nil => rw [List.nil_append, List.flatMap_nil, add_nil]
  | cons kv pre ih =>
    obtain ⟨key, value⟩ := kv
    obtain ⟨fi, q0, hfind, hkey, hparse⟩ := hfields (key, value) (List.mem_cons_self _ _)
    obtain ⟨ft, t, hft, ht⟩ := typeId_of_parse _ _ _ _ _ _ hparse
    obtain ⟨key16, hkey16⟩ := Option.isSome_iff_exists.mp hkey
    have hparse2 := parse_of_cleared (add p [Token.string key, Token.TType t, Token.int16 key16])
      fi value typeIdKey typeKey none q0 (by rw [cleared_add, hp]; exact hparse)
    have htoks : fieldTokens protocol fieldsList (key, value) =
        [Token.string key, Token.TType t, Token.int16 key16] ++ q0.params := by
      simp only [fieldTokens] at hfind hft hkey16 hparse ⊢
      simp only [hfind, hft, hkey16, hparse, ht, Option.getD_some, emitted]
    rw [List.cons_append, parseStructRange_cons]
    simp only at hfind
    simp only [hfind, hft, ht, hkey16, hparse2]
    rw [ih (fun kv hkv => hfields kv (List.mem_cons_of_mem _ hkv)) _
      (by rw [cleared_add, cleared_add, hp])]
    rw [List.flatMap_cons, htoks, add_add, add_add, List.append_assoc]

/-- Go `parseStruct` on an object whose loop fails: the error and the state of the loop are
returned as they are, no STOP triple is appended. -/
theorem parseStruct_of_range_error (p : WIJSONProtocol) (fieldsList : List Json)
    (object : Object) (e : Err) (q : WIJSONProtocol)
    (h : parseStructRange p fieldsList object = .ret (some e, q)) :
    parseStruct p fieldsList (Json.obj object) = .ret (some e, q) := by
  rw [parseStruct_eq]
  simp only [toJsonCheck, h]

/-- The loop of `parseStruct` at an entry whose key names no field. -/
theorem parseStructRange_unexpected (p : WIJSONProtocol) (fieldsList : List Json)
    (key : String) (value : Json) (post : Object)
    (hfind : findInJsonArray fieldsList nameKey key = none) :
    parseStructRange p fieldsList ((key, value) :: post) =
      .ret (some (Err.New ("Unexpected key " ++ key)), p) := by
  rw [parseStructRange_cons]
  simp only [hfind]

/-- The loop of `parseStruct` at an entry whose field has an unknown type id. -/
theorem parseStructRange_unknown_type (p : WIJSONProtocol) (fieldsList : List Json)
    (key : String) (value : Json) (post : Object) (fieldInfo : Object) (typeId : String)
    (tag : TType) (e : Err)
    (hfind : findInJsonArray fieldsList nameKey key = some fieldInfo)
    (hid : getStringVal fieldInfo [typeIdKey] = some typeId)
    (htag : StringToTypeId typeId = (tag, some e)) :
    parseStructRange p fieldsList ((key, value) :: post) = .ret (some e, p) := by
  rw [parseStructRange_cons]
  simp only [hfind, hid, htag]

/-- The loop of `parseStruct` at an entry whose value fails to linearize: the field-begin
triple and whatever `parse` appended stay in the buffer. -/
theorem parseStructRange_value_error (protocol p : WIJSONProtocol) (fieldsList : List Json)
    (key : String) (value : Json) (post : Object) (fieldInfo : Object) (typeId : String)
    (tag : TType) (key16 : Int) (e : Err) (q0 : WIJSONProtocol)
    (hp : cleared p = cleared protocol)
    (hfind : findInJsonArray fieldsList nameKey key = some fieldInfo)
    (hid : getStringVal fieldInfo [typeIdKey] = some typeId)
    (htag : StringToTypeId typeId = (tag, none))
    (hkey : getDefaultInt16Val fieldInfo keyKey 0 = some key16)
    (hparse : parse (cleared protocol) fieldInfo value typeIdKey typeKey = .ret (some e, q0)) :
    parseStructRange p fieldsList ((key, value) :: post) =
      .ret (some e,
        add p ([Token.string key, Token.TType tag, Token.int16 key16] ++ q0.params)) := by
  have hparse2 := parse_of_cleared
    (add p [Token.string key, Token.TType tag, Token.int16 key16])
    fieldInfo value typeIdKey typeKey (some e) q0 (by rw [cleared_add, hp]; exact hparse)
  rw [parseStructRange_cons]
  simp only [hfind, hid, htag, hkey, hparse2, add_add]

/-- C7, as the code has it. Nothing is rolled back when the linearization of a body fails:
the token buffer after `ReadMessageBegin` is the buffer before the call followed by every
token appended before the failure, and the error is held for `ReadStructBegin`. For a method
found in the metadata:
(1) for a CALL whose arguments object fails at the entry `(key, value)`, after entries `pre`
that linearize without error, the buffer keeps the complete tokens of the entries `pre`
(field-begin triple and value tokens of each), and (a) nothing more when `key` names no field
or (b) names a field of unknown type id, (c) the field-begin triple of `key` and whatever
`parse` appended for `value` when it is `parse` that fails;
(2) for a REPLY with `success` whose value fails to linearize, the buffer keeps the triple
`("", return tag, 0)` and whatever `parse` appended, and `("", STOP, -1)` is appended after
them;
(3) for a REPLY with `success` on a method whose return type id is unknown, nothing is
appended;
(4) for a REPLY with a declared exception whose value fails to linearize, the buffer keeps
the triple `(errName, STRUCT, key)` and whatever `parse` appended, and `("", STOP, -1)` is
appended after them;
(5) in every case the error is what the next `ReadStructBegin` returns, and the buffer
before the call is a prefix of the buffer after it. -/
theorem failed_linearization_buffer (protocol : WIJSONProtocol) (request : Object)
    (name : String) (methodInfo : Object)
    (hname : getDefaultStringVal request methodKey "" = some name)
    (hlookup : getMethodInfo protocol.metadata protocol.service name = some (.ok methodInfo)) :
    (∀ (oneway : Bool) (fieldsList : List Json) (pre post : Object) (key : String)
        (value : Json),
      getBoolVal methodInfo [onewayKey] = some oneway →
      getArrayVal methodInfo [argumentsKey] = some fieldsList →
      getJsonVal request [argumentsKey] = some (pre ++ (key, value) :: post) →
      (∀ kv ∈ pre, ∃ fieldInfo q0,
        findInJsonArray fieldsList nameKey kv.1 = some fieldInfo ∧
        (getDefaultInt16Val fieldInfo keyKey 0).isSome = true ∧
        parse (cleared { protocol with request := request }) fieldInfo kv.2 typeIdKey typeKey =
          .ret (none, q0)) →
      (findInJsonArray fieldsList nameKey key = none →
        ReadMessageBegin protocol none (.ok (.obj request)) =
          .ret ((name, if oneway then TMessageType.ONEWAY else TMessageType.CALL, 0, none),
            { protocol with
              request := request
              params := protocol.params ++
                pre.flatMap (fieldTokens { protocol with request := request } fieldsList)
              err := some (Err.New ("Unexpected key " ++ key)) })) ∧
      (∀ fieldInfo typeId tag e,
        findInJsonArray fieldsList nameKey key = some fieldInfo →
        getStringVal fieldInfo [typeIdKey] = some typeId →
        StringToTypeId typeId = (tag, some e) →
        ReadMessageBegin protocol none (.ok (.obj request)) =
          .ret ((name, if oneway then TMessageType.ONEWAY else TMessageType.CALL, 0, none),
            { protocol with
              request := request
              params := protocol.params ++
                pre.flatMap (fieldTokens { protocol with request := request } fieldsList)
              err := some e })) ∧
      (∀ fieldInfo typeId tag key16 e q0,
        findInJsonArray fieldsList nameKey key = some fieldInfo →
        getStringVal fieldInfo [typeIdKey] = some typeId →
        StringToTypeId typeId = (tag, none) →
        getDefaultInt16Val fieldInfo keyKey 0 = some key16 →
        parse (cleared { protocol with request := request }) fieldInfo value typeIdKey typeKey =
          .ret (some e, q0) →
        ReadMessageBegin protocol none (.ok (.obj request)) =
          .ret ((name, if oneway then TMessageType.ONEWAY else TMessageType.CALL, 0, none),
            { protocol with
              request := request
              params := protocol.params ++
                (pre.flatMap (fieldTokens { protocol with request := request } fieldsList) ++
                  ([Token.string key, Token.TType tag, Token.int16 key16] ++ q0.params))
              err := some e }))) ∧
    (∀ (result : Object) (returnTypeId : String) (returnType : TType) (e : Err)
        (q0 : WIJSONProtocol),
      hasKey request argumentsKey = false →
      getJsonVal request [resultKey] = some result →
      hasKey result successKey = true →
      getStringVal methodInfo [returnTypeIdKey] = some returnTypeId →
      StringToTypeId returnTypeId = (returnType, none) →
      parse (cleared { protocol with request := request }) methodInfo
        (Object.index result successKey) returnTypeIdKey returnTypeKey = .ret (some e, q0) →
      ReadMessageBegin protocol none (.ok (.obj request)) =
        .ret ((name, TMessageType.REPLY, 1, none),
          { protocol with
            request := request
            params := protocol.params ++
              ([Token.string "", Token.TType returnType, Token.int16 0] ++ q0.params ++
                stopField)
            err := some e })) ∧
    (∀ (result : Object) (returnTypeId : String) (tag : TType) (e : Err),
      hasKey request argumentsKey = false →
      getJsonVal request [resultKey] = some result →
      hasKey result successKey = true →
      getStringVal methodInfo [returnTypeIdKey] = some returnTypeId →
      StringToTypeId returnTypeId = (tag, some e) →
      ReadMessageBegin protocol none (.ok (.obj request)) =
        .ret ((name, TMessageType.REPLY, 1, none),
          { protocol with request := request, params := protocol.params, err := some e })) ∧
    (∀ (result : Object) (exceptions : List Json) (errInfo errValue : Object) (key16 : Int)
        (e : Err) (q0 : WIJSONProtocol),
      hasKey request argumentsKey = false →
      getJsonVal request [resultKey] = some result →
      hasKey result successKey = false → result ≠ [] →
      getArrayVal methodInfo [exceptionsKey] = some exceptions →
      findInJsonArray exceptions nameKey (firstKey result) = some errInfo →
      getDefaultInt16Val errInfo keyKey 1 = some key16 →
      getJsonVal result [firstKey result] = some errValue →
      parse (cleared { protocol with request := request }) errInfo (Json.obj errValue)
        typeIdKey typeKey = .ret (some e, q0) →
      ReadMessageBegin protocol none (.ok (.obj request)) =
        .ret ((name, TMessageType.REPLY, 1, none),
          { protocol with
            request := request
            params := protocol.params ++
              ([Token.string (firstKey result), Token.TType TType.STRUCT, Token.int16 key16] ++
                q0.params ++ stopField)
            err := some e })) ∧
    (∀ (r : MessageBegin) (q : WIJSONProtocol) (e : Err),
      ReadMessageBegin protocol none (.ok (.obj request)) = .ret (r, q) → q.err = some e →
      (ReadStructBegin q).1 = ("", some e) ∧ ∃ toks, q.params = protocol.params ++ toks) := by
  refine ⟨?_, ?_, ?_, ?_, ?_⟩
  · intro oneway fieldsList pre post key value honeway hfields hargs hpre
    have ha := hasKey_of_getJsonVal request argumentsKey _ hargs
    have happ := parseStructRange_append { protocol with request := request } fieldsList pre
      ((key, value) :: post) hpre { protocol with request := request } rfl
    refine ⟨?_, ?_, ?_⟩
    · intro hfind
      have hrange := happ.trans (parseStructRange_unexpected _ fieldsList key value post hfind)
      rw [readMessageBegin_call protocol request name methodInfo oneway fieldsList _ _ _
        hname hlookup ha honeway hfields hargs (parseStruct_of_range_error _ _ _ _ _ hrange)]
      simp [add]
    · intro fieldInfo typeId tag e hfind hid htag
      have hrange := happ.trans
        (parseStructRange_unknown_type _ fieldsList key value post fieldInfo typeId tag e
          hfind hid htag)
      rw [readMessageBegin_call protocol request name methodInfo oneway fieldsList _ _ _
        hname hlookup ha honeway hfields hargs (parseStruct_of_range_error _ _ _ _ _ hrange)]
      simp [add]
    · intro fieldInfo typeId tag key16 e q0 hfind hid htag hkey hparse
      have hrange := happ.trans
        (parseStructRange_value_error { protocol with request := request } _ fieldsList key
          value post fieldInfo typeId tag key16 e q0 (by rw [cleared_add]) hfind hid htag hkey
          hparse)
      rw [readMessageBegin_call protocol request name methodInfo oneway fieldsList _ _ _
        hname hlookup ha honeway hfields hargs (parseStruct_of_range_error _ _ _ _ _ hrange)]
      simp [add]
  · intro result returnTypeId returnType e q0 hcall hresult hsuccess hid htag hparse
    exact readMessageBegin_reply_success protocol request name methodInfo result returnTypeId
      returnType (some e) q0 hname hlookup hcall hresult hsuccess hid htag hparse
  · intro result returnTypeId tag e hcall hresult hsuccess hid htag
    exact readMessageBegin_reply_unknown_type protocol request name methodInfo result
      returnTypeId tag e hname hlookup hcall hresult hsuccess hid htag
  · intro result exceptions errInfo errValue key16 e q0 hcall hresult hsuccess hne hexc hfind
      hkey hvalue hparse
    exact (declared_exception_reply protocol request name methodInfo result exceptions errInfo
      errValue key16 (some e) q0 hname hlookup hcall hresult hsuccess hne hexc hfind hkey hvalue
      hparse).1.1
  · intro r q e h he
    refine ⟨?_, readMessageBegin_appends protocol request r q h⟩
    simp [ReadStructBegin, he]

theorem failed_linearization_buffer_witness :
    (getDefaultStringVal exampleBadCall methodKey "" = some "m" ∧
      getMethodInfo exampleProtocol.metadata exampleProtocol.service "m" =
        some (.ok exampleMethodM)) ∧
    (getBoolVal exampleMethodM [onewayKey] = some false ∧
      getArrayVal exampleMethodM [argumentsKey] = some exampleFieldsA ∧
      getJsonVal exampleBadCall [argumentsKey] =
        some ([("x", Json.num 7)] ++ ("bad", Json.num 1) :: []) ∧
      findInJsonArray exampleFieldsA nameKey "bad" = none) ∧
    ReadMessageBegin exampleProtocol none (.ok (.obj exampleBadCall)) =
      .ret (("m", if false then TMessageType.ONEWAY else TMessageType.CALL, 0, none),
        { exampleProtocol with
          request := exampleBadCall
          params := exampleProtocol.params ++
            [("x", Json.num 7)].flatMap
              (fieldTokens { exampleProtocol with request := exampleBadCall } exampleFieldsA)
          err := some (Err.New ("Unexpected key " ++ "bad")) }) ∧
    [("x", Json.num 7)].flatMap
        (fieldTokens { exampleProtocol with request := exampleBadCall } exampleFieldsA) =
      [.string "x", .TType .I32, .int16 1, .int32 7] := by
  have hpre : ∀ kv ∈ [("x", Json.num 7)], ∃ fieldInfo q0,
      findInJsonArray exampleFieldsA nameKey kv.1 = some fieldInfo ∧
      (getDefaultInt16Val fieldInfo keyKey 0).isSome = true ∧
      parse (cleared { exampleProtocol with request := exampleBadCall }) fieldInfo kv.2
        typeIdKey typeKey = .ret (none, q0) := by
    intro kv hkv
    simp only [List.mem_singleton] at hkv
    subst hkv
    exact ⟨_, _, rfl, rfl, rfl⟩
  exact ⟨⟨rfl, rfl⟩, ⟨rfl, rfl, rfl, rfl⟩,
    ((failed_linearization_buffer exampleProtocol exampleBadCall "m" exampleMethodM rfl rfl).1
      false exampleFieldsA [("x", Json.num 7)] [] "bad" (Json.num 1) rfl rfl rfl hpre).1 rfl,
    rfl⟩

/-! ## C9: reading a scalar back -/

theorem float64Exponent_of_lt (n : Nat) (h : n < 2 ^ 53) : float64Exponent 1024 n 0 = 0 := by
  show float64Exponent (1023 + 1) n 0 = 0
  unfold float64Exponent
  rw [if_pos (by simpa using h)]

/-- A natural number up to 2^53 is a 64-bit float. -/
theorem float64OfNat_exact (n : Nat) (h : n ≤ 2 ^ 53) : float64OfNat n = n := by
  rcases Nat.lt_or_eq_of_le h with hlt | heq
  · unfold float64OfNat
    rw [float64Exponent_of_lt n hlt]
    simp [Nat.mod_one]
  · subst heq
    decide

/-- An integer of magnitude up to 2^53 is a 64-bit float: the decoder hands it to the code
as it is. -/
theorem float64OfInt_exact (v : Int) (h1 : -9007199254740992 ≤ v) (h2 : v ≤ 9007199254740992) :
    float64OfInt v = v := by
  unfold float64OfInt
  have hn : v.natAbs ≤ 2 ^ 53 := by omega
  rw [float64OfNat_exact _ hn]
  by_cases hv : v < 0
  · rw [if_pos hv]; omega
  · rw [if_neg hv]; omega

theorem ofInt_exact (v : Int) (h1 : -9007199254740992 ≤ v) (h2 : v ≤ 9007199254740992) :
    Json.ofInt v = Json.num (v : Rat) := by
  unfold Json.ofInt
  rw [float64OfInt_exact v h1 h2]

/-- C9, as the code has it. For a method whose argument `x` has the scalar type `t`,
linearizing `{"method": name, "arguments": {"x": v}}`, in which an integer `v` is the 64-bit
float the decoder made of it, and then calling `ReadStructBegin`, `ReadFieldBegin` and the
reader of `t` returns `v` for: every boolean; every i16 and i32 value within its range;
every i64 value within its range that is a 64-bit float, which every integer of magnitude up
to 2^53 is; every double; every string; and for i8, whose reader `ReadByte` returns an
unsigned byte, every value from 0 to 127. For every i64 value what is read back is the
conversion to int64 of the float the decoder made of it. -/
theorem scalar_read_back (protocol : WIJSONProtocol) (name : String) (methodInfo : Object)
    (oneway : Bool) (fieldsList : List Json) (fieldInfo : Object) (typeId : String)
    (key16 : Int)
    (hlookup : getMethodInfo protocol.metadata protocol.service name = some (.ok methodInfo))
    (honeway : getBoolVal methodInfo [onewayKey] = some oneway)
    (hfields : getArrayVal methodInfo [argumentsKey] = some fieldsList)
    (hfind : findInJsonArray fieldsList nameKey "x" = some fieldInfo)
    (htype : getStringVal fieldInfo [typeIdKey] = some typeId)
    (hkey : getDefaultInt16Val fieldInfo keyKey 0 = some key16)
    (hempty : protocol.params = []) :
    (typeId = "bool" → ∀ b : Bool,
      readBack protocol (scalarRequest name (Json.bool b)) ReadBool = some b) ∧
    (typeId = "i8" → ∀ n : Int, 0 ≤ n → n ≤ 127 →
      (readBack protocol (scalarRequest name (Json.ofInt n)) ReadByte).map Int.ofNat =
        some n) ∧
    (typeId = "i16" → ∀ n : Int, -32768 ≤ n → n ≤ 32767 →
      readBack protocol (scalarRequest name (Json.ofInt n)) ReadI16 = some n) ∧
    (typeId = "i32" → ∀ n : Int, -2147483648 ≤ n → n ≤ 2147483647 →
      readBack protocol (scalarRequest name (Json.ofInt n)) ReadI32 = some n) ∧
    (typeId = "i64" → ∀ n : Int, -9223372036854775808 ≤ n → n ≤ 9223372036854775807 →
      readBack protocol (scalarRequest name (Json.ofInt n)) ReadI64 =
          some (int64OfFloat64 ((float64OfInt n : Int) : Rat)) ∧
        (float64OfInt n = n →
          readBack protocol (scalarRequest name (Json.ofInt n)) ReadI64 = some n)) ∧
    (∀ n : Int, -9007199254740992 ≤ n → n ≤ 9007199254740992 → float64OfInt n = n) ∧
    (typeId = "double" → ∀ q : Rat,
      readBack protocol (scalarRequest name (Json.num q)) ReadDouble = some q) ∧
    (typeId = "string" → ∀ s : String,
      readBack protocol (scalarRequest name (Json.str s)) ReadString = some s) := by
  refine ⟨?_, ?_, ?_, ?_, ?_, float64OfInt_exact, ?_, ?_⟩
  · intro ht b
    subst ht
    exact readBack_single protocol name methodInfo oneway fieldsList fieldInfo "bool" TType.BOOL
      key16 _ (Token.bool b) ReadBool b hlookup honeway hfields hfind htype rfl hkey hempty
      (fun q => parse_bool q fieldInfo _ _ b htype) (fun q rest h => ReadBool_head q b rest h)
  · intro ht n h1 h2
    subst ht
    rw [ofInt_exact n (by omega) (by omega),
      readBack_single protocol name methodInfo oneway fieldsList fieldInfo "i8" TType.BYTE
      key16 _ (Token.byte (byteOfFloat64 n)) ReadByte (byteOfFloat64 n) hlookup honeway hfields
      hfind htype rfl hkey hempty
      (fun q => parse_i8 q fieldInfo _ _ n htype) (fun q rest h => ReadByte_head q _ rest h)]
    simp only [Option.map_some', Option.some.injEq]
    exact byteOfFloat64_intCast n h1 (by omega)
  · intro ht n h1 h2
    subst ht
    rw [ofInt_exact n (by omega) (by omega),
      readBack_single protocol name methodInfo oneway fieldsList fieldInfo "i16" TType.I16
      key16 _ (Token.int16 (int16OfFloat64 n)) ReadI16 (int16OfFloat64 n) hlookup honeway hfields
      hfind htype rfl hkey hempty
      (fun q => parse_i16 q fieldInfo _ _ n htype) (fun q rest h => ReadI16_head q _ rest h),
      int16OfFloat64_intCast n h1 h2]
  · intro ht n h1 h2
    subst ht
    rw [ofInt_exact n (by omega) (by omega),
      readBack_single protocol name methodInfo oneway fieldsList fieldInfo "i32" TType.I32
      key16 _ (Token.int32 (int32OfFloat64 n)) ReadI32 (int32OfFloat64 n) hlookup honeway hfields
      hfind htype rfl hkey hempty
      (fun q => parse_i32 q fieldInfo _ _ n htype) (fun q rest h => ReadI32_head q _ rest h),
      int32OfFloat64_intCast n h1 h2]
  · intro ht n h1 h2
    subst ht
    have hgen : readBack protocol (scalarRequest name (Json.ofInt n)) ReadI64 =
        some (int64OfFloat64 ((float64OfInt n : Int) : Rat)) := by
      unfold Json.ofInt
      exact readBack_single protocol name methodInfo oneway fieldsList fieldInfo "i64" TType.I64
        key16 _ (Token.int64 (int64OfFloat64 ((float64OfInt n : Int) : Rat))) ReadI64
        (int64OfFloat64 ((float64OfInt n : Int) : Rat)) hlookup honeway hfields
        hfind htype rfl hkey hempty
        (fun q => parse_i64 q fieldInfo _ _ _ htype) (fun q rest h => ReadI64_head q _ rest h)
    refine ⟨hgen, ?_⟩
    intro hexact
    rw [hgen, hexact, int64OfFloat64_intCast n h1 h2]
  · intro ht q
    subst ht
    exact readBack_single protocol name methodInfo oneway fieldsList fieldInfo "double"
      TType.DOUBLE key16 _ (Token.float64 q) ReadDouble q hlookup honeway hfields hfind htype rfl
      hkey hempty
      (fun p => parse_double p fieldInfo _ _ q htype) (fun p rest h => ReadDouble_head p q rest h)
  · intro ht s
    subst ht
    exact readBack_single protocol name methodInfo oneway fieldsList fieldInfo "string"
      TType.STRING key16 _ (Token.string s) ReadString s hlookup honeway hfields hfind htype rfl
      hkey hempty
      (fun p => parse_string p fieldInfo _ _ s htype) (fun p rest h => ReadString_head p s rest h)

theorem scalar_read_back_witness :
    (getMethodInfo exampleWideProtocol.metadata exampleWideProtocol.service "store" =
        some (.ok exampleMethodStore) ∧
      getBoolVal exampleMethodStore [onewayKey] = some false ∧
      getArrayVal exampleMethodStore [argumentsKey] = some [Json.obj exampleFieldI64] ∧
      findInJsonArray [Json.obj exampleFieldI64] nameKey "x" = some exampleFieldI64 ∧
      getStringVal exampleFieldI64 [typeIdKey] = some "i64" ∧
      getDefaultInt16Val exampleFieldI64 keyKey 0 = some 1 ∧
      exampleWideProtocol.params = []) ∧
    float64OfInt 9007199254740992 = 9007199254740992 ∧
    readBack exampleWideProtocol (scalarRequest "store" (Json.ofInt 9007199254740992)) ReadI64 =
      some 9007199254740992 :=
  ⟨⟨rfl, rfl, rfl, rfl, rfl, rfl, rfl⟩, by decide,
    ((scalar_read_back exampleWideProtocol "store" exampleMethodStore false
      [Json.obj exampleFieldI64] exampleFieldI64 "i64" 1 rfl rfl rfl rfl rfl rfl rfl).2.2.2.2.1
      rfl 9007199254740992 (by decide) (by decide)).2 (by decide)⟩

/-- C9 as stated fails, for i8 and for i64. The i8 value -1 is stored as the byte 255 and
`ReadByte` returns 255. The i64 value 2^53 + 1 reaches the code as the float 2^53 and
`ReadI64` returns 2^53; the i64 value 2^63 - 1 reaches it as the float 2^63, whose
conversion to int64 gives -2^63. -/
theorem scalar_read_back_counterexample :
    (readBack exampleProtocol exampleNegativeByte ReadByte = some 255 ∧
      (readBack exampleProtocol exampleNegativeByte ReadByte).map Int.ofNat ≠ some (-1)) ∧
    (float64OfInt 9007199254740993 = 9007199254740992 ∧
      readBack exampleWideProtocol (scalarRequest "store" (Json.ofInt 9007199254740993))
        ReadI64 = some 9007199254740992) ∧
    (float64OfInt 9223372036854775807 = 9223372036854775808 ∧
      readBack exampleWideProtocol (scalarRequest "store" (Json.ofInt 9223372036854775807))
        ReadI64 = some (-9223372036854775808)) := by
  have h : readBack exampleProtocol exampleNegativeByte ReadByte = some 255 := by rfl
  refine ⟨⟨h, ?_⟩, ⟨by decide, by rfl⟩, ⟨by decide, by rfl⟩⟩
  rw [h]
  decide

/-! ## C11: a declared exception whose value is not an object -/

/-- Go `getJsonVal` on one key returns the object at the key, and panics on anything else. -/
theorem getJsonVal_of_lookup (json : Object) (key : String) (o : Object)
    (h : json.lookup key = some (.obj o)) : getJsonVal json [key] = some o := by
  unfold getJsonVal getVal Object.index
  rw [h]
  rfl

/-- A REPLY on a found method whose first key names a declared exception panics whenever the
value at that key is not a JSON object: `result.getJsonVal(errName)` asserts the map
unchecked, before `parse` and the checked branch of `parseStruct` are reached. -/
theorem not_object_exception_value_panic (protocol : WIJSONProtocol) (request : Object)
    (name : String) (methodInfo result : Object) (exceptions : List Json) (errInfo : Object)
    (key16 : Int)
    (hname : getDefaultStringVal request methodKey "" = some name)
    (hlookup : getMethodInfo protocol.metadata protocol.service name = some (.ok methodInfo))
    (hcall : hasKey request argumentsKey = false)
    (hresult : getJsonVal request [resultKey] = some result)
    (hsuccess : hasKey result successKey = false)
    (hne : result ≠ [])
    (hexc : getArrayVal methodInfo [exceptionsKey] = some exceptions)
    (hfind : findInJsonArray exceptions nameKey (firstKey result) = some errInfo)
    (hkey : getDefaultInt16Val errInfo keyKey 1 = some key16)
    (hvalue : toJsonCheck (Object.index result (firstKey result)) = none) :
    ReadMessageBegin protocol none (.ok (.obj request)) = .panic := by
  have hr := hasKey_of_getJsonVal request resultKey result hresult
  have hlen := length_ne_zero_of_ne_nil result hne
  have hj : getJsonVal result [firstKey result] = none := by
    unfold getJsonVal getVal
    cases hv : Object.index result (firstKey result) <;> rw [hv] at hvalue <;>
      simp [toJson, toJsonCheck] at hvalue ⊢
  simp only [ReadMessageBegin, NewJson, hname, hlookup, getMessageTypeAndSeq, hcall, hr,
    hresult, hsuccess, hlen, hexc, hfind, hkey, hj, Except.toOption]
  simp

/-- C11 fails on the code. The REPLY `{"method":"m","result":{"err":5}}` on a method `m` with
the declared exception `err` meets the conditions of the claim, and `ReadMessageBegin`
panics, at `result.getJsonVal(errName)`, instead of leaving the triple `("err", STRUCT, 1)`,
the tokens of the exception and `("", STOP, -1)` in the buffer. -/
theorem scalar_exception_value_panic :
    getMethodInfo exampleThrowsProtocol.metadata exampleThrowsProtocol.service "m" =
      some (.ok exampleMethodThrows) ∧
    hasKey exampleScalarErrReply argumentsKey = false ∧
    getJsonVal exampleScalarErrReply [resultKey] = some [("err", .num 5)] ∧
    hasKey [("err", Json.num 5)] successKey = false ∧
    findInJsonArray [.obj exampleErrInfo] nameKey (firstKey [("err", Json.num 5)]) =
      some exampleErrInfo ∧
    ReadMessageBegin exampleThrowsProtocol none (.ok (.obj exampleScalarErrReply)) = .panic :=
  ⟨rfl, rfl, rfl, rfl, rfl, rfl⟩

/-! ## C14, C15: the EXCEPTION body -/

/-- C14, as the code has it. EXCEPTION body: for every request whose `method` value is a
string or absent, without the keys `arguments` and `result`, whose `exception` value is an
object with a string, if any, at `message` and a number, if any, at `type`, and for every
metadata of the data model's shape (a package with a `services` array has a string `name`,
its services have a `functions` array), whether or not the method is found,
`ReadMessageBegin` returns `(name, EXCEPTION, 1)` with a nil error and the token buffer is
the buffer before the call followed by exactly `("", STRING, 1)`, the string at
`exception.message` (empty when absent), `("", I32, 2)`, the int32 at `exception.type`
(`UNKNOWN_APPLICATION_EXCEPTION` when absent) and `("", STOP, -1)`. -/
theorem exception_body (protocol : WIJSONProtocol) (request : Object) (exception : Object)
    (hmethod : request.lookup methodKey = none ∨
      ∃ s, request.lookup methodKey = some (.str s))
    (hmetadata : ServicesWellFormed protocol.metadata)
    (hcall : hasKey request argumentsKey = false)
    (hreply : hasKey request resultKey = false)
    (hexception : request.lookup exceptionKey = some (.obj exception))
    (hmessage : exception.lookup messageKey = none ∨
      ∃ s, exception.lookup messageKey = some (.str s))
    (htype : exception.lookup typeKey = none ∨ ∃ v, exception.lookup typeKey = some (.num v)) :
    ReadMessageBegin protocol none (.ok (.obj request)) =
      .ret ((methodName request, TMessageType.EXCEPTION, 1, none),
        { protocol with
          request := request
          params := protocol.params ++
            [Token.string "", Token.TType TType.STRING, Token.int16 1,
              Token.string (exceptionMessage exception),
              Token.string "", Token.TType TType.I32, Token.int16 2,
              Token.int32 (exceptionType exception),
              Token.string "", Token.TType TType.STOP, Token.int16 (-1)] }) ∧
    (exception.lookup messageKey = none → exceptionMessage exception = "") ∧
    (∀ s, exception.lookup messageKey = some (.str s) → exceptionMessage exception = s) ∧
    (exception.lookup typeKey = none →
      exceptionType exception = UNKNOWN_APPLICATION_EXCEPTION) ∧
    (∀ v, exception.lookup typeKey = some (.num v) →
      exceptionType exception = int32OfFloat64 v) := by
  refine ⟨?_, ?_, ?_, ?_, ?_⟩
  · exact readMessageBegin_exception protocol request (methodName request)
      (methodInfoSpec protocol.metadata protocol.service (methodName request)) exception
      (getDefaultStringVal_method request hmethod)
      (getMethodInfo_total protocol.metadata protocol.service (methodName request) hmetadata)
      hcall hreply (getJsonVal_of_lookup request exceptionKey exception hexception) hmessage htype
  · intro h; unfold exceptionMessage; rw [h]
  · intro s h; unfold exceptionMessage; rw [h]
  · intro h; unfold exceptionType; rw [h]
  · intro v h; unfold exceptionType; rw [h]

/-- The metadata of the example with the method `m` has the data model's shape. -/
theorem exampleThrows_wf : ServicesWellFormed exampleThrowsProtocol.metadata := by
  intro pkg services hp hs
  simp only [exampleThrowsProtocol, NewWIJSONProtocol, exampleThrowsMetadata,
    List.mem_singleton, Json.obj.injEq] at hp
  subst hp
  have hs2 : some (Json.arr [.obj [("name", .str "auth.Login"),
      ("functions", .arr [.obj exampleMethodThrows])]]) = some (Json.arr services) := hs
  simp only [Option.some.injEq, Json.arr.injEq] at hs2
  subst hs2
  refine ⟨⟨"auth", rfl⟩, ?_⟩
  intro service hsvc
  simp only [List.mem_singleton, Json.obj.injEq] at hsvc
  subst hsvc
  exact ⟨_, rfl⟩

theorem exception_body_witness :
    ((∃ s, List.lookup methodKey exampleException = some (.str s)) ∧
      ServicesWellFormed exampleThrowsProtocol.metadata ∧
      hasKey exampleException argumentsKey = false ∧
      hasKey exampleException resultKey = false ∧
      List.lookup exceptionKey exampleException =
        some (.obj [("message", .str "boom"), ("type", .num 6)]) ∧
      (∃ s, List.lookup messageKey [("message", Json.str "boom"), ("type", Json.num 6)] =
        some (.str s)) ∧
      (∃ v, List.lookup typeKey [("message", Json.str "boom"), ("type", Json.num 6)] =
        some (.num v))) ∧
    ReadMessageBegin exampleThrowsProtocol none (.ok (.obj exampleException)) =
      .ret ((methodName exampleException, TMessageType.EXCEPTION, 1, none),
        { exampleThrowsProtocol with
          request := exampleException
          params := exampleThrowsProtocol.params ++
            [Token.string "", Token.TType TType.STRING, Token.int16 1,
              Token.string (exceptionMessage [("message", .str "boom"), ("type", .num 6)]),
              Token.string "", Token.TType TType.I32, Token.int16 2,
              Token.int32 (exceptionType [("message", .str "boom"), ("type", .num 6)]),
              Token.string "", Token.TType TType.STOP, Token.int16 (-1)] }) ∧
    methodName exampleException = "m" ∧
    exceptionMessage [("message", .str "boom"), ("type", .num 6)] = "boom" ∧
    exceptionType [("message", .str "boom"), ("type", .num 6)] = 6 :=
  ⟨⟨⟨"m", rfl⟩, exampleThrows_wf, rfl, rfl, rfl, ⟨"boom", rfl⟩, ⟨6, rfl⟩⟩,
    (exception_body exampleThrowsProtocol exampleException
      [("message", .str "boom"), ("type", .num 6)] (Or.inr ⟨"m", rfl⟩) exampleThrows_wf rfl rfl
      rfl (Or.inr ⟨"boom", rfl⟩) (Or.inr ⟨6, rfl⟩)).1,
    rfl, rfl, by decide⟩

/-- C14 as stated fails. Each of these requests has no `arguments` and no `result` key and an
object as its `exception` value, and `ReadMessageBegin` panics instead of leaving the five
parts of the exception body in the buffer: `{"method":"m","exception":{}}` on a metadata
document whose package has the number 5 as its name; and, on well-formed metadata,
`{"method":"m","exception":{"message":5}}`, `{"method":"m","exception":{"type":"x"}}` and
`{"method":5,"exception":{}}`. -/
theorem exception_body_counterexample :
    (hasKey exampleEmptyException argumentsKey = false ∧
      hasKey exampleEmptyException resultKey = false ∧
      List.lookup exceptionKey exampleEmptyException = some (.obj []) ∧
      ReadMessageBegin exampleBadNameProtocol none (.ok (.obj exampleEmptyException)) =
        .panic) ∧
    (List.lookup exceptionKey exampleBadMessageException =
        some (.obj [("message", .num 5)]) ∧
      ReadMessageBegin exampleThrowsProtocol none (.ok (.obj exampleBadMessageException)) =
        .panic) ∧
    (List.lookup exceptionKey exampleBadTypeException = some (.obj [("type", .str "x")]) ∧
      ReadMessageBegin exampleThrowsProtocol none (.ok (.obj exampleBadTypeException)) =
        .panic) ∧
    (List.lookup exceptionKey exampleNumericMethodException = some (.obj []) ∧
      ReadMessageBegin exampleThrowsProtocol none (.ok (.obj exampleNumericMethodException)) =
        .panic) :=
  ⟨⟨rfl, rfl, rfl, rfl⟩, ⟨rfl, rfl⟩, ⟨rfl, rfl⟩, ⟨rfl, rfl⟩⟩

/-- C15, as the code has it. A method-lookup miss is reported on no envelope: for every
request with an exception envelope (no `arguments`, no `result` key, an object as the
`exception` value, with a string, if any, at `message` and a number, if any, at `type`) whose
method name is not found by `getMethodInfo`, `ReadMessageBegin` returns
`(name, EXCEPTION, 1)` with a nil error, leaves the deferred error as it was, so that
`ReadStructBegin` returns what it would have returned before, and appends the tokens of the
exception body, as it does for a method that is found; the lookup error is dropped. -/
theorem exception_miss_dropped (protocol : WIJSONProtocol) (request : Object)
    (name : String) (err : Err) (exception : Object)
    (hname : getDefaultStringVal request methodKey "" = some name)
    (hlookup : getMethodInfo protocol.metadata protocol.service name = some (.error err))
    (hcall : hasKey request argumentsKey = false)
    (hreply : hasKey request resultKey = false)
    (hexception : request.lookup exceptionKey = some (.obj exception))
    (hmessage : exception.lookup messageKey = none ∨
      ∃ s, exception.lookup messageKey = some (.str s))
    (htype : exception.lookup typeKey = none ∨ ∃ v, exception.lookup typeKey = some (.num v)) :
    ∃ q,
      ReadMessageBegin protocol none (.ok (.obj request)) =
        .ret ((name, TMessageType.EXCEPTION, 1, none), q) ∧
      q.err = protocol.err ∧
      (ReadStructBegin q).1 = ("", protocol.err) ∧
      q.params = protocol.params ++ exceptionTokens exception ∧
      ∀ methodInfo (found : WIJSONProtocol), found.params = protocol.params →
        getMethodInfo found.metadata found.service name = some (.ok methodInfo) →
        ∃ q1, ReadMessageBegin found none (.ok (.obj request)) =
          .ret ((name, TMessageType.EXCEPTION, 1, none), q1) ∧ q1.params = q.params := by
  refine ⟨_, readMessageBegin_exception protocol request name (.error err) exception hname
    hlookup hcall hreply (getJsonVal_of_lookup request exceptionKey exception hexception)
    hmessage htype, rfl, rfl, rfl, ?_⟩
  intro methodInfo found hparams hfound
  refine ⟨_, readMessageBegin_exception found request name (.ok methodInfo) exception hname
    hfound hcall hreply (getJsonVal_of_lookup request exceptionKey exception hexception)
    hmessage htype, ?_⟩
  simp only [hparams]

theorem exception_miss_dropped_witness :
    (getDefaultStringVal exampleUnknownException methodKey "" = some "loginUser" ∧
      getMethodInfo exampleProtocol.metadata exampleProtocol.service "loginUser" =
        some (.error (Err.New "Svc::loginUser not found!")) ∧
      hasKey exampleUnknownException argumentsKey = false ∧
      hasKey exampleUnknownException resultKey = false ∧
      List.lookup exceptionKey exampleUnknownException =
        some (.obj [("message", .str "Unknown function loginUser"), ("type", .num 1)])) ∧
    ∃ q,
      ReadMessageBegin exampleProtocol none (.ok (.obj exampleUnknownException)) =
        .ret (("loginUser", TMessageType.EXCEPTION, 1, none), q) ∧
      q.err = exampleProtocol.err ∧
      (ReadStructBegin q).1 = ("", exampleProtocol.err) ∧
      q.params = exampleProtocol.params ++
        exceptionTokens [("message", .str "Unknown function loginUser"), ("type", .num 1)] ∧
      ∀ methodInfo (found : WIJSONProtocol), found.params = exampleProtocol.params →
        getMethodInfo found.metadata found.service "loginUser" = some (.ok methodInfo) →
        ∃ q1, ReadMessageBegin found none (.ok (.obj exampleUnknownException)) =
          .ret (("loginUser", TMessageType.EXCEPTION, 1, none), q1) ∧ q1.params = q.params :=
  ⟨⟨rfl, rfl, rfl, rfl, rfl⟩,
    exception_miss_dropped exampleProtocol exampleUnknownException "loginUser"
      (Err.New "Svc::loginUser not found!")
      [("message", .str "Unknown function loginUser"), ("type", .num 1)]
      rfl rfl rfl rfl rfl (Or.inr ⟨_, rfl⟩) (Or.inr ⟨_, rfl⟩)⟩

end WIJSON
